import Mathlib

/-!
# kongo: request/response pipeline of the Kong Admin API client

A shallow embedding of `kongo.go` and `node.go`, and the properties of the
pipeline: construction of the client and of a request, classification of a
response by status code, the structured error and its formatting, decoding of
a success body, and the two accessors of the node service.

Conventions of the embedding:

* a Go `string` and a `[]byte` are both carried as a Lean `String`; the
  conversion `string(data)` is the identity;
* a Go pointer that may be `nil` is an `Option`; a `Response` value stands for
  the response a pointer refers to;
* a Go result pair `(x, err)` is a Lean pair of options where both can be
  set (`Do`), and an `Except` where exactly one is set;
* a method that writes through its receiver or through an argument returns
  the new state next to its result;
* the standard library is not part of the repository.  The transport, the
  functions of `net/url`, the method check of `http.NewRequest` and the
  binding of JSON to an `http.Response` are parameters of the functions of the
  package (`Client`, `Std`); `net/url` and the method check are also modelled
  (`Url`, `Http`) and make up the library `exampleStd` of the examples.
  `encoding/json` is modelled from its documented rules as far as the two
  calls of the package need it: a reader of JSON text (`Json.parseValue`),
  used on the whole body by `json.Unmarshal` and on the head of the stream by
  `json.Decoder`, and the binding of a JSON value to the Go types declared in
  the package (`Json.fits`, `Json.bindValue`, `bindErrorResponse`).  The
  reader and the binding are checked against a writer of JSON text
  (`Json.print`, `Json.encode`) that shares no code with them.

Not modelled: closing of the body, cancellation through the context, bytes
that are not valid UTF-8 in a body, and a nil receiver or a nil context.
-/

namespace kongo


/-! ## JSON documents, as `encoding/json` reads them -/

/-- A JSON value.  A number keeps its literal text; an object keeps its
members in the order of the text, duplicates included. -/
inductive JValue where
  | null
  | bool (b : Bool)
  | number (lit : String)
  | string (s : String)
  | array (xs : List JValue)
  | object (kvs : List (String × JValue))

namespace Json

/-- The four JSON whitespace characters. -/
def isSpace (c : Char) : Bool :=
  c = ' ' || c = '\t' || c = '\r' || c = '\n'

def skipSpace (cs : List Char) : List Char :=
  cs.dropWhile isSpace

def isDigit (c : Char) : Bool :=
  '0'.toNat ≤ c.toNat && c.toNat ≤ '9'.toNat

/-- Value of a hexadecimal digit. -/
def hexVal (c : Char) : Option Nat :=
  if '0'.toNat ≤ c.toNat ∧ c.toNat ≤ '9'.toNat then some (c.toNat - '0'.toNat)
  else if 'a'.toNat ≤ c.toNat ∧ c.toNat ≤ 'f'.toNat then some (c.toNat - 'a'.toNat + 10)
  else if 'A'.toNat ≤ c.toNat ∧ c.toNat ≤ 'F'.toNat then some (c.toNat - 'A'.toNat + 10)
  else none

/-- Value of the four hexadecimal digits of a `\u` escape. -/
def hex4 (a b c d : Char) : Option Nat :=
  match hexVal a, hexVal b, hexVal c, hexVal d with
  | some x, some y, some z, some w => some (((x * 16 + y) * 16 + z) * 16 + w)
  | _, _, _, _ => none

/-- The replacement character U+FFFD. -/
def replacementChar : Char := Char.ofNat 0xFFFD

/-- The rune of a `\u` escape whose value is `r`, given the text after it:
a high surrogate followed by an escaped low surrogate is one rune and
consumes that escape too; any other surrogate is U+FFFD. -/
def escapedRune (r : Nat) (rest : List Char) : Char × List Char :=
  if 0xD800 ≤ r ∧ r < 0xE000 then
    match rest with
    | '\\' :: 'u' :: a :: b :: c :: d :: rest2 =>
      match hex4 a b c d with
      | some r2 =>
        if r < 0xDC00 ∧ 0xDC00 ≤ r2 ∧ r2 < 0xE000 then
          (Char.ofNat ((r - 0xD800) * 0x400 + (r2 - 0xDC00) + 0x10000), rest2)
        else (replacementChar, rest)
      | none => (replacementChar, rest)
    | _ => (replacementChar, rest)
  else (Char.ofNat r, rest)

/-- The character a one-letter escape stands for. -/
def simpleEscape (e : Char) : Option Char :=
  if e = '"' then some '"'
  else if e = '\\' then some '\\'
  else if e = '/' then some '/'
  else if e = 'b' then some (Char.ofNat 8)
  else if e = 'f' then some (Char.ofNat 12)
  else if e = 'n' then some '\n'
  else if e = 'r' then some '\r'
  else if e = 't' then some '\t'
  else none

/-- The body of a string literal, after the opening quote: the decoded text
and the input after the closing quote.  `acc` holds the decoded characters in
reverse. -/
def parseStringBody : Nat → List Char → List Char → Option (String × List Char)
  | 0, _, _ => none
  | _ + 1, [], _ => none
  | n + 1, c :: rest, acc =>
    if c = '"' then some (String.mk acc.reverse, rest)
    else if c = '\\' then
      match rest with
      | [] => none
      | e :: r =>
        if e = 'u' then
          match r with
          | a :: b :: c2 :: d :: r2 =>
            match hex4 a b c2 d with
            | some v => parseStringBody n (escapedRune v r2).2 ((escapedRune v r2).1 :: acc)
            | none => none
          | _ => none
        else
          match simpleEscape e with
          | some x => parseStringBody n r (x :: acc)
          | none => none
    else if c.toNat < 0x20 then none
    else parseStringBody n rest (c :: acc)

/-- The digits at the head of the input, and what follows them. -/
def takeDigits (cs : List Char) : List Char × List Char :=
  cs.span isDigit

/-- The optional fraction and exponent of a number, appended to `pre`. -/
def parseFracExp (pre : List Char) (cs : List Char) : Option (List Char × List Char) :=
  let afterFrac : Option (List Char × List Char) :=
    match cs with
    | '.' :: r =>
      match takeDigits r with
      | ([], _) => none
      | (ds, r2) => some (pre ++ '.' :: ds, r2)
    | _ => some (pre, cs)
  match afterFrac with
  | none => none
  | some (lit, r) =>
    match r with
    | e :: r2 =>
      if e = 'e' ∨ e = 'E' then
        let signed : List Char × List Char :=
          match r2 with
          | s :: r3 => if s = '+' ∨ s = '-' then ([s], r3) else ([], r2)
          | [] => ([], r2)
        match takeDigits signed.2 with
        | ([], _) => none
        | (ds, r4) => some (lit ++ e :: signed.1 ++ ds, r4)
      else some (lit, r)
    | [] => some (lit, r)

/-- The integer part of a number (after the sign `pre`), then the rest. -/
def parseIntPart (pre : List Char) (cs : List Char) : Option (List Char × List Char) :=
  match cs with
  | [] => none
  | c :: r =>
    if c = '0' then parseFracExp (pre ++ [c]) r
    else if isDigit c then parseFracExp (pre ++ c :: (takeDigits r).1) (takeDigits r).2
    else none

/-- A number literal at the head of the input: its text and what follows. -/
def parseNumber (cs : List Char) : Option (List Char × List Char) :=
  match cs with
  | '-' :: r => parseIntPart ['-'] r
  | _ => parseIntPart [] cs

/-- The nesting of arrays and objects that the scanner accepts. -/
def maxNestingDepth : Nat := 10000

mutual
/-- The JSON value at the head of the input (after whitespace) and the input
that follows it; `none` when the head of the input is not a JSON value.  The
first argument bounds the number of steps, the second is the nesting still
allowed. -/
def parseValue : Nat → Nat → List Char → Option (JValue × List Char)
  | 0, _, _ => none
  | n + 1, d, cs =>
    match skipSpace cs with
    | [] => none
    | c :: r =>
      if c = '{' then
        match d with
        | 0 => none
        | d2 + 1 =>
          match skipSpace r with
          | [] => none
          | c2 :: r2 =>
            if c2 = '}' then some (JValue.object [], r2)
            else parseMembers n d2 (c2 :: r2) []
      else if c = '[' then
        match d with
        | 0 => none
        | d2 + 1 =>
          match skipSpace r with
          | [] => none
          | c2 :: r2 =>
            if c2 = ']' then some (JValue.array [], r2)
            else parseElements n d2 (c2 :: r2) []
      else if c = '"' then
        match parseStringBody (r.length + 1) r [] with
        | some (s, r2) => some (JValue.string s, r2)
        | none => none
      else if c = 't' then
        match r with
        | 'r' :: 'u' :: 'e' :: r2 => some (JValue.bool true, r2)
        | _ => none
      else if c = 'f' then
        match r with
        | 'a' :: 'l' :: 's' :: 'e' :: r2 => some (JValue.bool false, r2)
        | _ => none
      else if c = 'n' then
        match r with
        | 'u' :: 'l' :: 'l' :: r2 => some (JValue.null, r2)
        | _ => none
      else
        match parseNumber (c :: r) with
        | some (lit, r2) => some (JValue.number (String.mk lit), r2)
        | none => none
/-- The elements of an array from the first element up to and including
`]`. -/
def parseElements : Nat → Nat → List Char → List JValue → Option (JValue × List Char)
  | 0, _, _, _ => none
  | n + 1, d, cs, acc =>
    match parseValue n d cs with
    | none => none
    | some (v, r) =>
      match skipSpace r with
      | [] => none
      | c :: r2 =>
        if c = ',' then parseElements n d r2 (acc ++ [v])
        else if c = ']' then some (JValue.array (acc ++ [v]), r2)
        else none
/-- The members of an object from the first key up to and including `}`. -/
def parseMembers : Nat → Nat → List Char → List (String × JValue) →
    Option (JValue × List Char)
  | 0, _, _, _ => none
  | n + 1, d, cs, acc =>
    match skipSpace cs with
    | [] => none
    | q :: r =>
      if q = '"' then
        match parseStringBody (r.length + 1) r [] with
        | none => none
        | some (k, r2) =>
          match skipSpace r2 with
          | [] => none
          | c :: r3 =>
            if c = ':' then
              match parseValue n d r3 with
              | none => none
              | some (v, r4) =>
                match skipSpace r4 with
                | [] => none
                | c2 :: r5 =>
                  if c2 = ',' then parseMembers n d r5 (acc ++ [(k, v)])
                  else if c2 = '}' then some (JValue.object (acc ++ [(k, v)]), r5)
                  else none
            else none
      else none
end

/-- The first JSON value of a text and the text that follows it. -/
def readValue (data : String) : Option (JValue × List Char) :=
  parseValue (data.length + 1) maxNestingDepth data.data

/-- The value of a text that is one JSON document: a value with nothing but
whitespace around it.  This is what `json.Unmarshal` accepts. -/
def document (data : String) : Option JValue :=
  match readValue data with
  | some (v, rest) => if skipSpace rest = [] then some v else none
  | none => none

end Json

/-! ## Go values and the binding of JSON to them -/

/-- The Go types that occur in the declarations of `node.go`.  A struct lists
its fields in order of declaration: the Go name, the name in the `json` tag
(the text before the first comma) and the type. -/
inductive GoType where
  | string
  | int
  | bool
  | iface
  | ptr (t : GoType)
  | slice (t : GoType)
  | map (t : GoType)
  | struct (fields : List (String × String × GoType))

/-- Values of those types.  `nil` is the nil pointer, slice, map or interface;
an `interface{}` holds the JSON value it was given; a slice is its elements
(spare capacity is not modelled); a struct lists its fields by Go name. -/
inductive GoValue where
  | string (s : String)
  | int (i : Int)
  | bool (b : Bool)
  | nil
  | iface (v : JValue)
  | ptr (v : GoValue)
  | slice (vs : List GoValue)
  | map (kvs : List (String × GoValue))
  | struct (fields : List (String × GoValue))

mutual
/-- The zero value of a type. -/
def GoType.zero : GoType → GoValue
  | .string => .string ""
  | .int => .int 0
  | .bool => .bool false
  | .iface => .nil
  | .ptr _ => .nil
  | .slice _ => .nil
  | .map _ => .nil
  | .struct fs => .struct (GoType.zeroFields fs)
/-- The zero values of the fields of a struct. -/
def GoType.zeroFields : List (String × String × GoType) → List (String × GoValue)
  | [] => []
  | (name, _, t) :: fs => (name, GoType.zero t) :: GoType.zeroFields fs
end

namespace Json

/-- Case folding of a key, as far as it can reach an ASCII field name: ASCII
letters fold to lower case, U+017F to `s` and U+212A to `k`. -/
def foldChar (c : Char) : Char :=
  if c = Char.ofNat 0x17F then 's'
  else if c = Char.ofNat 0x212A then 'k'
  else if 'A'.toNat ≤ c.toNat ∧ c.toNat ≤ 'Z'.toNat then Char.ofNat (c.toNat + 32)
  else c

def foldName (s : String) : String :=
  String.mk (s.data.map foldChar)

/-- The field a key selects: the one whose JSON name is the key, else the
first one whose JSON name equals the key up to case. -/
def findField {α : Type} (fs : List (String × String × α)) (key : String) :
    Option (String × String × α) :=
  match fs.find? (fun f => f.2.1 = key) with
  | some f => some f
  | none => fs.find? (fun f => foldName f.2.1 = foldName key)

/-- The test by which a key selects a field among `fs`: equality of the JSON
name with the key when some field has that name, equality up to case
otherwise.  The first field that passes is the one selected. -/
def selector {α : Type} (fs : List (String × String × α)) (key : String) : String → Bool :=
  if fs.any (fun f => f.2.1 = key) then fun name => name = key
  else fun name => foldName name = foldName key

/-- Value of a string of decimal digits. -/
def digitsVal (cs : List Char) : Nat :=
  cs.foldl (fun acc c => acc * 10 + (c.toNat - '0'.toNat)) 0

/-- The Go `int` a number literal denotes: the literal is an integer without
fraction or exponent and lies in the 64-bit range. -/
def parseInt (lit : String) : Option Int :=
  let signed : Bool × List Char :=
    match lit.data with
    | '-' :: r => (true, r)
    | cs => (false, cs)
  if signed.2 ≠ [] ∧ signed.2.all isDigit then
    let i : Int := if signed.1 then - (digitsVal signed.2 : Int) else (digitsVal signed.2 : Int)
    if - (2 : Int) ^ 63 ≤ i ∧ i < (2 : Int) ^ 63 then some i else none
  else none

/-- Mantissa digits and decimal exponent of a number literal:
the literal denotes `digitsVal m * 10 ^ e`, up to sign. -/
def decimalParts (lit : String) : List Char × Int :=
  let unsigned : List Char := match lit.data with
    | '-' :: r => r
    | cs => cs
  let ip := takeDigits unsigned
  let fp : List Char × List Char := match ip.2 with
    | '.' :: r => takeDigits r
    | r => ([], r)
  let ex : Int := match fp.2 with
    | _ :: '-' :: r => - (digitsVal (takeDigits r).1 : Int)
    | _ :: '+' :: r => (digitsVal (takeDigits r).1 : Int)
    | _ :: r => (digitsVal (takeDigits r).1 : Int)
    | [] => 0
  (ip.1 ++ fp.1, ex - fp.1.length)

/-- Whether a number literal fits a `float64`: it is less than half a unit in
the last place above the largest finite value, `2 ^ 1024 - 2 ^ 970`. -/
def fitsFloat64 (lit : String) : Bool :=
  let p := decimalParts lit
  let m := digitsVal p.1
  if m = 0 then true
  else if (p.1.length : Int) + p.2 ≤ 308 then true
  else if 400 < p.2 then false
  else if 0 ≤ p.2 then decide (m * 10 ^ p.2.toNat < 2 ^ 1024 - 2 ^ 970)
  else decide (m < (2 ^ 1024 - 2 ^ 970) * 10 ^ (-p.2).toNat)

mutual
/-- Whether a JSON value can be stored in an `interface{}`: every number in
it fits a `float64`. -/
def fitsInterface : JValue → Bool
  | .number lit => fitsFloat64 lit
  | .array xs => fitsInterfaceAll xs
  | .object kvs => fitsInterfaceMembers kvs
  | _ => true
def fitsInterfaceAll : List JValue → Bool
  | [] => true
  | x :: xs => fitsInterface x && fitsInterfaceAll xs
def fitsInterfaceMembers : List (String × JValue) → Bool
  | [] => true
  | (_, x) :: kvs => fitsInterface x && fitsInterfaceMembers kvs
end

mutual
/-- The value an `interface{}` receives: a number that does not fit a
`float64` inside an array or object leaves a nil element. -/
def clearUnfit : JValue → JValue
  | .number lit => if fitsFloat64 lit then .number lit else .null
  | .array xs => .array (clearUnfitAll xs)
  | .object kvs => .object (clearUnfitMembers kvs)
  | .null => .null
  | .bool b => .bool b
  | .string s => .string s
def clearUnfitAll : List JValue → List JValue
  | [] => []
  | x :: xs => clearUnfit x :: clearUnfitAll xs
def clearUnfitMembers : List (String × JValue) → List (String × JValue)
  | [] => []
  | (k, x) :: kvs => (k, clearUnfit x) :: clearUnfitMembers kvs
end

/-- Assignment `m[k] = v` on a map kept as a list of entries. -/
def mapSet : List (String × GoValue) → String → GoValue → List (String × GoValue)
  | [], k, v => [(k, v)]
  | (k2, v2) :: m, k, v => if k2 = k then (k2, v) :: m else (k2, v2) :: mapSet m k v

/-- Assignment to the field `name` of a struct value. -/
def setField : List (String × GoValue) → String → GoValue → List (String × GoValue)
  | [], _, _ => []
  | (k2, v2) :: m, k, v => if k2 = k then (k2, v) :: m else (k2, v2) :: setField m k v

/-- The field `name` of a struct value. -/
def getField (fs : List (String × GoValue)) (name : String) : Option GoValue :=
  match fs.find? (fun f => f.1 = name) with
  | some f => some f.2
  | none => none

/-- Binding of the elements of an array to a slice by `f`: element `i` is
bound to the element the slice holds at `i`, or to the zero value `z` past its
length; the slice ends with as many elements as the array has. -/
def bindElems (f : JValue → GoValue → GoValue) (z : GoValue) :
    List JValue → List GoValue → List GoValue
  | [], _ => []
  | x :: xs, old => f x (old.headD z) :: bindElems f z xs old.tail

/-- Binding of the members of an object to a map by `f`: each member is bound
to the zero value `z`, which is then stored under the key. -/
def bindEntries (f : JValue → GoValue → GoValue) (z : GoValue) :
    List (String × JValue) → List (String × GoValue) → List (String × GoValue)
  | [], old => old
  | (k, x) :: kvs, old => bindEntries f z kvs (mapSet old k (f x z))

mutual
/-- Whether a JSON value binds to a Go value of type `t` without an
`UnmarshalTypeError`: `null` fits every type, a member of an object that
selects no field of a struct is skipped. -/
def fits : GoType → JValue → Bool
  | .string, j =>
    match j with
    | .null => true
    | .string _ => true
    | _ => false
  | .int, j =>
    match j with
    | .null => true
    | .number lit => (parseInt lit).isSome
    | _ => false
  | .bool, j =>
    match j with
    | .null => true
    | .bool _ => true
    | _ => false
  | .iface, j => fitsInterface j
  | .ptr t, j =>
    match j with
    | .null => true
    | j => fits t j
  | .slice t, j =>
    match j with
    | .null => true
    | .array xs => xs.all (fits t)
    | _ => false
  | .map t, j =>
    match j with
    | .null => true
    | .object kvs => kvs.all (fun kv => fits t kv.2)
    | _ => false
  | .struct fs, j =>
    match j with
    | .null => true
    | .object kvs => kvs.all (fun kv => fitsField fs (selector fs kv.1) kv.2)
    | _ => false
/-- Whether a JSON value fits the first field whose JSON name passes `p`. -/
def fitsField : List (String × String × GoType) → (String → Bool) → JValue → Bool
  | [], _, _ => true
  | (_, json, t) :: fs, p, x => if p json then fits t x else fitsField fs p x
end

mutual
/-- The Go value of type `t` that holds `cur` after a JSON value is bound to
it.  A part of the JSON value that does not fit leaves its target as it is,
and binding goes on past it. -/
def bindValue : GoType → JValue → GoValue → GoValue
  | .string, j, cur =>
    match j with
    | .string s => .string s
    | _ => cur
  | .int, j, cur =>
    match j with
    | .number lit =>
      match parseInt lit with
      | some i => .int i
      | none => cur
    | _ => cur
  | .bool, j, cur =>
    match j with
    | .bool b => .bool b
    | _ => cur
  | .iface, j, cur =>
    match j with
    | .null => .nil
    | .number lit => if fitsFloat64 lit then .iface (.number lit) else cur
    | j => .iface (clearUnfit j)
  | .ptr t, j, cur =>
    match j with
    | .null => .nil
    | j =>
      .ptr (bindValue t j
        (match cur with
          | .ptr v => v
          | _ => t.zero))
  | .slice t, j, cur =>
    match j with
    | .null => .nil
    | .array xs =>
      .slice (bindElems (bindValue t) t.zero xs
        (match cur with
          | .slice vs => vs
          | _ => []))
    | _ => cur
  | .map t, j, cur =>
    match j with
    | .null => .nil
    | .object kvs =>
      .map (bindEntries (bindValue t) t.zero kvs
        (match cur with
          | .map m => m
          | _ => []))
    | _ => cur
  | .struct fs, j, cur =>
    match j with
    | .object kvs =>
      .struct (kvs.foldl (fun old kv => bindField fs (selector fs kv.1) kv.2 old)
        (match cur with
          | .struct vs => vs
          | _ => GoType.zeroFields fs))
    | _ => cur
/-- Binding of a JSON value to the first field whose JSON name passes `p`;
without such a field the struct stays as it is. -/
def bindField : List (String × String × GoType) → (String → Bool) → JValue →
    List (String × GoValue) → List (String × GoValue)
  | [], _, _, old => old
  | (name, json, t) :: fs, p, x, old =>
    if p json then setField old name (bindValue t x ((getField old name).getD t.zero))
    else bindField fs p x old
end

end Json

/-! ## Data model of `kongo.go` -/

/-- The body stream of a response: the bytes it delivers, then either the end
of the stream or the error that interrupts it. -/
structure Body where
  data : String
  readErr : Option String
deriving DecidableEq, Repr

/-- The part of `http.Response` the package looks at. -/
structure Response where
  StatusCode : Int
  Body : Body
deriving DecidableEq, Repr

/-- The struct `ErrorResponse`.  `Response` is a pointer and may be nil. -/
structure ErrorResponse where
  Response : Option Response
  Message : String
deriving DecidableEq, Repr

/-- Values of the Go interface `error` that the package hands to its callers. -/
inductive Error where
  /-- Made by `errors.New`. -/
  | new (msg : String)
  /-- Returned by `url.Parse`. -/
  | url (msg : String)
  /-- Returned by `http.NewRequest` for a method it rejects. -/
  | method (msg : String)
  /-- Returned by the transport. -/
  | transport (msg : String)
  /-- Returned by `json.Decoder.Decode`: a syntax error, the end of the
  input, a value that does not fit the destination, or the error of the
  body stream. -/
  | decode
  /-- An `*ErrorResponse`. -/
  | response (e : ErrorResponse)
deriving DecidableEq, Repr

/-- The struct `url.URL`. -/
structure URL where
  Scheme : String
  Opaque : String
  User : Option (String × Option String)
  Host : String
  Path : String
  RawPath : String
  ForceQuery : Bool
  RawQuery : String
  Fragment : String
  RawFragment : String
  OmitHost : Bool
deriving DecidableEq, Repr

/-- The value `url.URL{}`. -/
def URL.zero : URL :=
  { Scheme := "", Opaque := "", User := none, Host := "", Path := "", RawPath := "",
    ForceQuery := false, RawQuery := "", Fragment := "", RawFragment := "", OmitHost := false }

/-- A `context.Context`. -/
inductive Context where
  | background
  | todo
  | derived (id : Nat)
deriving DecidableEq, Repr

/-- An `http.Header`: canonical keys with their values, in the order the keys
were first added. -/
abbrev Header := List (String × List String)

/-- The method `Header.Add` for a key in canonical form: the value is appended
to the values of the key. -/
def Header.Add : Header → String → String → Header
  | [], key, value => [(key, [value])]
  | (k, vs) :: h, key, value =>
    if k = key then (k, vs ++ [value]) :: h else (k, vs) :: Header.Add h key value

/-- The method `Header.Get`: the first value of the key, or the empty string. -/
def Header.Get (h : Header) (key : String) : String :=
  match h.find? (fun kv => kv.1 = key) with
  | some (_, v :: _) => v
  | _ => ""

/-- The part of `http.Request` the package sets. -/
structure Request where
  Method : String
  URL : URL
  Header : Header
  Body : Option String
  ctx : Context
deriving DecidableEq, Repr

/-- The method `Request.WithContext`. -/
def Request.WithContext (r : Request) (ctx : Context) : Request :=
  { r with ctx := ctx }

/-- An `http.Client`: its method `Do` either fails or delivers a response. -/
structure Client where
  Do : Request → Except Error Response

/-- The functions of the standard library that the package calls and whose
results it only passes on. -/
structure Std where
  /-- The function `url.Parse`. -/
  parse : String → Except String URL
  /-- The method `URL.ResolveReference` of the base, applied to a reference. -/
  resolveReference : URL → URL → URL
  /-- The method `URL.String`. -/
  urlString : URL → String
  /-- Whether `http.NewRequest` accepts a non-empty method. -/
  validMethod : String → Bool
  /-- The host normalisation `http.NewRequest` applies to the parsed URL. -/
  removeEmptyPort : URL → URL
  /-- The value `http.DefaultClient`. -/
  DefaultClient : Client
  /-- Binding of a JSON value other than `null` to an existing
  `http.Response`: the response afterwards, and whether a value did not fit. -/
  bindResponse : JValue → Response → Response × Bool
  /-- Binding of a JSON value other than `null` to a newly allocated
  `http.Response`. -/
  bindNewResponse : JValue → Response × Bool

def version : String := "v0"
def userAgent : String := "kongo/" ++ version
def mediaType : String := "application/json"

/-- The struct `Kongo`. -/
structure Kongo where
  client : Client
  BaseURL : URL
  UserAgent : String



/-! ## Reading the body -/

/-- The function `ioutil.ReadAll` on a body: the bytes, or the error of the
stream. -/
def ReadAll (b : Body) : Except String String :=
  match b.readErr with
  | some e => .error e
  | none => .ok b.data

/-- The function `json.Unmarshal` as far as the syntax goes: the value of the
data when the data is one JSON document. -/
def unmarshalValue (data : String) : Option JValue :=
  Json.document data

/-- The first step of `json.NewDecoder(body).Decode`: the first JSON value of
the stream.  What follows the value is not looked at.  An object or array is
complete at its closing bracket; any other value is complete at the byte after
it or at the end of the stream, so that a stream that breaks off with an error
right after such a value yields the error. -/
def decodeValue (b : Body) : Option JValue :=
  match Json.readValue b.data with
  | none => none
  | some (v, rest) =>
    match b.readErr with
    | none => some v
    | some _ =>
      match v, rest with
      | .object _, _ => some v
      | .array _, _ => some v
      | _, _ :: _ => some v
      | _, [] => none


/-! ## Binding of a JSON document to `ErrorResponse` -/

/-- The two fields of `ErrorResponse` with the names their tags give them:
`Response` has no tag, `Message` has the tag `json:"message, omitempty"`. -/
inductive ErrorField where
  | Response
  | Message
deriving DecidableEq, Repr

def errorResponseFields : List (String × String × ErrorField) :=
  [("Response", "Response", .Response), ("Message", "message", .Message)]

/-- State of `json.Unmarshal(data, errorResponse)`: the response the transport
delivered (`res`), whether `e.Response` still points to it, the struct, and
whether a value did not fit. -/
structure UnmarshalState where
  res : Response
  aliased : Bool
  e : ErrorResponse
  bad : Bool

/-- Binding of one member of a JSON object to `ErrorResponse`. -/
def bindErrorMember (S : Std) (st : UnmarshalState) (key : String) (v : JValue) :
    UnmarshalState :=
  match Json.findField errorResponseFields key with
  | none => st
  | some (_, _, .Message) =>
    match v with
    | .null => st
    | .string s => { st with e := { st.e with Message := s } }
    | _ => { st with bad := true }
  | some (_, _, .Response) =>
    match v with
    | .null => { st with aliased := false, e := { st.e with Response := none } }
    | _ =>
      match st.e.Response with
      | some r =>
        let out := S.bindResponse v r
        { res := if st.aliased then out.1 else st.res
          aliased := st.aliased
          e := { st.e with Response := some out.1 }
          bad := st.bad || out.2 }
      | none =>
        let out := S.bindNewResponse v
        { st with e := { st.e with Response := some out.1 }, bad := st.bad || out.2 }

/-- Binding of a JSON value to `ErrorResponse`: `null` changes nothing, an
object binds its members in order, any other value does not fit. -/
def bindErrorResponse (S : Std) (st : UnmarshalState) : JValue → UnmarshalState
  | .null => st
  | .object kvs => kvs.foldl (fun s kv => bindErrorMember S s kv.1 kv.2) st
  | _ => { st with bad := true }


/-! ## `kongo.go` -/

/-- The method `Kongo.checkResponse`: the state of the response afterwards and
the error, `none` for the nil error. -/
def checkResponse (S : Std) (res : Response) : Response × Option ErrorResponse :=
  if 200 ≤ res.StatusCode ∧ res.StatusCode ≤ 299 then (res, none)
  else
    let errorResponse : ErrorResponse := { Response := some res, Message := "" }
    match ReadAll res.Body with
    | .error _ => (res, some errorResponse)
    | .ok data =>
      if data.length = 0 then (res, some errorResponse)
      else
        match unmarshalValue data with
        | none => (res, some { errorResponse with Message := data })
        | some v =>
          let st := bindErrorResponse S
            { res := res, aliased := true, e := errorResponse, bad := false } v
          if st.bad then (st.res, some { st.e with Message := data })
          else (st.res, some st.e)

/-- The function `fmt.Sprintf("%d %s", c, m)`. -/
def sprintfStatus (c : Int) (m : String) : String :=
  toString c ++ " " ++ m

/-- The method `ErrorResponse.Error`: the string it returns and the struct
afterwards.  With a nil `Response` the call panics after the write to
`Message`; no string is returned then. -/
def ErrorResponse.Error (e : ErrorResponse) : Option String × ErrorResponse :=
  let e2 : ErrorResponse := if e.Message = "" then { e with Message := "Request error" } else e
  match e2.Response with
  | none => (none, e2)
  | some r => (some (sprintfStatus r.StatusCode e2.Message), e2)

/-- A destination of `Do`: a pointer to a variable of type `ty` that holds
`val`. -/
structure Dest where
  ty : GoType
  val : GoValue

/-- The call `json.NewDecoder(body).Decode(value)`: the destination
afterwards and whether the call returned an error.  The call fails when the
stream holds no first JSON value and when that value does not fit the type of
the destination. -/
def Decode (b : Body) (d : Dest) : Dest × Bool :=
  match decodeValue b with
  | none => (d, true)
  | some v => ({ d with val := Json.bindValue d.ty v d.val }, !Json.fits d.ty v)

/-- The method `Kongo.Do`: the response, the error, and the destination
afterwards.  `value` is `none` for the nil interface. -/
def Kongo.Do (S : Std) (k : Kongo) (req : Request) (value : Option Dest) :
    Option Response × Option Error × Option Dest :=
  match k.client.Do req with
  | .error err => (none, some err, value)
  | .ok res =>
    match checkResponse S res with
    | (res2, some e) => (some res2, some (Error.response e), value)
    | (res2, none) =>
      match value with
      | none => (some res2, none, none)
      | some d =>
        if (Decode res2.Body d).2 then (none, some Error.decode, some (Decode res2.Body d).1)
        else (some res2, none, some (Decode res2.Body d).1)


/-- The function `NewClient`.  `client` and `baseURL` are pointers. -/
def NewClient (S : Std) (client : Option Client) (baseURL : Option URL) : Except Error Kongo :=
  let client : Client := match client with
    | none => S.DefaultClient
    | some c => c
  match baseURL with
  | none => .error (Error.new "Empty URL is not allowed")
  | some u => .ok { client := client, BaseURL := u, UserAgent := userAgent }

/-- The function `New`. -/
def New (S : Std) (client : Option Client) (baseURL : String) : Except Error Kongo :=
  if baseURL = "" then .error (Error.new "Empty URL is not allowed")
  else
    match S.parse baseURL with
    | .error err => .error (Error.url err)
    | .ok parsedURL => NewClient S client (some parsedURL)

/-- The function `http.NewRequest` with a nil body: an empty method stands
for GET, the method is checked, the URL is parsed and its host normalised,
and the request starts with no header and no body. -/
def httpNewRequest (S : Std) (method : String) (urlStr : String) : Except Error Request :=
  let m : String := if method = "" then "GET" else method
  if S.validMethod m then
    match S.parse urlStr with
    | .error err => .error (Error.url err)
    | .ok u =>
      .ok { Method := m, URL := S.removeEmptyPort u, Header := [], Body := none,
            ctx := Context.background }
  else .error (Error.method m)

/-- The method `Kongo.NewRequest`. -/
def Kongo.NewRequest (S : Std) (k : Kongo) (ctx : Context) (method : String)
    (resource : String) : Except Error Request :=
  match S.parse resource with
  | .error err => .error (Error.url err)
  | .ok res =>
    let url := S.resolveReference k.BaseURL res
    match httpNewRequest S method (S.urlString url) with
    | .error err => .error err
    | .ok req =>
      let req := req.WithContext ctx
      let req := { req with Header := Header.Add req.Header "Content-Type" mediaType }
      let req := { req with Header := Header.Add req.Header "Accept" mediaType }
      let req := { req with Header := Header.Add req.Header "User-Agent" userAgent }
      .ok req


/-! ## `node.go` -/

def nodeInfoResourcePath : String := "/"
def nodeStatusResourcePath : String := "/status"

/-- The constant `http.MethodGet`. -/
def MethodGet : String := "GET"

/-- A field of a struct declaration: Go name, name in the `json` tag, type. -/
def field (name : String) (json : String) (t : GoType) : String × String × GoType :=
  (name, json, t)

/-- The struct `NodeInfoListener`. -/
def NodeInfoListener : GoType :=
  .struct [
    field "IP" "ip" .string,
    field "Listener" "listener" .string,
    field "Port" "port" .int,
    field "Protocol" "protocol" .bool,
    field "SSL" "ssl" .bool,
    field "HTTP2" "http2" .bool]

/-- The struct `NodeInfoConfiguration`. -/
def NodeInfoConfiguration : GoType :=
  .struct [
    field "AdminAcessLog" "admin_access_log" .string,
    field "AdminErrorLog" "admin_error_log" .string,
    field "AdminSSLCertificateDefault" "admin_ssl_cert_default" .string,
    field "AdminSSLCertificateCsrDefault" "admin_ssl_cert_csr_default" .string,
    field "AdminSSLCertificateKeyDefault" "admin_ssl_cert_key_default" .string,
    field "AdminListen" "admin_listen" (.slice .string),
    field "AdminListeners" "admin_listeners" (.slice (.ptr NodeInfoListener)),
    field "CassandraConsistency" "cassandra_consistency" .string,
    field "CassandraKeyspace" "cassandra_keyspace" .string,
    field "CassandraLBPolicy" "cassandra_lb_policy" .string,
    field "CassandraReplicationStrategy" "cassandra_repl_strategy" .string,
    field "CassandraUsername" "cassandra_username" .string,
    field "CassandraContactPoints" "cassandra_contact_points" (.slice .string),
    field "CassandraDataCenters" "cassandra_data_centers" (.slice .string),
    field "CassandraPort" "cassandra_port" .int,
    field "CassandraReplicationFactor" "cassandra_repl_factor" .int,
    field "CassandraSchemaConsensusTimeout" "cassandra_schema_consensus_timeout" .int,
    field "CassandraTimeout" "cassandra_timeout" .int,
    field "ClientBodyBufferSize" "client_body_buffer_size" .string,
    field "ClientMaxBodySize" "client_max_body_size" .string,
    field "ClientSSLCertificateCsrDefault" "client_ssl_cert_csr_default" .string,
    field "ClientSSLCertificateDefault" "client_ssl_cert_default" .string,
    field "ClientSSLCertificateKeyDefault" "client_ssl_cert_key_default" .string,
    field "CustomPlugins" "custom_plugins" .iface,
    field "Database" "database" .string,
    field "DatabaseCacheTTL" "db_cache_ttl" .int,
    field "DatabaseUpdateFrequency" "db_update_frequency" .int,
    field "DatabaseUpdatePropagation" "db_update_propagation" .int,
    field "DNSHostsFile" "dns_hostsfile" .string,
    field "DNSOrder" "dns_order" (.slice .string),
    field "DNSResolver" "dns_resolver" .iface,
    field "DNSNotFoundTTL" "dns_not_found_ttl" .int,
    field "DNSErrorTTL" "dns_error_ttl" .int,
    field "DNSStaleTTL" "dns_stale_ttl" .int,
    field "ErrorDefaultType" "error_default_type" .string,
    field "KongEnv" "kong_env" .string,
    field "LuaPackageCPath" "lua_package_cpath" .string,
    field "LuaPackagePath" "lua_package_path" .string,
    field "LuaSocketPoolSize" "lua_socket_pool_size" .int,
    field "LuaSSLVerifyDepth" "lua_ssl_verify_depth" .int,
    field "LogLevel" "log_level" .string,
    field "MemoryCacheSize" "mem_cache_size" .string,
    field "NginxAccessLogs" "nginx_acc_logs" .string,
    field "NginxAdminAccessLog" "nginx_admin_acc_logs" .string,
    field "NginxConf" "nginx_conf" .string,
    field "NginxDaemon" "nginx_daemon" .string,
    field "NginxErrorLogs" "nginx_err_logs" .string,
    field "NginxKongConf" "nginx_kong_conf" .string,
    field "NginxPID" "nginx_pid" .string,
    field "NginxWorkerProcesses" "nginx_worker_processes" .string,
    field "Plugins" "plugins" (.map .bool),
    field "PostgresDatabase" "pg_database" .string,
    field "PostgresHost" "pg_host" .string,
    field "PostgresUsername" "pg_user" .string,
    field "PostgresPort" "pg_port" .int,
    field "Prefix" "prefix" .string,
    field "ProxyAccessLog" "proxy_access_log" .string,
    field "ProxyErrorLog" "proxy_error_log" .string,
    field "ProxyListen" "proxy_listen" (.slice .string),
    field "ProxyListeners" "proxy_listeners" (.slice (.ptr NodeInfoListener)),
    field "RealIPHeader" "real_ip_header" .string,
    field "RealIPRecursive" "real_ip_recursive" .string,
    field "SSLCertificate" "ssl_cert" .string,
    field "SSLCertificateDefault" "ssl_cert_default" .string,
    field "SSLCertificateKey" "ssl_cert_key" .string,
    field "SSLCertificateDefaultKey" "ssl_cert_key_default" .string,
    field "SSLCertificateCsrDefault" "ssl_cert_csr_default" .string,
    field "SSLCiphers" "ssl_ciphers" .string,
    field "SSLCipherSuite" "ssl_cipher_suite" .string,
    field "TrustedIPs" "trusted_ips" .iface,
    field "UpstreamKeepAlive" "upstream_keepalive" .int,
    field "AdminSSLEnabled" "admin_ssl_enabled" .bool,
    field "AnonymousReports" "anonymous_reports" .bool,
    field "ClientSSL" "client_ssl" .bool,
    field "CassandraSSL" "cassandra_ssl" .bool,
    field "CassandraSSLVerify" "cassandra_ssl_verify" .bool,
    field "DNSNoSync" "dns_no_sync" .bool,
    field "LatencyTokens" "latency_tokens" .bool,
    field "NginxOptimizations" "nginx_optimizations" .bool,
    field "PostgresSSL" "pg_ssl" .bool,
    field "PostgresSSLVerify" "pg_ssl_verify" .bool,
    field "ProxySSLEnabled" "proxy_ssl_enabled" .bool,
    field "ServerTokens" "server_tokens" .bool]

/-- The struct `NodeInfoPlugins`. -/
def NodeInfoPlugins : GoType :=
  .struct [
    field "AvailableOnServer" "available_on_server" (.map .bool),
    field "EnabledInCluster" "enabled_in_cluster" (.slice .string)]

/-- The struct `NodeInfoTimers`. -/
def NodeInfoTimers : GoType :=
  .struct [
    field "Pending" "pending" .int,
    field "Running" "running" .int]

/-- The struct `NodeInfo`. -/
def NodeInfo : GoType :=
  .struct [
    field "Configuration" "configuration" (.ptr NodeInfoConfiguration),
    field "Hostname" "hostname" .string,
    field "LuaVersion" "lua_version" .string,
    field "Plugins" "plugins" (.ptr NodeInfoPlugins),
    field "PrngSeeds" "prng_seeds" (.map .int),
    field "Tagline" "tagline" .string,
    field "Timers" "timers" (.ptr NodeInfoTimers),
    field "Version" "version" .string]

/-- The struct `NodeStatusDatabase`. -/
def NodeStatusDatabase : GoType :=
  .struct [
    field "Reachable" "reachable" .bool]

/-- The struct `NodeStatusServer`. -/
def NodeStatusServer : GoType :=
  .struct [
    field "ConnectionsAccepted" "connections_accepted" .int,
    field "ConnectionsActive" "connections_active" .int,
    field "ConnectionsHandled" "connections_handled" .int,
    field "ConnectionsReading" "connections_reading" .int,
    field "ConnectionsWaiting" "connections_waiting" .int,
    field "ConnectionsWriting" "connections_writing" .int,
    field "TotalRequests" "total_requests" .int]

/-- The struct `NodeStatus`. -/
def NodeStatus : GoType :=
  .struct [
    field "Database" "database" (.ptr NodeStatusDatabase),
    field "Server" "server" (.ptr NodeStatusServer)]

/-- The struct `NodeService`. -/
structure NodeService where
  client : Kongo

/-- Modelled from the spec: the `NewRequest` that `node.go` calls, with a
parsed resource and a body; `kongo.go` declares `NewRequest` with a resource
string and without a body.  The resource is resolved against the base URL of
the client; a resource that could not be parsed (a nil URL) is an invalid
path; the three fixed headers are attached and the context is bound; the body
is passed on as it is. -/
def Kongo.NewRequestURL (S : Std) (k : Kongo) (ctx : Context) (method : String)
    (resource : Option URL) (body : Option String) : Except Error Request :=
  match resource with
  | none => .error (Error.url "invalid path")
  | some res =>
    let url := S.resolveReference k.BaseURL res
    match httpNewRequest S method (S.urlString url) with
    | .error err => .error err
    | .ok req =>
      let req := { req with Body := body }
      let req := req.WithContext ctx
      let req := { req with Header := Header.Add req.Header "Content-Type" mediaType }
      let req := { req with Header := Header.Add req.Header "Accept" mediaType }
      let req := { req with Header := Header.Add req.Header "User-Agent" userAgent }
      .ok req

/-- The result of `url.Parse` with the error dropped, as in
`resource, _ := url.Parse(path)`: nil when the parse fails. -/
def parseResource (S : Std) (path : String) : Option URL :=
  match S.parse path with
  | .ok u => some u
  | .error _ => none

/-- The method `NodeService.InfoWithContext`: the typed result, the response
and the error. -/
def NodeService.InfoWithContext (S : Std) (n : NodeService) (ctx : Context) :
    Option GoValue × Option Response × Option Error :=
  let resource := parseResource S nodeInfoResourcePath
  match n.client.NewRequestURL S ctx MethodGet resource none with
  | .error err => (none, none, some err)
  | .ok req =>
    let nodeInfo : Dest := { ty := NodeInfo, val := NodeInfo.zero }
    match n.client.Do S req (some nodeInfo) with
    | (res, some err, _) => (none, res, some err)
    | (res, none, d) => (some (d.getD nodeInfo).val, res, none)

/-- The method `NodeService.Info`. -/
def NodeService.Info (S : Std) (n : NodeService) :
    Option GoValue × Option Response × Option Error :=
  n.InfoWithContext S Context.todo

/-- The method `NodeService.StatusWithContext`. -/
def NodeService.StatusWithContext (S : Std) (n : NodeService) (ctx : Context) :
    Option GoValue × Option Response × Option Error :=
  let resource := parseResource S nodeStatusResourcePath
  match n.client.NewRequestURL S ctx MethodGet resource none with
  | .error err => (none, none, some err)
  | .ok req =>
    let nodeStatus : Dest := { ty := NodeStatus, val := NodeStatus.zero }
    match n.client.Do S req (some nodeStatus) with
    | (res, some err, _) => (none, res, some err)
    | (res, none, d) => (some (d.getD nodeStatus).val, res, none)

/-- The method `NodeService.Status`. -/
def NodeService.Status (S : Std) (n : NodeService) :
    Option GoValue × Option Response × Option Error :=
  n.StatusWithContext S Context.todo

/-- The string field `name` of a struct value. -/
def GoValue.stringField (v : GoValue) (name : String) : Option String :=
  match v with
  | .struct fs =>
    match Json.getField fs name with
    | some (.string s) => some s
    | _ => none
  | _ => none



/-! ## `net/url` and the checks of `http.NewRequest`

The functions of the standard library that build and resolve URLs, modelled
from their documented behaviour (RFC 3986 as `net/url` implements it).  A Go
string is a sequence of bytes; here a byte is the character with that code, so
the texts are those whose characters lie below 256.  An error carries its
cause without the quoted operand. -/

namespace Url

/-- The escaping modes of `net/url`. -/
inductive Encoding where
  | encodePath
  | encodePathSegment
  | encodeHost
  | encodeZone
  | encodeUserPassword
  | encodeQueryComponent
  | encodeFragment
deriving DecidableEq, Repr

def isLetter (c : Char) : Bool :=
  ('a'.toNat ≤ c.toNat && c.toNat ≤ 'z'.toNat) || ('A'.toNat ≤ c.toNat && c.toNat ≤ 'Z'.toNat)

def isDigit (c : Char) : Bool :=
  '0'.toNat ≤ c.toNat && c.toNat ≤ '9'.toNat

/-- The function `strings.ToLower` on an ASCII letter. -/
def toLower (c : Char) : Char :=
  if 'A'.toNat ≤ c.toNat ∧ c.toNat ≤ 'Z'.toNat then Char.ofNat (c.toNat + 32) else c

/-- The apostrophe. -/
def apostrophe : Char := Char.ofNat 39

/-- The characters a host may hold unescaped besides letters, digits and
marks. -/
def hostDelims : List Char :=
  ['!', '$', '&', apostrophe, '(', ')', '*', '+', ',', ';', '=', ':', '[', ']', '<', '>', '"']

/-- The reserved characters of RFC 3986 section 2.2 that `shouldEscape`
decides by mode. -/
def reserved : List Char :=
  ['$', '&', '+', ',', '/', ':', ';', '=', '?', '@']

/-- The function `shouldEscape`: whether a byte is written as `%XX` in the
given part of a URL. -/
def shouldEscape (c : Char) (mode : Encoding) : Bool :=
  if isLetter c || isDigit c then false
  else if (mode = .encodeHost || mode = .encodeZone) && hostDelims.elem c then false
  else if c = '-' || c = '_' || c = '.' || c = '~' then false
  else if reserved.elem c then
    match mode with
    | .encodePath => c = '?'
    | .encodePathSegment => c = '/' || c = ';' || c = ',' || c = '?'
    | .encodeUserPassword => c = '@' || c = '/' || c = '?' || c = ':'
    | .encodeQueryComponent => true
    | .encodeFragment => false
    | _ => true
  else if mode = .encodeFragment && (c = '!' || c = '(' || c = ')' || c = '*') then false
  else true

/-- The value of a hexadecimal digit. -/
def unhex (c : Char) : Option Nat :=
  if '0'.toNat ≤ c.toNat ∧ c.toNat ≤ '9'.toNat then some (c.toNat - '0'.toNat)
  else if 'a'.toNat ≤ c.toNat ∧ c.toNat ≤ 'f'.toNat then some (c.toNat - 'a'.toNat + 10)
  else if 'A'.toNat ≤ c.toNat ∧ c.toNat ≤ 'F'.toNat then some (c.toNat - 'A'.toNat + 10)
  else none

/-- The upper-case hexadecimal digit of a value below sixteen. -/
def upperhex (d : Nat) : Char :=
  if d < 10 then Char.ofNat (48 + d) else Char.ofNat (55 + d)

/-- The function `unescape`: `%XX` becomes the byte, and in the mode of a
query component `+` becomes a space.  It fails on a malformed escape, on an
escape the host does not allow, and on a character the host does not allow. -/
def unescape : List Char → Encoding → Except String (List Char)
  | [], _ => .ok []
  | c :: cs, mode =>
    if c = '%' then
      match cs with
      | a :: b :: rest =>
        match unhex a, unhex b with
        | some x, some y =>
          if mode = .encodeHost && decide (x < 8) && !(a = '2' && b = '5') then
            .error "invalid URL escape"
          else if mode = .encodeZone && !(a = '2' && b = '5') && decide (16 * x + y ≠ 32)
              && shouldEscape (Char.ofNat (16 * x + y)) .encodeHost then
            .error "invalid URL escape"
          else
            match unescape rest mode with
            | .ok t => .ok (Char.ofNat (16 * x + y) :: t)
            | .error e => .error e
        | _, _ => .error "invalid URL escape"
      | _ => .error "invalid URL escape"
    else if (mode = .encodeHost || mode = .encodeZone) && decide (c.toNat < 0x80)
        && shouldEscape c .encodeHost then
      .error "invalid character in host name"
    else
      match unescape cs mode with
      | .ok t => .ok ((if c = '+' ∧ mode = .encodeQueryComponent then ' ' else c) :: t)
      | .error e => .error e

/-- The function `escape`. -/
def escape : List Char → Encoding → List Char
  | [], _ => []
  | c :: cs, mode =>
    (if c = ' ' ∧ mode = .encodeQueryComponent then ['+']
     else if shouldEscape c mode then
       ['%', upperhex (c.toNat / 16 % 16), upperhex (c.toNat % 16)]
     else [c]) ++ escape cs mode

/-- The function `validEncoded`: whether a text is a possible encoding of a
path or fragment. -/
def validEncoded (s : List Char) (mode : Encoding) : Bool :=
  s.all (fun c =>
    ['!', '$', '&', apostrophe, '(', ')', '*', '+', ',', ';', '=', ':', '@', '[', ']', '%'].elem c
      || !shouldEscape c mode)

/-- The function `strings.Cut` for a separator of one byte: the text before
the first separator, and the text after it if there is one. -/
def cut (sep : Char) : List Char → List Char × Option (List Char)
  | [] => ([], none)
  | c :: cs =>
    if c = sep then ([], some cs)
    else ((c :: (cut sep cs).1), (cut sep cs).2)

/-- The text before the last separator and the text after it, if there is a
separator. -/
def cutLast (sep : Char) (s : List Char) : Option (List Char × List Char) :=
  match cut sep s.reverse with
  | (_, none) => none
  | (after, some before) => some (before.reverse, after.reverse)

/-- The text before the first `%25` and the text from it on. -/
def cutZone : List Char → Option (List Char × List Char)
  | [] => none
  | c :: cs =>
    if c = '%' ∧ cs.take 2 = ['2', '5'] then some ([], c :: cs)
    else
      match cutZone cs with
      | some (a, b) => some (c :: a, b)
      | none => none

/-- The function `strings.Split` for a separator of one byte. -/
def split (sep : Char) : List Char → List (List Char)
  | [] => [[]]
  | c :: cs =>
    if c = sep then [] :: split sep cs
    else
      match split sep cs with
      | [] => [[c]]
      | x :: xs => (c :: x) :: xs

/-- The function `strings.Join` for a separator of one byte. -/
def join (sep : Char) : List (List Char) → List Char
  | [] => []
  | [x] => x
  | x :: y :: xs => x ++ sep :: join sep (y :: xs)

def startsWith (p s : List Char) : Bool :=
  s.take p.length = p

/-- Whether a text unescapes, without error, to the given text. -/
def unescapesTo (s : List Char) (mode : Encoding) (t : List Char) : Bool :=
  match unescape s mode with
  | .ok p => p = t
  | .error _ => false

/-- The method `URL.setPath`: the path is the unescaped text, and the text is
kept as `RawPath` when it is not the default escaping of the path. -/
def setPath (u : URL) (p : List Char) : Except String URL :=
  match unescape p .encodePath with
  | .error e => .error e
  | .ok path =>
    .ok { u with Path := String.mk path,
                 RawPath := if escape path .encodePath = p then "" else String.mk p }

/-- The method `URL.EscapedPath`. -/
def EscapedPath (u : URL) : List Char :=
  if u.RawPath ≠ "" ∧ validEncoded u.RawPath.data .encodePath
      ∧ unescapesTo u.RawPath.data .encodePath u.Path.data then u.RawPath.data
  else if u.Path = "*" then ['*']
  else escape u.Path.data .encodePath

/-- The method `URL.setFragment`. -/
def setFragment (u : URL) (f : List Char) : Except String URL :=
  match unescape f .encodeFragment with
  | .error e => .error e
  | .ok frag =>
    .ok { u with Fragment := String.mk frag,
                 RawFragment := if escape frag .encodeFragment = f then "" else String.mk f }

/-- The method `URL.EscapedFragment`. -/
def EscapedFragment (u : URL) : List Char :=
  if u.RawFragment ≠ "" ∧ validEncoded u.RawFragment.data .encodeFragment
      ∧ unescapesTo u.RawFragment.data .encodeFragment u.Fragment.data then u.RawFragment.data
  else escape u.Fragment.data .encodeFragment

/-- The function `getScheme` after the bytes `seen` (in reverse) of `raw`:
the scheme and the text after its colon, or no scheme and the whole text. -/
def getSchemeFrom (raw : List Char) : List Char → List Char →
    Except String (List Char × List Char)
  | _, [] => .ok ([], raw)
  | seen, c :: cs =>
    if isLetter c then getSchemeFrom raw (c :: seen) cs
    else if isDigit c || c = '+' || c = '-' || c = '.' then
      if seen = [] then .ok ([], raw) else getSchemeFrom raw (c :: seen) cs
    else if c = ':' then
      if seen = [] then .error "missing protocol scheme" else .ok (seen.reverse, cs)
    else .ok ([], raw)

/-- The function `getScheme`. -/
def getScheme (raw : List Char) : Except String (List Char × List Char) :=
  getSchemeFrom raw [] raw

/-- The function `validOptionalPort`: empty, or a colon and digits. -/
def validOptionalPort : List Char → Bool
  | [] => true
  | c :: cs => c = ':' && cs.all isDigit

/-- The function `validUserinfo`. -/
def validUserinfo (s : List Char) : Bool :=
  s.all (fun c => isLetter c || isDigit c
    || ['-', '.', '_', ':', '~', '!', '$', '&', apostrophe, '(', ')', '*', '+', ',', ';', '=',
        '%', '@'].elem c)

/-- The function `parseHost`. -/
def parseHost (host : List Char) : Except String String :=
  if startsWith ['['] host then
    match cutLast ']' host with
    | none => .error "missing ']' in host"
    | some (inner, colonPort) =>
      if !validOptionalPort colonPort then .error "invalid port after host"
      else
        match cutZone inner with
        | some (h1, zone) =>
          match unescape h1 .encodeHost, unescape zone .encodeZone,
              unescape (']' :: colonPort) .encodeHost with
          | .ok a, .ok b, .ok c => .ok (String.mk (a ++ b ++ c))
          | .error e, _, _ => .error e
          | _, .error e, _ => .error e
          | _, _, .error e => .error e
        | none =>
          match unescape host .encodeHost with
          | .ok h => .ok (String.mk h)
          | .error e => .error e
  else
    match cutLast ':' host with
    | some (_, port) =>
      if !validOptionalPort (':' :: port) then .error "invalid port after host"
      else
        match unescape host .encodeHost with
        | .ok h => .ok (String.mk h)
        | .error e => .error e
    | none =>
      match unescape host .encodeHost with
      | .ok h => .ok (String.mk h)
      | .error e => .error e

/-- The function `parseAuthority`: the user information and the host. -/
def parseAuthority (authority : List Char) :
    Except String (Option (String × Option String) × String) :=
  match cutLast '@' authority with
  | none =>
    match parseHost authority with
    | .ok host => .ok (none, host)
    | .error e => .error e
  | some (userinfo, hostport) =>
    match parseHost hostport with
    | .error e => .error e
    | .ok host =>
      if !validUserinfo userinfo then .error "net/url: invalid userinfo"
      else
        match cut ':' userinfo with
        | (_, none) =>
          match unescape userinfo .encodeUserPassword with
          | .ok name => .ok (some (String.mk name, none), host)
          | .error e => .error e
        | (username, some password) =>
          match unescape username .encodeUserPassword with
          | .error e => .error e
          | .ok name =>
            match unescape password .encodeUserPassword with
            | .ok pass => .ok (some (String.mk name, some (String.mk pass)), host)
            | .error e => .error e

/-- The function `parse` for a text without its fragment, as `url.Parse` calls
it (not through a request line). -/
def parse (raw : List Char) : Except String URL :=
  if raw.any (fun c => decide (c.toNat < 0x20) || decide (c.toNat = 0x7f)) then
    .error "net/url: invalid control character in URL"
  else if raw = ['*'] then .ok { URL.zero with Path := "*" }
  else
    match getScheme raw with
    | .error e => .error e
    | .ok (scheme, rest) =>
      let scheme := scheme.map toLower
      let force : Bool := rest.getLast? = some '?' && rest.count '?' = 1
      let rest2 : List Char := if force then rest.dropLast else (cut '?' rest).1
      let query : List Char := if force then [] else ((cut '?' rest).2).getD []
      let url : URL :=
        { URL.zero with Scheme := String.mk scheme, ForceQuery := force, RawQuery := String.mk query }
      if !startsWith ['/'] rest2 && scheme ≠ [] then .ok { url with Opaque := String.mk rest2 }
      else if !startsWith ['/'] rest2 && (cut '/' rest2).1.elem ':' then
        .error "first path segment in URL cannot contain colon"
      else if (scheme ≠ [] || !startsWith ['/', '/', '/'] rest2) && startsWith ['/', '/'] rest2 then
        let authority := (cut '/' (rest2.drop 2)).1
        let path : List Char :=
          match (cut '/' (rest2.drop 2)).2 with
          | some p => '/' :: p
          | none => []
        match parseAuthority authority with
        | .error e => .error e
        | .ok (user, host) => setPath { url with User := user, Host := host } path
      else
        setPath { url with OmitHost := scheme ≠ [] && startsWith ['/'] rest2 } rest2

/-- The function `url.Parse`. -/
def Parse (rawURL : String) : Except String URL :=
  match parse (cut '#' rawURL.data).1 with
  | .error e => .error e
  | .ok url =>
    match (cut '#' rawURL.data).2 with
    | none => .ok url
    | some frag => if frag = [] then .ok url else setFragment url frag

/-- The method `Userinfo.String`. -/
def userString (ui : String × Option String) : List Char :=
  escape ui.1.data .encodeUserPassword
    ++ (match ui.2 with
        | some p => ':' :: escape p.data .encodeUserPassword
        | none => [])

/-- The method `URL.String`. -/
def urlString (u : URL) : String :=
  let head : List Char := if u.Scheme ≠ "" then u.Scheme.data ++ [':'] else []
  let body : List Char :=
    if u.Opaque ≠ "" then head ++ u.Opaque.data
    else
      let auth : List Char :=
        if u.Scheme ≠ "" ∨ u.Host ≠ "" ∨ u.User.isSome then
          if u.OmitHost ∧ u.Host = "" ∧ u.User.isNone then []
          else
            (if u.Host ≠ "" ∨ u.Path ≠ "" ∨ u.User.isSome then ['/', '/'] else [])
              ++ (match u.User with
                  | some ui => userString ui ++ ['@']
                  | none => [])
              ++ escape u.Host.data .encodeHost
        else []
      let path := EscapedPath u
      let slash : List Char :=
        if path ≠ [] ∧ path.head? ≠ some '/' ∧ u.Host ≠ "" then ['/'] else []
      let dot : List Char :=
        if head ++ auth ++ slash = [] ∧ (cut '/' path).1.elem ':' then ['.', '/'] else []
      head ++ auth ++ slash ++ dot ++ path
  let query : List Char := if u.ForceQuery ∨ u.RawQuery ≠ "" then '?' :: u.RawQuery.data else []
  let frag : List Char := if u.Fragment ≠ "" then '#' :: EscapedFragment u else []
  String.mk (body ++ query ++ frag)

/-- The text of a path up to and including its last slash. -/
def uptoLastSlash (base : List Char) : List Char :=
  match cutLast '/' base with
  | some (before, _) => before ++ ['/']
  | none => []

/-- One step of the removal of dot segments: `.` is dropped, `..` removes the
last segment kept so far, any other segment is kept. -/
def resolveStep (dst : List (List Char)) (elem : List Char) : List (List Char) :=
  if elem = ['.'] then dst
  else if elem = ['.', '.'] then dst.dropLast
  else dst ++ [elem]

/-- The function `resolvePath`: the reference is merged with the base, the
dot segments are removed, and the result starts with one slash. -/
def resolvePath (base ref : List Char) : List Char :=
  let full : List Char :=
    if ref = [] then base
    else if ref.head? ≠ some '/' then uptoLastSlash base ++ ref
    else ref
  if full = [] then []
  else
    let src := split '/' full
    let dst := src.foldl resolveStep []
    let dst := if src.getLast? = some ['.'] ∨ src.getLast? = some ['.', '.'] then dst ++ [[]] else dst
    let joined := join '/' dst
    '/' :: (if joined.head? = some '/' then joined.drop 1 else joined)

/-- The call `url.setPath(p)` whose error is ignored. -/
def setPathOr (u : URL) (p : List Char) : URL :=
  match setPath u p with
  | .ok v => v
  | .error _ => u

/-- The method `URL.ResolveReference`: the receiver is the base. -/
def ResolveReference (u : URL) (ref : URL) : URL :=
  let url : URL := if ref.Scheme = "" then { ref with Scheme := u.Scheme } else ref
  if ref.Scheme ≠ "" ∨ ref.Host ≠ "" ∨ ref.User.isSome then
    setPathOr url (resolvePath (EscapedPath ref) [])
  else if ref.Opaque ≠ "" then { url with User := none, Host := "", Path := "" }
  else
    let url : URL :=
      if ref.Path = "" ∧ ref.ForceQuery = false ∧ ref.RawQuery = "" then
        if ref.Fragment = "" then
          { url with RawQuery := u.RawQuery, Fragment := u.Fragment, RawFragment := u.RawFragment }
        else { url with RawQuery := u.RawQuery }
      else url
    setPathOr { url with Host := u.Host, User := u.User }
      (resolvePath (EscapedPath u) (EscapedPath ref))

end Url

namespace Http

/-- The backtick. -/
def backtick : Char := Char.ofNat 96

/-- The token characters of RFC 7230. -/
def isTokenRune (c : Char) : Bool :=
  Url.isLetter c || Url.isDigit c
    || ['!', '#', '$', '%', '&', Url.apostrophe, '*', '+', '-', '.', '^', '_', backtick, '|', '~'].elem c

/-- The function `validMethod`: a method is a token that is not empty. -/
def validMethod (method : String) : Bool :=
  decide (0 < method.length) && method.data.all isTokenRune

/-- The function `hasPort`: whether the last colon of a host comes after its
last closing bracket. -/
def hasPort (s : List Char) : Bool :=
  match Url.cutLast ':' s, Url.cutLast ']' s with
  | some (_, afterColon), some (_, afterBracket) => afterColon.length < afterBracket.length
  | some _, none => true
  | none, _ => false

/-- The function `removeEmptyPort`: a host that ends in a colon without a port
loses the colon. -/
def removeEmptyPort (host : String) : String :=
  if hasPort host.data ∧ host.data.getLast? = some ':' then String.mk host.data.dropLast else host

end Http

/-! ## The standard library and a server for the examples -/

/-- A URL with the scheme `http`, a host and a path, nothing else. -/
def URL.http (host : String) (path : String) : URL :=
  { URL.zero with Scheme := "http", Host := host, Path := path }

/-- A client whose exchange always fails. -/
def offlineClient : Client :=
  { Do := fun _ => .error (Error.transport "no network") }

/-- The standard library: `net/url` and the checks of `http.NewRequest` as
modelled above.  The binding of JSON to an `http.Response` is not modelled: a
value for the field `Response` other than `null` counts as one that does not
fit. -/
def exampleStd : Std :=
  { parse := Url.Parse
    resolveReference := Url.ResolveReference
    urlString := Url.urlString
    validMethod := Http.validMethod
    removeEmptyPort := fun u => { u with Host := Http.removeEmptyPort u.Host }
    DefaultClient := offlineClient
    bindResponse := fun _ r => (r, true)
    bindNewResponse := fun _ => ({ StatusCode := 0, Body := { data := "", readErr := none } }, true) }

/-- A server that answers every request with the given status and body. -/
def mockServer (status : Int) (body : String) : Client :=
  { Do := fun _ => .ok { StatusCode := status, Body := { data := body, readErr := none } } }

/-- A client of `mockServer status body` at the base URL `http://h:8001`. -/
def mockKongo (status : Int) (body : String) : Kongo :=
  { client := mockServer status body, BaseURL := URL.http "h:8001" "", UserAgent := userAgent }

/-- A request as `NewRequest` builds it for `GET /status` at `http://h:8001`. -/
def statusRequest : Request :=
  { Method := "GET", URL := URL.http "h:8001" "/status",
    Header := [("Content-Type", ["application/json"]), ("Accept", ["application/json"]),
      ("User-Agent", ["kongo/v0"])],
    Body := none, ctx := Context.background }

/-- The `*ErrorResponse` inside an error value, if it is one. -/
def Error.asResponse : Error → Option ErrorResponse
  | .response e => some e
  | _ => none

/-- The string `Error()` returns for the error of a result, when the error is
an `*ErrorResponse`. -/
def renderedError (err : Option Error) : Option String :=
  match err with
  | some (.response e) => e.Error.1
  | _ => none

/-- The body of the node information example. -/
def nodeInfoBody : String :=
  "\x7b\"hostname\":\"kong1\",\"version\":\"1.0.0\",\"tagline\":\"Welcome to kong\"\x7d"

/-- A body that is a JSON object followed by other text. -/
def trailingBody : String :=
  "\x7b\"hostname\":\"kong1\"\x7d trailing"

/-- The body of the error example. -/
def unavailableBody : String :=
  "\x7b\"message\":\"Service Unavailable\"\x7d"

/-! ## JSON texts, written out -/

namespace Json

/-- The hexadecimal digit of a value below sixteen. -/
def hexDigit (d : Nat) : Char :=
  if d < 10 then Char.ofNat (48 + d) else Char.ofNat (87 + d)

/-- A character inside a string literal: the quote and the backslash are
escaped with a backslash, a control character is written `\u00XY`. -/
def escapeChar (c : Char) : List Char :=
  if c = '"' then ['\\', '"']
  else if c = '\\' then ['\\', '\\']
  else if c.toNat < 0x20 then
    ['\\', 'u', '0', '0', hexDigit (c.toNat / 16), hexDigit (c.toNat % 16)]
  else [c]

def escape : List Char → List Char
  | [] => []
  | c :: cs => escapeChar c ++ escape cs

/-- A string literal for a text. -/
def quote (s : String) : List Char :=
  '"' :: escape s.data ++ ['"']

/-- An integer literal without sign: `0`, or digits that do not start with
`0`. -/
def isNatLiteral : List Char → Bool
  | [] => false
  | c :: r => if c = '0' then r.isEmpty else isDigit c && r.all isDigit

/-- An integer literal: an optional minus sign and an unsigned literal. -/
def isIntLiteral : List Char → Bool
  | [] => false
  | c :: r => if c = '-' then isNatLiteral r else isNatLiteral (c :: r)

mutual
/-- The text of a JSON value, with the whitespace `w` before every token. -/
def print (w : List Char) : JValue → List Char
  | .null => w ++ ['n', 'u', 'l', 'l']
  | .bool b => w ++ (if b then ['t', 'r', 'u', 'e'] else ['f', 'a', 'l', 's', 'e'])
  | .number lit => w ++ lit.data
  | .string s => w ++ quote s
  | .array xs => w ++ '[' :: printElems w xs
  | .object kvs => w ++ '{' :: printMembers w kvs
/-- The elements of an array and the closing bracket. -/
def printElems (w : List Char) : List JValue → List Char
  | [] => w ++ [']']
  | x :: xs => print w x ++ printRest w xs
/-- What follows an element of an array: a comma and the next element, or the
closing bracket. -/
def printRest (w : List Char) : List JValue → List Char
  | [] => w ++ [']']
  | x :: xs => w ++ ',' :: (print w x ++ printRest w xs)
/-- The members of an object and the closing brace. -/
def printMembers (w : List Char) : List (String × JValue) → List Char
  | [] => w ++ ['}']
  | (k, x) :: kvs => w ++ quote k ++ (w ++ ':' :: (print w x ++ printMembersRest w kvs))
/-- What follows a member of an object. -/
def printMembersRest (w : List Char) : List (String × JValue) → List Char
  | [] => w ++ ['}']
  | (k, x) :: kvs =>
    w ++ ',' :: (w ++ quote k ++ (w ++ ':' :: (print w x ++ printMembersRest w kvs)))
end

mutual
/-- The values whose text `print` writes as JSON: every number in them is an
integer literal. -/
def printable : JValue → Bool
  | .number lit => isIntLiteral lit.data
  | .array xs => printableAll xs
  | .object kvs => printableMembers kvs
  | _ => true
def printableAll : List JValue → Bool
  | [] => true
  | x :: xs => printable x && printableAll xs
def printableMembers : List (String × JValue) → Bool
  | [] => true
  | (_, x) :: kvs => printable x && printableMembers kvs
end

mutual
/-- The nesting of arrays and objects in a value. -/
def depth : JValue → Nat
  | .array xs => depthAll xs + 1
  | .object kvs => depthMembers kvs + 1
  | _ => 0
def depthAll : List JValue → Nat
  | [] => 0
  | x :: xs => max (depth x) (depthAll xs)
def depthMembers : List (String × JValue) → Nat
  | [] => 0
  | (_, x) :: kvs => max (depth x) (depthMembers kvs)
end

mutual
/-- The number of values in a value, which bounds the steps of the reader. -/
def size : JValue → Nat
  | .array xs => sizeAll xs + 1
  | .object kvs => sizeMembers kvs + 1
  | _ => 1
def sizeAll : List JValue → Nat
  | [] => 0
  | x :: xs => size x + sizeAll xs + 1
def sizeMembers : List (String × JValue) → Nat
  | [] => 0
  | (_, x) :: kvs => size x + sizeMembers kvs + 1
end

/-- Whether a value is an array or an object. -/
def isContainer : JValue → Bool
  | .array _ => true
  | .object _ => true
  | _ => false

/-- Whether a text can follow a number: it is empty or starts with something
other than a digit, a point or an exponent mark. -/
def endsNumber : List Char → Bool
  | [] => true
  | c :: _ => !isDigit c && c != '.' && c != 'e' && c != 'E'

end Json

/-! ## Go values, written out as JSON -/

namespace Json

/-- The character of a decimal digit. -/
def digitChar (d : Nat) : Char := Char.ofNat (48 + d)

/-- The decimal literal of a natural number. -/
def renderNat (n : Nat) : List Char :=
  if n = 0 then ['0'] else (Nat.digits 10 n).reverse.map digitChar

/-- The decimal literal of an integer. -/
def renderInt (i : Int) : List Char :=
  if i < 0 then '-' :: renderNat i.natAbs else renderNat i.natAbs

def isNull : JValue → Bool
  | .null => true
  | _ => false

mutual
/-- The JSON value that stands for a Go value of type `t`: nil is `null`, a
pointer stands for what it points to, a struct is an object with one member
per field under the field's JSON name, in order of declaration. -/
def encode : GoType → GoValue → JValue
  | .string, g =>
    match g with
    | .string s => .string s
    | _ => .null
  | .int, g =>
    match g with
    | .int i => .number (String.mk (renderInt i))
    | _ => .null
  | .bool, g =>
    match g with
    | .bool b => .bool b
    | _ => .null
  | .iface, g =>
    match g with
    | .iface j => j
    | _ => .null
  | .ptr t, g =>
    match g with
    | .ptr v => encode t v
    | _ => .null
  | .slice t, g =>
    match g with
    | .slice vs => .array (vs.map (encode t))
    | _ => .null
  | .map t, g =>
    match g with
    | .map kvs => .object (kvs.map (fun kv => (kv.1, encode t kv.2)))
    | _ => .null
  | .struct fs, g =>
    match g with
    | .struct vals => .object (encodeFields fs vals)
    | _ => .null
/-- The members for the fields of a struct. -/
def encodeFields : List (String × String × GoType) → List (String × GoValue) →
    List (String × JValue)
  | [], _ => []
  | (_, json, t) :: fs, vals =>
    match vals with
    | [] => []
    | (_, v) :: vs => (json, encode t v) :: encodeFields fs vs
end

mutual
/-- Whether a Go value is a value of type `t` that `encode` writes without
loss: an `int` lies in the 64-bit range, an `interface{}` holds nil or a JSON
value other than `null` whose numbers fit a `float64`, a pointer is nil or
points to a value that is not written as `null`, the keys of a map are
distinct, and a struct has its fields in order of declaration. -/
def hasType : GoType → GoValue → Bool
  | .string, g =>
    match g with
    | .string _ => true
    | _ => false
  | .int, g =>
    match g with
    | .int i => decide (- (2 : Int) ^ 63 ≤ i ∧ i < (2 : Int) ^ 63)
    | _ => false
  | .bool, g =>
    match g with
    | .bool _ => true
    | _ => false
  | .iface, g =>
    match g with
    | .nil => true
    | .iface j => !isNull j && fitsInterface j
    | _ => false
  | .ptr t, g =>
    match g with
    | .nil => true
    | .ptr v => hasType t v && !isNull (encode t v)
    | _ => false
  | .slice t, g =>
    match g with
    | .nil => true
    | .slice vs => vs.all (hasType t)
    | _ => false
  | .map t, g =>
    match g with
    | .nil => true
    | .map kvs => decide ((kvs.map (fun kv => kv.1)).Nodup) && kvs.all (fun kv => hasType t kv.2)
    | _ => false
  | .struct fs, g =>
    match g with
    | .struct vals => hasTypeFields fs vals
    | _ => false
def hasTypeFields : List (String × String × GoType) → List (String × GoValue) → Bool
  | [], vals => vals.isEmpty
  | (name, _, t) :: fs, vals =>
    match vals with
    | [] => false
    | (n, v) :: vs => decide (n = name) && hasType t v && hasTypeFields fs vs
end

mutual
/-- Whether the structs of a type have distinct Go names and distinct JSON
names. -/
def distinctFields : GoType → Bool
  | .ptr t => distinctFields t
  | .slice t => distinctFields t
  | .map t => distinctFields t
  | .struct fs =>
    distinctFieldsAll fs && decide ((fs.map (fun f => f.1)).Nodup)
      && decide ((fs.map (fun f => f.2.1)).Nodup)
  | _ => true
def distinctFieldsAll : List (String × String × GoType) → Bool
  | [] => true
  | (_, _, t) :: fs => distinctFields t && distinctFieldsAll fs
end

end Json

/-! ## The words of the specification -/

/-- The field of `ErrorResponse` that a key of an error body selects. -/
def selectedField (key : String) : Option ErrorField :=
  match Json.findField errorResponseFields key with
  | some (_, _, f) => some f
  | none => none

/-- The error shape of the specification: an object whose members for the
message hold strings or `null`, and which has no member for the field
`Response`.  Other members are free. -/
def matchesErrorShape (kvs : List (String × JValue)) : Bool :=
  kvs.all (fun kv =>
    match selectedField kv.1, kv.2 with
    | some .Response, _ => false
    | some .Message, .string _ => true
    | some .Message, .null => true
    | some .Message, _ => false
    | none, _ => true)

/-- A member that cannot be bound to the message: its key selects the message
and its value is neither a string nor `null`. -/
def misfitsMessage (kv : String × JValue) : Bool :=
  match selectedField kv.1, kv.2 with
  | some .Message, .string _ => false
  | some .Message, .null => false
  | some .Message, _ => true
  | _, _ => false

/-- A JSON value that is valid and yet does not decode to the error shape,
whatever its other members: a value that is neither an object nor `null`, or
an object with a member that cannot be bound to the message. -/
def failsErrorShape : JValue → Bool
  | .null => false
  | .object kvs => kvs.any misfitsMessage
  | _ => true

/-- Whether an object has a member for the field `Response`. -/
def hasResponseMember (kvs : List (String × JValue)) : Bool :=
  kvs.any (fun kv => selectedField kv.1 = some .Response)

/-- The message field an object decodes to: the string of its last member
for the message, after `acc`. -/
def decodedMessageFrom (acc : Option String) : List (String × JValue) → Option String
  | [] => acc
  | (k, v) :: kvs =>
    match selectedField k, v with
    | some .Message, .string s => decodedMessageFrom (some s) kvs
    | _, _ => decodedMessageFrom acc kvs

/-- The decoded message field of an object, if it has one. -/
def decodedMessage (kvs : List (String × JValue)) : Option String :=
  decodedMessageFrom none kvs

/-- An accessor in the words of the specification: build the fixed path,
construct the request for it with the method GET and without a body, execute
it with a destination of the typed result shape, and return the result or nil,
the response or nil and the error or nil, where the result is present exactly
when the error is absent and response and error are those of the execution. -/
def accessorSpec (S : Std) (k : Kongo) (ctx : Context) (path : String) (ty : GoType) :
    Option GoValue × Option Response × Option Error :=
  match k.NewRequestURL S ctx "GET" (parseResource S path) none with
  | .error err => (none, none, some err)
  | .ok req =>
    let out := k.Do S req (some { ty := ty, val := ty.zero })
    (if out.2.1 = none then some (out.2.2.getD { ty := ty, val := ty.zero }).val else none,
      out.1, out.2.1)


/-! ## Examples -/

/-- A node status: the database is reachable, the server counts its
connections. -/
def statusValue : GoValue :=
  .struct [
    ("Database", .ptr (.struct [("Reachable", .bool true)])),
    ("Server", .ptr (.struct [
      ("ConnectionsAccepted", .int 12), ("ConnectionsActive", .int 1),
      ("ConnectionsHandled", .int 12), ("ConnectionsReading", .int 0),
      ("ConnectionsWaiting", .int 0), ("ConnectionsWriting", .int 1),
      ("TotalRequests", .int 4096)]))]

/-- The JSON text of `statusValue`, without whitespace. -/
def statusBody : String :=
  "\x7b\"database\":\x7b\"reachable\":true\x7d,\"server\":\x7b\"connections_accepted\":12,"
    ++ "\"connections_active\":1,\"connections_handled\":12,\"connections_reading\":0,"
    ++ "\"connections_waiting\":0,\"connections_writing\":1,\"total_requests\":4096\x7d\x7d"

/-- A node information without configuration: strings, a map of flags, a
list of names, a map of numbers and a pair of counters. -/
def infoValue : GoValue :=
  .struct [
    ("Configuration", .nil),
    ("Hostname", .string "kong1"),
    ("LuaVersion", .string "LuaJIT 2.1.0-beta3"),
    ("Plugins", .ptr (.struct [
      ("AvailableOnServer", .map [("cors", .bool true), ("jwt", .bool false)]),
      ("EnabledInCluster", .slice [.string "cors", .string "rate-limiting"])])),
    ("PrngSeeds", .map [("pid: 1", .int 201218152163), ("pid: 2", .int (-7))]),
    ("Tagline", .string "Welcome to \"kong\""),
    ("Timers", .ptr (.struct [("Pending", .int 5), ("Running", .int 0)])),
    ("Version", .string "1.0.0")]

/-- A JSON text of `infoValue`: the members come in another order than the
fields, with whitespace, an escaped quote and a member the struct does not
know. -/
def infoBody : String :=
  "\x7b \"version\": \"1.0.0\", \"tagline\": \"Welcome to \\\"kong\\\"\",\n"
    ++ "  \"timers\": \x7b\"running\": 0, \"pending\": 5\x7d, \"node_id\": \"1f0c\",\n"
    ++ "  \"prng_seeds\": \x7b\"pid: 1\": 201218152163, \"pid: 2\": -7\x7d,\n"
    ++ "  \"plugins\": \x7b\"enabled_in_cluster\": [\"cors\", \"rate-limiting\"],\n"
    ++ "    \"available_on_server\": \x7b\"cors\": true, \"jwt\": false\x7d\x7d,\n"
    ++ "  \"lua_version\": \"LuaJIT 2.1.0-beta3\", \"hostname\": \"kong1\", \"configuration\": null \x7d\n"

/-- The reference resolution examples of RFC 3986, section 5.4, for the base
`http://a/b/c/d;p?q`: a reference and the text it resolves to. -/
def rfcBase : String := "http://a/b/c/d;p?q"

def rfcExamples : List (String × String) :=
  [("g:h", "g:h"), ("g", "http://a/b/c/g"), ("./g", "http://a/b/c/g"),
   ("g/", "http://a/b/c/g/"), ("/g", "http://a/g"), ("//g", "http://g"),
   ("?y", "http://a/b/c/d;p?y"), ("g?y", "http://a/b/c/g?y"),
   ("#s", "http://a/b/c/d;p?q#s"), ("g#s", "http://a/b/c/g#s"),
   ("g?y#s", "http://a/b/c/g?y#s"), (";x", "http://a/b/c/;x"),
   ("g;x", "http://a/b/c/g;x"), ("g;x?y#s", "http://a/b/c/g;x?y#s"),
   ("", "http://a/b/c/d;p?q"), (".", "http://a/b/c/"), ("./", "http://a/b/c/"),
   ("..", "http://a/b/"), ("../", "http://a/b/"), ("../g", "http://a/b/g"),
   ("../..", "http://a/"), ("../../", "http://a/"), ("../../g", "http://a/g"),
   ("../../../g", "http://a/g"), ("../../../../g", "http://a/g"),
   ("/./g", "http://a/g"), ("/../g", "http://a/g"), ("g.", "http://a/b/c/g."),
   (".g", "http://a/b/c/.g"), ("g..", "http://a/b/c/g.."), ("..g", "http://a/b/c/..g"),
   ("./../g", "http://a/b/g"), ("./g/.", "http://a/b/c/g/"), ("g/./h", "http://a/b/c/g/h"),
   ("g/../h", "http://a/b/c/h"), ("g;x=1/./y", "http://a/b/c/g;x=1/y"),
   ("g;x=1/../y", "http://a/b/c/y"), ("g?y/./x", "http://a/b/c/g?y/./x"),
   ("g?y/../x", "http://a/b/c/g?y/../x"), ("g#s/./x", "http://a/b/c/g#s/./x"),
   ("g#s/../x", "http://a/b/c/g#s/../x")]

/-- The client that `New` builds for a base URL, if it builds one. -/
def clientAt (S : Std) (base : String) : Option Kongo :=
  match New S none base with
  | .ok k => some k
  | .error _ => none

/-- The URL of the request that `NewRequest` builds with the client for a
base URL, if both are built. -/
def requestURL (S : Std) (base : String) (method : String) (resource : String) : Option URL :=
  match clientAt S base with
  | none => none
  | some k =>
    match k.NewRequest S Context.background method resource with
    | .ok req => some req.URL
    | .error _ => none

/-- The text of that URL. -/
def requestText (S : Std) (base : String) (method : String) (resource : String) :
    Option String :=
  (requestURL S base method resource).map S.urlString

/-- The message of the error that `Do` returns for a reply of `mockServer`. -/
def failureMessage (S : Std) (status : Int) (body : String) : Option String :=
  (((mockKongo status body).Do S statusRequest none).2.1.bind Error.asResponse).map
    (fun e => e.Message)

/-- The rendered error that `Do` returns for a reply of `mockServer`. -/
def failureText (S : Std) (status : Int) (body : String) : Option String :=
  renderedError ((mockKongo status body).Do S statusRequest none).2.1

/-- The response and the error that `Do` returns for a reply of `mockServer`
when it decodes into a new variable of type `ty`. -/
def decodeOutcome (S : Std) (status : Int) (body : String) (ty : GoType) :
    Option Response × Option Error :=
  (((mockKongo status body).Do S statusRequest (some { ty := ty, val := ty.zero })).1,
    ((mockKongo status body).Do S statusRequest (some { ty := ty, val := ty.zero })).2.1)

/-- The value of that variable afterwards. -/
def decodedValue (S : Std) (status : Int) (body : String) (ty : GoType) : Option GoValue :=
  (((mockKongo status body).Do S statusRequest (some { ty := ty, val := ty.zero })).2.2).map
    (fun d => d.val)

/-- The standard resolution of a resource against a base URL, both given as
text: the reference resolution of `net/url` on the two parsed texts. -/
def resolution (S : Std) (base : String) (resource : String) : Option URL :=
  match S.parse base, S.parse resource with
  | .ok b, .ok r => some (S.resolveReference b r)
  | _, _ => none

/-- A base URL built by hand, as `NewClient` takes it: the host holds a
space. -/
def spacedBase : URL := URL.http "a b" ""

/-! ## Results of the library calls -/

/-- A result whose value is `a` is the success `a`. -/
theorem except_eq_ok {ε α : Type} (x : Except ε α) (a : α) (h : x.toOption = some a) :
    x = .ok a := by
  cases x with
  | error e => simp [Except.toOption] at h
  | ok b =>
    simp only [Except.toOption, Option.some.injEq] at h
    rw [h]


/-! ## Classification by status code -/

theorem checkResponse_success (S : Std) (res : Response)
    (h : 200 ≤ res.StatusCode ∧ res.StatusCode ≤ 299) :
    checkResponse S res = (res, none) := by
  unfold checkResponse
  rw [if_pos h]

theorem checkResponse_failure_isSome (S : Std) (res : Response)
    (h : ¬ (200 ≤ res.StatusCode ∧ res.StatusCode ≤ 299)) :
    (checkResponse S res).2.isSome = true := by
  unfold checkResponse
  rw [if_neg h]
  repeat' (first | rfl | split | dsimp only)

theorem checkResponse_none_iff (S : Std) (res : Response) :
    (checkResponse S res).2 = none ↔ (200 ≤ res.StatusCode ∧ res.StatusCode ≤ 299) := by
  constructor
  · intro h
    by_contra hc
    have := checkResponse_failure_isSome S res hc
    rw [h] at this
    exact Bool.noConfusion this
  · intro h
    rw [checkResponse_success S res h]

/-- C1.  At status 500 with the body `{"Response":null}` the error that
`checkResponse` builds, and that `Do` returns next to the response, has a nil
`Response` field: the key `Response` selects the untagged exported field and
`null` clears the pointer.  Calling `Error()` on that error dereferences nil,
so no string comes back. -/
theorem Do_error_without_response (S : Std) :
    (mockKongo 500 "\x7b\"Response\":null\x7d").Do S statusRequest none
        = (some { StatusCode := 500, Body := { data := "\x7b\"Response\":null\x7d", readErr := none } },
           some (Error.response { Response := none, Message := "" }), none)
      ∧ (ErrorResponse.Error { Response := none, Message := "" }).1 = none := by
  constructor <;> rfl

/-! ## Formatting of the error -/

/-- C4.  For an `ErrorResponse` whose response has status code `c`, `Error()`
returns the decimal rendering of `c`, one space, and the message, where an
empty message is replaced by `Request error`.  A 503 reply to `GET /status`
with the body `{"message":"Service Unavailable"}` is rendered
`503 Service Unavailable`. -/
theorem Error_renders_status_and_message (r : Response) (m : String) :
    (ErrorResponse.Error { Response := some r, Message := m }).1
        = some (toString r.StatusCode ++ " " ++ (if m = "" then "Request error" else m))
      ∧ (ErrorResponse.Error { Response := some (Response.mk 503 r.Body), Message := "Service Unavailable" }).1
          = some "503 Service Unavailable"
      ∧ renderedError
          ((NodeService.StatusWithContext exampleStd
              { client := mockKongo 503 "\x7b\"message\":\"Service Unavailable\"\x7d" }
              Context.background).2.2) = some "503 Service Unavailable" := by
  refine ⟨?_, ?_, ?_⟩
  · unfold ErrorResponse.Error sprintfStatus
    by_cases hm : m = ""
    · simp [hm]
    · simp [hm]
  · unfold ErrorResponse.Error sprintfStatus
    simp
    decide
  · decide!

/-- C10.  `Error()` called twice gives the same outcome both times (the same
string, or no string both times when `Response` is nil); after the first call
`Message` is not empty: it is the original message if that was not empty and
`Request error` otherwise; the second call changes nothing; `Response` is
never changed; and with a non-nil `Response` a string is returned. -/
theorem Error_idempotent (e : ErrorResponse) :
    (ErrorResponse.Error (ErrorResponse.Error e).2).1 = (ErrorResponse.Error e).1
      ∧ (ErrorResponse.Error e).2.Message ≠ ""
      ∧ (ErrorResponse.Error e).2.Message = (if e.Message = "" then "Request error" else e.Message)
      ∧ (ErrorResponse.Error (ErrorResponse.Error e).2).2 = (ErrorResponse.Error e).2
      ∧ (ErrorResponse.Error e).2.Response = e.Response
      ∧ (ErrorResponse.Error (ErrorResponse.Error e).2).2.Response = e.Response
      ∧ (e.Response.isSome = true → (ErrorResponse.Error e).1.isSome = true) := by
  obtain ⟨r, m⟩ := e
  have hne : ("Request error" : String) ≠ "" := by decide
  by_cases hm : m = ""
  · subst hm
    cases r <;> simp [ErrorResponse.Error, hne]
  · cases r <;> simp [ErrorResponse.Error, hm]

/-! ## Construction of the request -/

theorem httpNewRequest_ok (S : Std) (method urlStr : String) (u : URL)
    (hm : S.validMethod (if method = "" then "GET" else method) = true)
    (hp : S.parse urlStr = .ok u) :
    httpNewRequest S method urlStr
      = .ok { Method := if method = "" then "GET" else method, URL := S.removeEmptyPort u,
              Header := [], Body := none, ctx := Context.background } := by
  unfold httpNewRequest
  simp only [hm, if_true, hp]

theorem httpNewRequest_fields (S : Std) (method urlStr : String) (r : Request)
    (h : httpNewRequest S method urlStr = .ok r) :
    r.Method = (if method = "" then "GET" else method) ∧ r.Header = [] ∧ r.Body = none := by
  unfold httpNewRequest at h
  dsimp only at h
  generalize (if method = "" then "GET" else method) = m at h ⊢
  by_cases hv : S.validMethod m = true
  · rw [if_pos hv] at h
    cases hp : S.parse urlStr with
    | error err =>
      rw [hp] at h
      exact Except.noConfusion h
    | ok u =>
      rw [hp] at h
      injection h with h
      subst h
      exact ⟨rfl, rfl, rfl⟩
  · rw [if_neg hv] at h
    exact Except.noConfusion h

/-- C7, on the code.  `NewRequest` with the empty method returns a request
whose method is `GET`, not the empty method it was given. -/
theorem NewRequest_empty_method :
    ((mockKongo 200 "").NewRequest exampleStd Context.background "" "/status").map
        (fun r => r.Method) = .ok "GET" := by
  apply except_eq_ok
  decide!

/-- C7, amended.  Every request that `NewRequest` returns carries the given
method, with GET in place of an empty method, the given context, no body, and
exactly three header values: `Content-Type` and `Accept` are
`application/json` and `User-Agent` is `kongo/v0`, whatever the client, the
method and the resource. -/
theorem NewRequest_method_and_headers (S : Std) (k : Kongo) (ctx : Context)
    (method resource : String) (req : Request)
    (h : k.NewRequest S ctx method resource = .ok req) :
    req.Method = (if method = "" then "GET" else method)
      ∧ req.Header = [("Content-Type", ["application/json"]), ("Accept", ["application/json"]),
          ("User-Agent", ["kongo/v0"])]
      ∧ Header.Get req.Header "Content-Type" = "application/json"
      ∧ Header.Get req.Header "Accept" = "application/json"
      ∧ Header.Get req.Header "User-Agent" = "kongo/v0"
      ∧ req.Body = none
      ∧ req.ctx = ctx := by
  unfold Kongo.NewRequest at h
  split at h
  · exact Except.noConfusion h
  · dsimp only at h
    split at h
    · exact Except.noConfusion h
    · rename_i r0 hr0
      obtain ⟨h1, h2, h3⟩ := httpNewRequest_fields S method _ r0 hr0
      injection h with h
      subst h
      simp only [Request.WithContext, h1, h2, h3]
      refine ⟨trivial, ?_, ?_, ?_, ?_, trivial, trivial⟩ <;> decide

/-- Witness of C7: `GET /status` at the base `http://h:8001`. -/
theorem NewRequest_method_and_headers_witness :
    (mockKongo 200 "").NewRequest exampleStd Context.background "GET" "/status"
        = .ok statusRequest
      ∧ statusRequest.Method = (if "GET" = "" then "GET" else "GET")
      ∧ statusRequest.Header = [("Content-Type", ["application/json"]),
          ("Accept", ["application/json"]), ("User-Agent", ["kongo/v0"])]
      ∧ statusRequest.Body = none :=
  ⟨except_eq_ok _ _ (by decide!),
    (NewRequest_method_and_headers exampleStd (mockKongo 200 "") Context.background "GET"
      "/status" statusRequest (except_eq_ok _ _ (by decide!))).1,
    (NewRequest_method_and_headers exampleStd (mockKongo 200 "") Context.background "GET"
      "/status" statusRequest (except_eq_ok _ _ (by decide!))).2.1,
    (NewRequest_method_and_headers exampleStd (mockKongo 200 "") Context.background "GET"
      "/status" statusRequest (except_eq_ok _ _ (by decide!))).2.2.2.2.2.1⟩

/-! ## The reader on written texts -/

namespace Json

theorem skipSpace_append (w : List Char) (hw : w.all isSpace = true) (cs : List Char) :
    skipSpace (w ++ cs) = skipSpace cs := by
  induction w with
  | nil => rfl
  | cons c w ih =>
    rw [List.all_cons, Bool.and_eq_true] at hw
    unfold skipSpace at ih ⊢
    rw [List.cons_append, List.dropWhile_cons, if_pos hw.1]
    exact ih hw.2

theorem skipSpace_cons (c : Char) (r : List Char) (hc : isSpace c = false) :
    skipSpace (c :: r) = c :: r := by
  unfold skipSpace
  rw [List.dropWhile_cons]
  simp [hc]

theorem skipSpace_token (w : List Char) (hw : w.all isSpace = true) (c : Char)
    (r : List Char) (hc : isSpace c = false) :
    skipSpace (w ++ c :: r) = c :: r := by
  rw [skipSpace_append w hw, skipSpace_cons c r hc]

theorem skipSpace_only (w : List Char) (hw : w.all isSpace = true) : skipSpace w = [] := by
  have := skipSpace_append w hw []
  rw [List.append_nil] at this
  rw [this]
  rfl

theorem hexVal_hexDigit (d : Nat) (hd : d < 16) : hexVal (hexDigit d) = some d := by
  interval_cases d <;> rfl

theorem hex4_control (c : Char) (hc : c.toNat < 0x20) :
    hex4 '0' '0' (hexDigit (c.toNat / 16)) (hexDigit (c.toNat % 16)) = some c.toNat := by
  have h1 : hexVal (hexDigit (c.toNat / 16)) = some (c.toNat / 16) :=
    hexVal_hexDigit _ (by omega)
  have h2 : hexVal (hexDigit (c.toNat % 16)) = some (c.toNat % 16) :=
    hexVal_hexDigit _ (by omega)
  have h0 : hexVal '0' = some 0 := rfl
  unfold hex4
  rw [h0, h1, h2]
  simp only []
  congr 1
  omega

theorem escapedRune_control (c : Char) (hc : c.toNat < 0x20) (r : List Char) :
    escapedRune c.toNat r = (c, r) := by
  unfold escapedRune
  have : ¬ (0xD800 ≤ c.toNat ∧ c.toNat < 0xE000) := by omega
  rw [if_neg this]
  congr 1
  exact Char.ofNat_toNat c

theorem parseStringBody_escape (cs : List Char) :
    ∀ (fuel : Nat) (acc rest : List Char), (escape cs).length + 1 ≤ fuel →
      parseStringBody fuel (escape cs ++ '"' :: rest) acc
        = some (String.mk (acc.reverse ++ cs), rest) := by
  induction cs with
  | nil =>
    intro fuel acc rest hf
    cases fuel with
    | zero => omega
    | succ n =>
      simp [escape, parseStringBody]
  | cons c cs ih =>
    intro fuel acc rest hf
    cases fuel with
    | zero => omega
    | succ n =>
      unfold escape at hf ⊢
      unfold escapeChar at hf ⊢
      by_cases h1 : c = '"'
      · subst h1
        simp only [if_true, List.cons_append, List.nil_append, List.length_cons] at hf ⊢
        unfold parseStringBody
        simp only [Char.reduceEq, if_false, if_true, simpleEscape]
        rw [ih n _ rest (by omega)]
        simp
      · by_cases h2 : c = '\\'
        · subst h2
          simp only [Char.reduceEq, if_false, if_true, List.cons_append, List.nil_append,
            List.length_cons] at hf ⊢
          unfold parseStringBody
          simp only [Char.reduceEq, if_false, if_true, simpleEscape]
          rw [ih n _ rest (by omega)]
          simp
        · by_cases h3 : c.toNat < 0x20
          · simp only [h1, h2, h3, if_false, if_true, List.cons_append, List.nil_append,
              List.length_cons] at hf ⊢
            unfold parseStringBody
            simp only [Char.reduceEq, if_false, if_true]
            rw [hex4_control c h3]
            simp only [escapedRune_control c h3]
            rw [ih n _ rest (by omega)]
            simp
          · simp only [h1, h2, h3, if_false, List.cons_append, List.nil_append,
              List.length_cons] at hf ⊢
            unfold parseStringBody
            simp only [h1, h2, h3, if_false]
            rw [ih n _ rest (by omega)]
            simp


theorem endsNumber_head (c : Char) (r : List Char) (h : endsNumber (c :: r) = true) :
    isDigit c = false ∧ c ≠ '.' ∧ c ≠ 'e' ∧ c ≠ 'E' := by
  have : ((isDigit c = false ∧ ¬c = '.') ∧ ¬c = 'e') ∧ ¬c = 'E' := by
    simpa [endsNumber] using h
  exact ⟨this.1.1.1, this.1.1.2, this.1.2, this.2⟩

theorem takeDigits_append (ds rest : List Char) (hd : ds.all isDigit = true)
    (hr : endsNumber rest = true) : takeDigits (ds ++ rest) = (ds, rest) := by
  unfold takeDigits
  rw [List.span_eq_take_drop]
  induction ds with
  | nil =>
    cases rest with
    | nil => rfl
    | cons c r =>
      have := (endsNumber_head c r hr).1
      simp [this]
  | cons d ds ih =>
    rw [List.all_cons, Bool.and_eq_true] at hd
    have := ih hd.2
    rw [Prod.mk.injEq] at this ⊢
    simp only [List.cons_append, List.takeWhile_cons, List.dropWhile_cons, hd.1, if_true]
    exact ⟨by rw [this.1], this.2⟩

theorem parseFracExp_end (pre rest : List Char) (hr : endsNumber rest = true) :
    parseFracExp pre rest = some (pre, rest) := by
  unfold parseFracExp
  cases rest with
  | nil => rfl
  | cons c r =>
    obtain ⟨_, h1, h2, h3⟩ := endsNumber_head c r hr
    have ha : (match c :: r with
        | '.' :: r2 =>
          match takeDigits r2 with
          | ([], _) => none
          | (ds, r3) => some (pre ++ '.' :: ds, r3)
        | _ => some (pre, c :: r)) = some (pre, c :: r) := by
      split
      · rename_i heq
        injection heq with hc _
        exact absurd hc h1
      · rfl
    simp only [ha]
    simp [h2, h3]

theorem parseIntPart_literal (pre lit rest : List Char) (hl : isNatLiteral lit = true)
    (hr : endsNumber rest = true) :
    parseIntPart pre (lit ++ rest) = some (pre ++ lit, rest) := by
  cases lit with
  | nil => simp [isNatLiteral] at hl
  | cons c r =>
    unfold isNatLiteral at hl
    unfold parseIntPart
    rw [List.cons_append]
    by_cases h0 : c = '0'
    · simp only [h0, if_true] at hl ⊢
      have : r = [] := by simpa using hl
      subst this
      rw [List.nil_append, parseFracExp_end _ _ hr]
    · simp only [h0, if_false, Bool.and_eq_true] at hl ⊢
      rw [if_pos hl.1, takeDigits_append r rest hl.2 hr]
      simp only []
      rw [parseFracExp_end _ _ hr]

theorem parseNumber_literal (lit rest : List Char) (hl : isIntLiteral lit = true)
    (hr : endsNumber rest = true) :
    parseNumber (lit ++ rest) = some (lit, rest) := by
  cases lit with
  | nil => simp [isIntLiteral] at hl
  | cons c r =>
    unfold isIntLiteral at hl
    by_cases hm : c = '-'
    · subst hm
      simp only [if_true] at hl
      unfold parseNumber
      rw [List.cons_append]
      simp only []
      rw [parseIntPart_literal ['-'] r rest hl hr]
      simp
    · simp only [hm, if_false] at hl
      unfold parseNumber
      rw [List.cons_append]
      have := parseIntPart_literal [] (c :: r) rest hl hr
      rw [List.cons_append, List.nil_append] at this
      split
      · rename_i heq
        injection heq with hc _
        exact absurd hc hm
      · exact this

/-- The first character of an integer literal. -/
theorem intLiteral_head (c : Char) (r : List Char) (hl : isIntLiteral (c :: r) = true) :
    c = '-' ∨ isDigit c = true := by
  unfold isIntLiteral at hl
  by_cases hm : c = '-'
  · exact Or.inl hm
  · right
    simp only [hm, if_false] at hl
    unfold isNatLiteral at hl
    by_cases h0 : c = '0'
    · rw [h0]; rfl
    · simp only [h0, if_false, Bool.and_eq_true] at hl
      exact hl.1

theorem digit_facts (c : Char) (h : c = '-' ∨ isDigit c = true) :
    isSpace c = false ∧ c ≠ '{' ∧ c ≠ '[' ∧ c ≠ '"' ∧ c ≠ 't' ∧ c ≠ 'f' ∧ c ≠ 'n' := by
  rcases h with h | h
  · subst h
    refine ⟨rfl, ?_, ?_, ?_, ?_, ?_, ?_⟩ <;> decide
  · unfold isDigit at h
    rw [Bool.and_eq_true, decide_eq_true_eq, decide_eq_true_eq] at h
    have h48 : ('0' : Char).toNat = 48 := rfl
    have h57 : ('9' : Char).toNat = 57 := rfl
    rw [h48, h57] at h
    refine ⟨?_, ?_, ?_, ?_, ?_, ?_, ?_⟩
    · unfold isSpace
      have a1 : c ≠ ' ' := by rintro rfl; revert h; decide
      have a2 : c ≠ '\t' := by rintro rfl; revert h; decide
      have a3 : c ≠ '\r' := by rintro rfl; revert h; decide
      have a4 : c ≠ '\n' := by rintro rfl; revert h; decide
      simp [a1, a2, a3, a4]
    all_goals (rintro rfl; revert h; decide)


theorem skipSpace_idem (cs : List Char) : skipSpace (skipSpace cs) = skipSpace cs := by
  unfold skipSpace
  induction cs with
  | nil => rfl
  | cons c cs ih =>
    rw [List.dropWhile_cons]
    by_cases hc : isSpace c = true
    · rw [if_pos hc]; exact ih
    · rw [if_neg hc, List.dropWhile_cons, if_neg hc]

theorem parseValue_skip (n d : Nat) (cs : List Char) :
    parseValue n d (skipSpace cs) = parseValue n d cs := by
  cases n with
  | zero => simp [parseValue]
  | succ n =>
    unfold parseValue
    rw [skipSpace_idem]

theorem parseElements_skip (n d : Nat) (cs : List Char) (acc : List JValue) :
    parseElements n d (skipSpace cs) acc = parseElements n d cs acc := by
  cases n with
  | zero => simp [parseElements]
  | succ n =>
    unfold parseElements
    rw [parseValue_skip]

theorem parseMembers_skip (n d : Nat) (cs : List Char) (acc : List (String × JValue)) :
    parseMembers n d (skipSpace cs) acc = parseMembers n d cs acc := by
  cases n with
  | zero => simp [parseMembers]
  | succ n =>
    unfold parseMembers
    rw [skipSpace_idem]

/-- The text of a printable value starts, after the whitespace, with a
character that is no whitespace and closes nothing. -/
theorem print_head (w : List Char) (j : JValue) (hp : printable j = true) :
    ∃ c t, print w j = w ++ c :: t ∧ isSpace c = false ∧ c ≠ ']' ∧ c ≠ '}' := by
  cases j with
  | null => exact ⟨'n', _, by unfold print; rfl, by decide, by decide, by decide⟩
  | bool b =>
    cases b
    · exact ⟨'f', _, by unfold print; rfl, by decide, by decide, by decide⟩
    · exact ⟨'t', _, by unfold print; rfl, by decide, by decide, by decide⟩
  | number lit =>
    unfold printable at hp
    cases hl : lit.data with
    | nil => rw [hl] at hp; simp [isIntLiteral] at hp
    | cons c r =>
      rw [hl] at hp
      have hf := digit_facts c (intLiteral_head c r hp)
      have hd := intLiteral_head c r hp
      refine ⟨c, r, by unfold print; rw [hl], hf.1, ?_, ?_⟩
      · rintro rfl
        rcases hd with hd | hd <;> revert hd <;> decide
      · rintro rfl
        rcases hd with hd | hd <;> revert hd <;> decide
  | string s => exact ⟨'"', _, by unfold print quote; rfl, by decide, by decide, by decide⟩
  | array xs => exact ⟨'[', _, by unfold print; rfl, by decide, by decide, by decide⟩
  | object kvs => exact ⟨'{', _, by unfold print; rfl, by decide, by decide, by decide⟩

theorem endsNumber_sep (w : List Char) (hw : w.all isSpace = true) (c : Char) (r : List Char)
    (hc : c = ',' ∨ c = ']' ∨ c = '}') : endsNumber (w ++ c :: r) = true := by
  cases w with
  | nil =>
    rcases hc with rfl | rfl | rfl <;> rfl
  | cons a w =>
    rw [List.all_cons, Bool.and_eq_true] at hw
    have ha := hw.1
    unfold isSpace at ha
    simp only [Bool.or_eq_true, decide_eq_true_eq] at ha
    rcases ha with ((rfl | rfl) | rfl) | rfl <;> rfl


theorem printRest_eq (w : List Char) (y : JValue) (ys : List JValue) :
    printRest w (y :: ys) = w ++ ',' :: printElems w (y :: ys) := by
  rw [printRest, printElems]

theorem printMembersRest_eq (w : List Char) (k : String) (y : JValue)
    (kvs : List (String × JValue)) :
    printMembersRest w ((k, y) :: kvs) = w ++ ',' :: printMembers w ((k, y) :: kvs) := by
  rw [printMembersRest, printMembers]

theorem endsNumber_printRest (w : List Char) (hw : w.all isSpace = true) (xs : List JValue)
    (rest : List Char) : endsNumber (printRest w xs ++ rest) = true := by
  cases xs with
  | nil =>
    rw [printRest, List.append_assoc]
    exact endsNumber_sep w hw ']' _ (Or.inr (Or.inl rfl))
  | cons y ys =>
    rw [printRest, List.append_assoc]
    exact endsNumber_sep w hw ',' _ (Or.inl rfl)

theorem endsNumber_printMembersRest (w : List Char) (hw : w.all isSpace = true)
    (kvs : List (String × JValue)) (rest : List Char) :
    endsNumber (printMembersRest w kvs ++ rest) = true := by
  cases kvs with
  | nil =>
    rw [printMembersRest, List.append_assoc]
    exact endsNumber_sep w hw '}' _ (Or.inr (Or.inr rfl))
  | cons kv kvs =>
    obtain ⟨k, y⟩ := kv
    rw [printMembersRest, List.append_assoc]
    exact endsNumber_sep w hw ',' _ (Or.inl rfl)

theorem parseString_quote (w : List Char) (hw : w.all isSpace = true) (k : String)
    (rest : List Char) :
    skipSpace (w ++ quote k ++ rest) = '"' :: (escape k.data ++ '"' :: rest)
      ∧ parseStringBody ((escape k.data ++ '"' :: rest).length + 1)
          (escape k.data ++ '"' :: rest) [] = some (k, rest) := by
  constructor
  · unfold quote
    simp only [List.append_assoc, List.cons_append, List.nil_append]
    exact skipSpace_token w hw '"' _ (by decide)
  · rw [parseStringBody_escape k.data _ [] rest (by simp)]
    rfl

mutual
theorem parseValue_print (w : List Char) (hw : w.all isSpace = true) :
    ∀ (j : JValue) (n d : Nat) (rest : List Char), printable j = true →
      (isContainer j = true ∨ endsNumber rest = true) → size j ≤ n → depth j ≤ d →
      parseValue n d (print w j ++ rest) = some (j, rest)
  | .null, n, d, rest, _, _, hs, _ => by
    obtain ⟨m, rfl⟩ : ∃ m, n = m + 1 := ⟨n - 1, by simp only [size] at hs; omega⟩
    rw [print]
    simp only [List.append_assoc, List.cons_append, List.nil_append]
    unfold parseValue
    rw [skipSpace_token w hw 'n' _ (by decide)]
    simp
  | .bool b, n, d, rest, _, _, hs, _ => by
    obtain ⟨m, rfl⟩ : ∃ m, n = m + 1 := ⟨n - 1, by simp only [size] at hs; omega⟩
    cases b
    · rw [print]
      simp only [Bool.false_eq_true, if_false, List.append_assoc, List.cons_append,
        List.nil_append]
      unfold parseValue
      rw [skipSpace_token w hw 'f' _ (by decide)]
      simp
    · rw [print]
      simp only [if_true, List.append_assoc, List.cons_append, List.nil_append]
      unfold parseValue
      rw [skipSpace_token w hw 't' _ (by decide)]
      simp
  | .number lit, n, d, rest, hp, he, hs, _ => by
    obtain ⟨m, rfl⟩ : ∃ m, n = m + 1 := ⟨n - 1, by simp only [size] at hs; omega⟩
    have her : endsNumber rest = true := by
      rcases he with he | he
      · simp [isContainer] at he
      · exact he
    rw [printable] at hp
    have hnum := parseNumber_literal lit.data rest hp her
    cases hl : lit.data with
    | nil => rw [hl] at hp; simp [isIntLiteral] at hp
    | cons c r =>
      rw [hl] at hp hnum
      obtain ⟨h0, h1, h2, h3, h4, h5, h6⟩ := digit_facts c (intLiteral_head c r hp)
      rw [print, List.append_assoc, hl, List.cons_append]
      unfold parseValue
      rw [skipSpace_token w hw c _ h0]
      simp only [h1, h2, h3, h4, h5, h6, if_false]
      rw [List.cons_append] at hnum
      rw [hnum]
      simp only []
      congr 2
      cases lit
      simp only at hl
      rw [hl]
  | .string s, n, d, rest, _, _, hs, _ => by
    obtain ⟨m, rfl⟩ : ∃ m, n = m + 1 := ⟨n - 1, by simp only [size] at hs; omega⟩
    obtain ⟨h1, h2⟩ := parseString_quote w hw s rest
    rw [print]
    unfold parseValue
    rw [h1]
    simp only [Char.reduceEq, if_false, if_true]
    rw [h2]
  | .array xs, n, d, rest, hp, _, hs, hd => by
    rw [size] at hs
    rw [depth] at hd
    rw [printable] at hp
    obtain ⟨m, rfl⟩ : ∃ m, n = m + 1 := ⟨n - 1, by omega⟩
    obtain ⟨d2, rfl⟩ : ∃ d2, d = d2 + 1 := ⟨d - 1, by omega⟩
    rw [print, List.append_assoc, List.cons_append]
    unfold parseValue
    rw [skipSpace_token w hw '[' _ (by decide)]
    simp only [Char.reduceEq, if_false, if_true]
    cases xs with
    | nil =>
      rw [printElems, List.append_assoc, List.cons_append, List.nil_append,
        skipSpace_token w hw ']' _ (by decide)]
      simp
    | cons x xs =>
      have hpx : printable x = true := by
        rw [printableAll, Bool.and_eq_true] at hp
        exact hp.1
      obtain ⟨c, t, hc, hsp, hc1, _⟩ := print_head w x hpx
      have hsk : skipSpace (printElems w (x :: xs) ++ rest)
          = c :: (t ++ (printRest w xs ++ rest)) := by
        rw [printElems, hc]
        simp only [List.append_assoc, List.cons_append]
        exact skipSpace_token w hw c _ hsp
      rw [hsk]
      simp only [hc1, if_false]
      rw [← hsk, parseElements_skip]
      exact parseElements_print w hw (x :: xs) m d2 rest [] hp (by omega) (by omega)
        (List.cons_ne_nil _ _)
  | .object kvs, n, d, rest, hp, _, hs, hd => by
    rw [size] at hs
    rw [depth] at hd
    rw [printable] at hp
    obtain ⟨m, rfl⟩ : ∃ m, n = m + 1 := ⟨n - 1, by omega⟩
    obtain ⟨d2, rfl⟩ : ∃ d2, d = d2 + 1 := ⟨d - 1, by omega⟩
    rw [print, List.append_assoc, List.cons_append]
    unfold parseValue
    rw [skipSpace_token w hw '{' _ (by decide)]
    simp only [Char.reduceEq, if_false, if_true]
    cases kvs with
    | nil =>
      rw [printMembers, List.append_assoc, List.cons_append, List.nil_append,
        skipSpace_token w hw '}' _ (by decide)]
      simp
    | cons kv kvs =>
      obtain ⟨k, x⟩ := kv
      have hsk : skipSpace (printMembers w ((k, x) :: kvs) ++ rest)
          = '"' :: (escape k.data ++ '"' ::
              ((w ++ ':' :: (print w x ++ printMembersRest w kvs)) ++ rest)) := by
        rw [printMembers]
        have := (parseString_quote w hw k
          ((w ++ ':' :: (print w x ++ printMembersRest w kvs)) ++ rest)).1
        simp only [List.append_assoc] at this ⊢
        exact this
      rw [hsk]
      simp only [Char.reduceEq, if_false]
      rw [← hsk, parseMembers_skip]
      exact parseMembers_print w hw ((k, x) :: kvs) m d2 rest [] hp (by omega) (by omega)
        (List.cons_ne_nil _ _)
theorem parseElements_print (w : List Char) (hw : w.all isSpace = true) :
    ∀ (l : List JValue) (n d : Nat) (rest : List Char) (acc : List JValue),
      printableAll l = true → sizeAll l ≤ n → depthAll l ≤ d → l ≠ [] →
      parseElements n d (printElems w l ++ rest) acc = some (JValue.array (acc ++ l), rest)
  | [], _, _, _, _, _, _, _, hne => absurd rfl hne
  | x :: xs, n, d, rest, acc, hp, hs, hd, _ => by
    rw [sizeAll] at hs
    rw [depthAll] at hd
    rw [printableAll, Bool.and_eq_true] at hp
    obtain ⟨m, rfl⟩ : ∃ m, n = m + 1 := ⟨n - 1, by omega⟩
    have hv := parseValue_print w hw x m d (printRest w xs ++ rest) hp.1
      (Or.inr (endsNumber_printRest w hw xs rest)) (by omega) (by omega)
    rw [printElems, List.append_assoc]
    unfold parseElements
    rw [hv]
    simp only []
    cases xs with
    | nil =>
      rw [printRest, List.append_assoc, List.cons_append, List.nil_append,
        skipSpace_token w hw ']' _ (by decide)]
      simp
    | cons y ys =>
      rw [printRest_eq, List.append_assoc, List.cons_append,
        skipSpace_token w hw ',' _ (by decide)]
      simp only [if_true]
      rw [parseElements_print w hw (y :: ys) m d rest (acc ++ [x]) hp.2
        (by rw [sizeAll] at hs ⊢; omega) (by omega) (List.cons_ne_nil _ _)]
      simp
theorem parseMembers_print (w : List Char) (hw : w.all isSpace = true) :
    ∀ (l : List (String × JValue)) (n d : Nat) (rest : List Char)
      (acc : List (String × JValue)),
      printableMembers l = true → sizeMembers l ≤ n → depthMembers l ≤ d → l ≠ [] →
      parseMembers n d (printMembers w l ++ rest) acc
        = some (JValue.object (acc ++ l), rest)
  | [], _, _, _, _, _, _, _, hne => absurd rfl hne
  | (k, x) :: kvs, n, d, rest, acc, hp, hs, hd, _ => by
    rw [sizeMembers] at hs
    rw [depthMembers] at hd
    rw [printableMembers, Bool.and_eq_true] at hp
    obtain ⟨m, rfl⟩ : ∃ m, n = m + 1 := ⟨n - 1, by omega⟩
    have hv := parseValue_print w hw x m d (printMembersRest w kvs ++ rest) hp.1
      (Or.inr (endsNumber_printMembersRest w hw kvs rest)) (by omega) (by omega)
    obtain ⟨h1, h2⟩ := parseString_quote w hw k
      ((w ++ ':' :: (print w x ++ printMembersRest w kvs)) ++ rest)
    rw [printMembers]
    unfold parseMembers
    simp only [List.append_assoc] at h1 h2 ⊢
    rw [h1]
    simp only [if_true]
    rw [h2]
    simp only [List.cons_append, List.append_assoc]
    rw [skipSpace_token w hw ':' _ (by decide)]
    simp only [if_true]
    rw [hv]
    simp only []
    cases kvs with
    | nil =>
      rw [printMembersRest, List.append_assoc, List.cons_append, List.nil_append,
        skipSpace_token w hw '}' _ (by decide)]
      simp
    | cons kv kvs =>
      obtain ⟨k2, y⟩ := kv
      rw [printMembersRest_eq, List.append_assoc, List.cons_append,
        skipSpace_token w hw ',' _ (by decide)]
      simp only [if_true]
      rw [parseMembers_print w hw ((k2, y) :: kvs) m d rest (acc ++ [(k, x)]) hp.2
        (by rw [sizeMembers] at hs ⊢; omega) (by omega) (List.cons_ne_nil _ _)]
      simp
end

end Json

/-! ## The binding of written values -/

namespace Json

theorem digitChar_toNat (d : Nat) (hd : d < 10) : (digitChar d).toNat = 48 + d := by
  interval_cases d <;> rfl

theorem isDigit_digitChar (d : Nat) (hd : d < 10) : isDigit (digitChar d) = true := by
  interval_cases d <;> rfl

theorem digitChar_ne_zero (d : Nat) (hd : d < 10) (h0 : d ≠ 0) : digitChar d ≠ '0' := by
  interval_cases d <;> first | exact absurd rfl h0 | decide

theorem digitChar_ne_minus (d : Nat) (hd : d < 10) : digitChar d ≠ '-' := by
  interval_cases d <;> decide

theorem digitsVal_append (cs : List Char) (c : Char) :
    digitsVal (cs ++ [c]) = digitsVal cs * 10 + (c.toNat - '0'.toNat) := by
  unfold digitsVal
  rw [List.foldl_append]
  rfl

theorem digitsVal_digits (l : List Nat) (hl : ∀ d ∈ l, d < 10) :
    digitsVal (l.reverse.map digitChar) = Nat.ofDigits 10 l := by
  induction l with
  | nil => rfl
  | cons d l ih =>
    rw [List.reverse_cons, List.map_append, List.map_singleton, digitsVal_append,
      ih (fun x hx => hl x (List.mem_cons_of_mem _ hx)), Nat.ofDigits_cons,
      digitChar_toNat d (hl d (List.mem_cons_self _ _))]
    have : ('0' : Char).toNat = 48 := rfl
    rw [this]
    omega

theorem renderNat_spec (n : Nat) :
    isNatLiteral (renderNat n) = true ∧ digitsVal (renderNat n) = n
      ∧ (renderNat n).all isDigit = true ∧ renderNat n ≠ []
      ∧ (∀ c r, renderNat n = c :: r → c ≠ '-') := by
  unfold renderNat
  by_cases h0 : n = 0
  · subst h0
    refine ⟨rfl, rfl, rfl, by simp, ?_⟩
    intro c r h
    simp only [if_true] at h
    injection h with h _
    rw [← h]
    decide
  · rw [if_neg h0]
    have hlt : ∀ d ∈ Nat.digits 10 n, d < 10 := fun d hd => Nat.digits_lt_base (by norm_num) hd
    have hne : Nat.digits 10 n ≠ [] := Nat.digits_ne_nil_iff_ne_zero.2 h0
    have hlast := Nat.getLast_digit_ne_zero 10 h0
    have hall : ((Nat.digits 10 n).reverse.map digitChar).all isDigit = true := by
      rw [List.all_eq_true]
      intro c hc
      rw [List.mem_map] at hc
      obtain ⟨d, hd, rfl⟩ := hc
      exact isDigit_digitChar d (hlt d (List.mem_reverse.1 hd))
    have hval : digitsVal ((Nat.digits 10 n).reverse.map digitChar) = n := by
      rw [digitsVal_digits _ hlt, Nat.ofDigits_digits]
    obtain ⟨ds, dl, hsplit⟩ : ∃ ds dl, Nat.digits 10 n = ds ++ [dl] :=
      ⟨_, _, (List.dropLast_append_getLast hne).symm⟩
    have hdl : dl = (Nat.digits 10 n).getLast hne := by
      simp [hsplit]
    have hdl0 : dl ≠ 0 := by rw [hdl]; exact hlast
    have hdl10 : dl < 10 := hlt dl (by rw [hsplit]; simp)
    have hform : (Nat.digits 10 n).reverse.map digitChar
        = digitChar dl :: (ds.reverse.map digitChar) := by
      rw [hsplit]
      simp
    refine ⟨?_, hval, hall, by rw [hform]; simp, ?_⟩
    · rw [hform] at hall ⊢
      simp only [isNatLiteral, digitChar_ne_zero dl hdl10 hdl0, if_false]
      rw [List.all_cons] at hall
      exact hall
    · intro c r h
      rw [hform] at h
      injection h with h _
      rw [← h]
      exact digitChar_ne_minus dl hdl10

theorem renderInt_literal (i : Int) : isIntLiteral (renderInt i) = true := by
  obtain ⟨h1, _, _, h4, h5⟩ := renderNat_spec i.natAbs
  unfold renderInt
  by_cases hi : i < 0
  · rw [if_pos hi]
    simp only [isIntLiteral, if_true]
    exact h1
  · rw [if_neg hi]
    cases hr : renderNat i.natAbs with
    | nil => exact absurd hr h4
    | cons c r =>
      simp only [isIntLiteral, h5 c r hr, if_false]
      rw [← hr]
      exact h1

theorem parseInt_renderInt (i : Int) (hi : - (2 : Int) ^ 63 ≤ i ∧ i < (2 : Int) ^ 63) :
    parseInt (String.mk (renderInt i)) = some i := by
  obtain ⟨_, h2, h3, h4, h5⟩ := renderNat_spec i.natAbs
  unfold parseInt renderInt
  by_cases hneg : i < 0
  · simp only [hneg, if_true]
    simp only [h4, h3, ne_eq, not_false_eq_true, and_self, if_true, h2]
    have : -((i.natAbs : ℕ) : Int) = i := by omega
    rw [this, if_pos hi]
  · simp only [hneg, if_false]
    cases hr : renderNat i.natAbs with
    | nil => exact absurd hr h4
    | cons c r =>
      have hc := h5 c r hr
      have hsplit : (match c :: r with
          | '-' :: r2 => (true, r2)
          | cs => (false, cs)) = (false, c :: r) := by
        split
        · rename_i heq
          injection heq with h _
          exact absurd h hc
        · rfl
      simp only [hsplit]
      rw [← hr]
      simp only [h4, h3, ne_eq, not_false_eq_true, and_self, if_true, h2, Bool.false_eq_true,
        if_false]
      have : ((i.natAbs : ℕ) : Int) = i := by omega
      rw [this, if_pos hi]


theorem selector_exact {α : Type} (fs : List (String × String × α)) (key : String)
    (h : ∃ f ∈ fs, f.2.1 = key) : selector fs key = fun name => decide (name = key) := by
  unfold selector
  have : fs.any (fun f => decide (f.2.1 = key)) = true := by
    rw [List.any_eq_true]
    obtain ⟨f, hf, hk⟩ := h
    exact ⟨f, hf, by simp [hk]⟩
  rw [if_pos this]

theorem bindField_skip (pre rest : List (String × String × GoType)) (p : String → Bool)
    (x : JValue) (old : List (String × GoValue)) (h : ∀ g ∈ pre, p g.2.1 = false) :
    bindField (pre ++ rest) p x old = bindField rest p x old := by
  induction pre with
  | nil => rfl
  | cons g pre ih =>
    obtain ⟨name, json, t⟩ := g
    rw [List.cons_append, bindField]
    have hg := h (name, json, t) (List.mem_cons_self _ _)
    simp only at hg
    rw [hg]
    simp only [Bool.false_eq_true, if_false]
    exact ih (fun g hg => h g (List.mem_cons_of_mem _ hg))

theorem fitsField_skip (pre rest : List (String × String × GoType)) (p : String → Bool)
    (x : JValue) (h : ∀ g ∈ pre, p g.2.1 = false) :
    fitsField (pre ++ rest) p x = fitsField rest p x := by
  induction pre with
  | nil => rfl
  | cons g pre ih =>
    obtain ⟨name, json, t⟩ := g
    rw [List.cons_append, fitsField]
    have hg := h (name, json, t) (List.mem_cons_self _ _)
    simp only at hg
    rw [hg]
    simp only [Bool.false_eq_true, if_false]
    exact ih (fun g hg => h g (List.mem_cons_of_mem _ hg))

theorem getField_skip (pre : List (String × GoValue)) (name : String) (v : GoValue)
    (r : List (String × GoValue)) (h : name ∉ pre.map (fun f => f.1)) :
    getField (pre ++ (name, v) :: r) name = some v := by
  unfold getField
  induction pre with
  | nil => simp
  | cons g pre ih =>
    have hg : g.1 ≠ name := fun e => h (by simp [e])
    have hp : name ∉ pre.map (fun f => f.1) := fun e => h (by simp at e ⊢; exact Or.inr e)
    rw [List.cons_append, List.find?_cons]
    simp only [hg, decide_False]
    exact ih hp

theorem setField_skip (pre : List (String × GoValue)) (name : String) (z v : GoValue)
    (r : List (String × GoValue)) (h : name ∉ pre.map (fun f => f.1)) :
    setField (pre ++ (name, z) :: r) name v = pre ++ (name, v) :: r := by
  induction pre with
  | nil => simp [setField]
  | cons g pre ih =>
    obtain ⟨k, w⟩ := g
    have hg : k ≠ name := fun e => h (by simp [e])
    have hp : name ∉ pre.map (fun f => f.1) := fun e => h (by simp at e ⊢; exact Or.inr e)
    rw [List.cons_append, setField, if_neg hg, ih hp, List.cons_append]

theorem mapSet_new (old : List (String × GoValue)) (k : String) (v : GoValue)
    (h : k ∉ old.map (fun f => f.1)) : mapSet old k v = old ++ [(k, v)] := by
  induction old with
  | nil => rfl
  | cons g old ih =>
    obtain ⟨k2, w⟩ := g
    have hg : k2 ≠ k := fun e => h (by simp [e])
    have hp : k ∉ old.map (fun f => f.1) := fun e => h (by simp at e ⊢; exact Or.inr e)
    rw [mapSet, if_neg hg, ih hp, List.cons_append]

theorem bindElems_encode (f : JValue → GoValue → GoValue) (e : GoValue → JValue)
    (z : GoValue) (vs : List GoValue) (h : ∀ v ∈ vs, f (e v) z = v) :
    bindElems f z (vs.map e) [] = vs := by
  induction vs with
  | nil => rfl
  | cons v vs ih =>
    rw [List.map_cons, bindElems]
    simp only [List.headD_nil, List.tail_nil]
    rw [h v (List.mem_cons_self _ _), ih (fun x hx => h x (List.mem_cons_of_mem _ hx))]

theorem bindEntries_encode (f : JValue → GoValue → GoValue) (e : GoValue → JValue)
    (z : GoValue) (kvs : List (String × GoValue)) :
    ∀ (old : List (String × GoValue)), (∀ kv ∈ kvs, f (e kv.2) z = kv.2) →
      ((old ++ kvs).map (fun kv => kv.1)).Nodup →
      bindEntries f z (kvs.map (fun kv => (kv.1, e kv.2))) old = old ++ kvs := by
  induction kvs with
  | nil => intro old _ _; simp [bindEntries]
  | cons kv kvs ih =>
    intro old h hn
    obtain ⟨k, v⟩ := kv
    rw [List.map_cons, bindEntries]
    have hk : k ∉ old.map (fun f => f.1) := by
      intro hmem
      rw [List.map_append, List.map_cons, List.nodup_append] at hn
      exact hn.2.2 hmem (List.mem_cons_self _ _)
    have hv := h (k, v) (List.mem_cons_self _ _)
    simp only at hv
    rw [hv, mapSet_new old k v hk]
    have := ih (old ++ [(k, v)]) (fun x hx => h x (List.mem_cons_of_mem _ hx))
      (by simpa [List.append_assoc] using hn)
    rw [this, List.append_assoc]
    rfl

mutual
theorem clearUnfit_of_fits : ∀ (j : JValue), fitsInterface j = true → clearUnfit j = j
  | .null, _ => by rw [clearUnfit]
  | .bool b, _ => by rw [clearUnfit]
  | .string s, _ => by rw [clearUnfit]
  | .number lit, h => by
    rw [fitsInterface] at h
    rw [clearUnfit, if_pos h]
  | .array xs, h => by
    rw [fitsInterface] at h
    rw [clearUnfit, clearUnfitAll_of_fits xs h]
  | .object kvs, h => by
    rw [fitsInterface] at h
    rw [clearUnfit, clearUnfitMembers_of_fits kvs h]
theorem clearUnfitAll_of_fits : ∀ (xs : List JValue), fitsInterfaceAll xs = true →
    clearUnfitAll xs = xs
  | [], _ => by rw [clearUnfitAll]
  | x :: xs, h => by
    rw [fitsInterfaceAll, Bool.and_eq_true] at h
    rw [clearUnfitAll, clearUnfit_of_fits x h.1, clearUnfitAll_of_fits xs h.2]
theorem clearUnfitMembers_of_fits : ∀ (kvs : List (String × JValue)),
    fitsInterfaceMembers kvs = true → clearUnfitMembers kvs = kvs
  | [], _ => by rw [clearUnfitMembers]
  | (k, x) :: kvs, h => by
    rw [fitsInterfaceMembers, Bool.and_eq_true] at h
    rw [clearUnfitMembers, clearUnfit_of_fits x h.1, clearUnfitMembers_of_fits kvs h.2]
end


theorem isNull_false (j : JValue) (h : isNull j = false) :
    (match j with
      | .null => true
      | j2 => fits t j2) = fits t j
    ∧ (match j with
      | .null => GoValue.nil
      | j2 => GoValue.ptr (bindValue t j2 z)) = GoValue.ptr (bindValue t j z) := by
  cases j <;> simp [isNull] at h ⊢

mutual
theorem bind_encode : ∀ (t : GoType) (g : GoValue), distinctFields t = true →
    hasType t g = true → fits t (encode t g) = true ∧ bindValue t (encode t g) t.zero = g
  | .string, g, _, ht => by
    cases g <;> simp [hasType] at ht
    simp [encode, fits, bindValue]
  | .int, g, _, ht => by
    cases g <;> simp [hasType] at ht
    rename_i i
    have hp := parseInt_renderInt i ht
    simp [encode, fits, bindValue, hp]
  | .bool, g, _, ht => by
    cases g <;> simp [hasType] at ht
    simp [encode, fits, bindValue]
  | .iface, g, _, ht => by
    cases g <;> simp [hasType] at ht
    · simp [encode, fits, bindValue, fitsInterface]
    · rename_i j
      obtain ⟨hn, hf⟩ := ht
      have hc := clearUnfit_of_fits j hf
      rw [encode]
      cases j with
      | null => simp [isNull] at hn
      | number lit =>
        rw [fitsInterface] at hf
        simp [fits, bindValue, fitsInterface, hf]
      | bool b => simp [fits, bindValue, fitsInterface, hc]
      | string s => simp [fits, bindValue, fitsInterface, hc]
      | array xs => simp [fits, bindValue, hf, hc]
      | object kvs => simp [fits, bindValue, hf, hc]
  | .ptr t, g, hg, ht => by
    rw [distinctFields] at hg
    cases g <;> simp [hasType] at ht
    · simp [encode, fits, bindValue, GoType.zero]
    · rename_i v
      obtain ⟨hv, hn⟩ := ht
      obtain ⟨h1, h2⟩ := bind_encode t v hg hv
      rw [encode]
      generalize encode t v = j at h1 h2 hn
      cases j <;> simp [isNull] at hn <;> simp [fits, bindValue, GoType.zero, h1, h2]
  | .slice t, g, hg, ht => by
    rw [distinctFields] at hg
    have hz : GoType.zero (GoType.slice t) = GoValue.nil := by rw [GoType.zero]
    cases g <;> simp [hasType] at ht
    · simp [encode, fits, bindValue, GoType.zero]
    · rename_i vs
      have ih := fun v (hv : hasType t v = true) => bind_encode t v hg hv
      rw [encode, hz]
      simp only [fits, bindValue]
      constructor
      · rw [List.all_eq_true]
        intro x hx
        rw [List.mem_map] at hx
        obtain ⟨v, hv, rfl⟩ := hx
        exact (ih v (ht v hv)).1
      · rw [bindElems_encode (bindValue t) (encode t) t.zero vs
          (fun v hv => (ih v (ht v hv)).2)]
  | .map t, g, hg, ht => by
    rw [distinctFields] at hg
    have hz : GoType.zero (GoType.map t) = GoValue.nil := by rw [GoType.zero]
    cases g <;> simp [hasType] at ht
    · simp [encode, fits, bindValue, GoType.zero]
    · rename_i kvs
      obtain ⟨hn, hall⟩ := ht
      have ih := fun v (hv : hasType t v = true) => bind_encode t v hg hv
      rw [encode, hz]
      simp only [fits, bindValue]
      constructor
      · rw [List.all_eq_true]
        intro x hx
        rw [List.mem_map] at hx
        obtain ⟨kv, hkv, rfl⟩ := hx
        exact (ih kv.2 (hall kv.1 kv.2 hkv)).1
      · rw [bindEntries_encode (bindValue t) (encode t) t.zero kvs []
          (fun kv hkv => (ih kv.2 (hall kv.1 kv.2 hkv)).2) (by simpa using hn)]
        rfl
  | .struct fs, g, hg, ht => by
    rw [distinctFields] at hg
    simp only [Bool.and_eq_true, decide_eq_true_eq] at hg
    have hz : GoType.zero (GoType.struct fs) = GoValue.struct (GoType.zeroFields fs) := by
      rw [GoType.zero]
    cases g <;> simp [hasType] at ht
    rename_i vals
    have := bind_encodeFields fs fs [] [] vals rfl hg.1.1 hg.1.2 hg.2 rfl ht
    simp only [List.nil_append] at this
    rw [encode, hz]
    simp only [fits, bindValue]
    exact ⟨this.1, by rw [this.2]⟩
theorem bind_encodeFields : ∀ (suf fs pre : List (String × String × GoType))
    (valsPre valsSuf : List (String × GoValue)), fs = pre ++ suf →
    distinctFieldsAll suf = true → (fs.map (fun f => f.1)).Nodup →
    (fs.map (fun f => f.2.1)).Nodup → valsPre.map (fun f => f.1) = pre.map (fun f => f.1) →
    hasTypeFields suf valsSuf = true →
    (encodeFields suf valsSuf).all (fun kv => fitsField fs (selector fs kv.1) kv.2) = true
      ∧ (encodeFields suf valsSuf).foldl
          (fun old kv => bindField fs (selector fs kv.1) kv.2 old)
          (valsPre ++ GoType.zeroFields suf) = valsPre ++ valsSuf
  | [], fs, pre, valsPre, valsSuf, _, _, _, _, _, ht => by
    rw [hasTypeFields] at ht
    have : valsSuf = [] := by simpa using ht
    subst this
    simp [encodeFields, GoType.zeroFields]
  | (name, json, t) :: suf, fs, pre, valsPre, valsSuf, hfs, hd, hn1, hn2, hpre, ht => by
    rw [distinctFieldsAll, Bool.and_eq_true] at hd
    cases valsSuf with
    | nil => simp [hasTypeFields] at ht
    | cons nv vs =>
      obtain ⟨n, v⟩ := nv
      rw [hasTypeFields] at ht
      simp only [Bool.and_eq_true, decide_eq_true_eq] at ht
      obtain ⟨⟨hname, hv⟩, hvs⟩ := ht
      subst hname
      obtain ⟨h1, h2⟩ := bind_encode t v hd.1 hv
      have hfs2 : fs = (pre ++ [(n, json, t)]) ++ suf := by
        rw [hfs]; simp
      have hpre2 : (valsPre ++ [(n, v)]).map (fun f => f.1)
          = (pre ++ [(n, json, t)]).map (fun f => f.1) := by
        simp [hpre]
      obtain ⟨i1, i2⟩ := bind_encodeFields suf fs (pre ++ [(n, json, t)])
        (valsPre ++ [(n, v)]) vs hfs2 hd.2 hn1 hn2 hpre2 hvs
      have hsel : selector fs json = fun name => decide (name = json) :=
        selector_exact fs json ⟨(n, json, t), by rw [hfs]; simp, rfl⟩
      have hskip : ∀ g ∈ pre, (fun name => decide (name = json)) g.2.1 = false := by
        intro g hg
        simp only [decide_eq_false_iff_not]
        intro e
        rw [hfs, List.map_append, List.map_cons, List.nodup_append] at hn2
        exact hn2.2.2 (List.mem_map.2 ⟨g, hg, e⟩) (List.mem_cons_self _ _)
      have hnot : n ∉ valsPre.map (fun f => f.1) := by
        rw [hpre]
        intro hmem
        rw [hfs, List.map_append, List.map_cons, List.nodup_append] at hn1
        exact hn1.2.2 hmem (List.mem_cons_self _ _)
      rw [encodeFields]
      simp only [List.all_cons, List.foldl_cons, Bool.and_eq_true]
      rw [hsel]
      constructor
      · refine ⟨?_, i1⟩
        rw [hfs, fitsField_skip pre _ _ _ hskip, fitsField]
        simp only [decide_True, if_true]
        exact h1
      · have hb : bindField fs (fun name => decide (name = json)) (encode t v)
            (valsPre ++ GoType.zeroFields ((n, json, t) :: suf))
            = (valsPre ++ [(n, v)]) ++ GoType.zeroFields suf := by
          rw [hfs, bindField_skip pre _ _ _ _ hskip, bindField]
          simp only [decide_True, if_true]
          rw [GoType.zeroFields, getField_skip valsPre n _ _ hnot]
          simp only [Option.getD_some]
          rw [h2, setField_skip valsPre n _ _ _ hnot]
          simp
        rw [hb, i2]
        simp
end

end Json

/-! ## Whole texts: the steps of the reader and the documents -/

namespace Json

theorem isIntLiteral_length (lit : List Char) (h : isIntLiteral lit = true) :
    1 ≤ lit.length := by
  cases lit with
  | nil => exact Bool.noConfusion h
  | cons c r => simp

theorem quote_length (s : String) : 1 ≤ (quote s).length := by
  simp [quote]

mutual
theorem size_le_print (w : List Char) :
    ∀ (j : JValue), printable j = true → size j ≤ (print w j).length
  | .null, _ => by simp [size, print]
  | .bool b, _ => by cases b <;> simp [size, print]
  | .number lit, hp => by
    rw [printable] at hp
    have := isIntLiteral_length lit.data hp
    simp only [size, print, List.length_append]
    omega
  | .string s, _ => by
    have := quote_length s
    simp only [size, print, List.length_append]
    omega
  | .array xs, hp => by
    rw [printable] at hp
    have := sizeAll_le_printElems w xs hp
    simp only [size, print, List.length_append, List.length_cons]
    omega
  | .object kvs, hp => by
    rw [printable] at hp
    have := sizeMembers_le_printMembers w kvs hp
    simp only [size, print, List.length_append, List.length_cons]
    omega
theorem sizeAll_le_printElems (w : List Char) :
    ∀ (xs : List JValue), printableAll xs = true → sizeAll xs ≤ (printElems w xs).length
  | [], _ => by simp [sizeAll]
  | x :: xs, hp => by
    rw [printableAll, Bool.and_eq_true] at hp
    have h1 := size_le_print w x hp.1
    have h2 := sizeAll_lt_printRest w xs hp.2
    simp only [sizeAll, printElems, List.length_append]
    omega
theorem sizeAll_lt_printRest (w : List Char) :
    ∀ (xs : List JValue), printableAll xs = true → sizeAll xs + 1 ≤ (printRest w xs).length
  | [], _ => by simp [sizeAll, printRest]
  | x :: xs, hp => by
    rw [printableAll, Bool.and_eq_true] at hp
    have h1 := size_le_print w x hp.1
    have h2 := sizeAll_lt_printRest w xs hp.2
    simp only [sizeAll, printRest, List.length_append, List.length_cons]
    omega
theorem sizeMembers_le_printMembers (w : List Char) :
    ∀ (kvs : List (String × JValue)), printableMembers kvs = true →
      sizeMembers kvs ≤ (printMembers w kvs).length
  | [], _ => by simp [sizeMembers]
  | (k, x) :: kvs, hp => by
    rw [printableMembers, Bool.and_eq_true] at hp
    have h1 := size_le_print w x hp.1
    have h2 := sizeMembers_lt_printMembersRest w kvs hp.2
    simp only [sizeMembers, printMembers, List.length_append, List.length_cons]
    omega
theorem sizeMembers_lt_printMembersRest (w : List Char) :
    ∀ (kvs : List (String × JValue)), printableMembers kvs = true →
      sizeMembers kvs + 1 ≤ (printMembersRest w kvs).length
  | [], _ => by simp [sizeMembers, printMembersRest]
  | (k, x) :: kvs, hp => by
    rw [printableMembers, Bool.and_eq_true] at hp
    have h1 := size_le_print w x hp.1
    have h2 := sizeMembers_lt_printMembersRest w kvs hp.2
    simp only [sizeMembers, printMembersRest, List.length_append, List.length_cons]
    omega
end

/-- The reader on a written value followed by any text: it returns the value
and the text, provided a number is not followed by more of a number. -/
theorem readValue_print (w : List Char) (hw : w.all isSpace = true) (j : JValue)
    (rest : List Char) (hp : printable j = true) (hd : depth j ≤ maxNestingDepth)
    (hr : isContainer j = true ∨ endsNumber rest = true) :
    readValue (String.mk (print w j ++ rest)) = some (j, rest) := by
  unfold readValue
  have hs := size_le_print w j hp
  apply parseValue_print w hw j _ _ rest hp hr _ hd
  simp only [String.length, List.length_append]
  omega

theorem endsNumber_space (w : List Char) (hw : w.all isSpace = true) :
    endsNumber w = true := by
  cases w with
  | nil => rfl
  | cons c r =>
    rw [List.all_cons, Bool.and_eq_true] at hw
    have hc := hw.1
    unfold isSpace at hc
    unfold endsNumber isDigit
    simp only [Bool.or_eq_true, decide_eq_true_eq] at hc
    rcases hc with ((h | h) | h) | h <;> subst h <;> rfl

/-- A written value with whitespace after it is a document. -/
theorem document_print (w w2 : List Char) (hw : w.all isSpace = true)
    (hw2 : w2.all isSpace = true) (j : JValue) (hp : printable j = true)
    (hd : depth j ≤ maxNestingDepth) :
    document (String.mk (print w j ++ w2)) = some j := by
  unfold document
  rw [readValue_print w hw j w2 hp hd (Or.inr (endsNumber_space w2 hw2))]
  simp only [skipSpace_only w2 hw2, if_true]

end Json

/-! ## The steps of `Do` -/

theorem Do_transport_error (S : Std) (k : Kongo) (req : Request) (value : Option Dest)
    (err : Error) (hdo : k.client.Do req = .error err) :
    k.Do S req value = (none, some err, value) := by
  unfold Kongo.Do
  rw [hdo]

theorem Do_success_unfold (S : Std) (k : Kongo) (req : Request) (res : Response) (d : Dest)
    (hdo : k.client.Do req = .ok res)
    (hc : 200 ≤ res.StatusCode ∧ res.StatusCode ≤ 299) :
    k.Do S req (some d) =
      if (Decode res.Body d).2 then (none, some Error.decode, some (Decode res.Body d).1)
      else (some res, none, some (Decode res.Body d).1) := by
  unfold Kongo.Do
  rw [hdo]
  simp only [checkResponse_success S res hc]

theorem Do_success_nil (S : Std) (k : Kongo) (req : Request) (res : Response)
    (hdo : k.client.Do req = .ok res)
    (hc : 200 ≤ res.StatusCode ∧ res.StatusCode ≤ 299) :
    k.Do S req none = (some res, none, none) := by
  unfold Kongo.Do
  rw [hdo]
  simp only [checkResponse_success S res hc]

theorem Do_failure (S : Std) (k : Kongo) (req : Request) (res : Response)
    (value : Option Dest)
    (hdo : k.client.Do req = .ok res)
    (hc : ¬ (200 ≤ res.StatusCode ∧ res.StatusCode ≤ 299)) :
    ∃ res2 e, checkResponse S res = (res2, some e)
      ∧ k.Do S req value = (some res2, some (Error.response e), value) := by
  have hsome := checkResponse_failure_isSome S res hc
  cases hcr : checkResponse S res with
  | mk res2 oe =>
    rw [hcr] at hsome
    cases oe with
    | none => exact Bool.noConfusion hsome
    | some e =>
      refine ⟨res2, e, rfl, ?_⟩
      unfold Kongo.Do
      rw [hdo]
      simp only [hcr]

/-- A text that is one JSON document starts with that document. -/
theorem readValue_of_document (data : String) (v : JValue)
    (h : unmarshalValue data = some v) :
    ∃ rest, Json.readValue data = some (v, rest) := by
  unfold unmarshalValue Json.document at h
  cases hr : Json.readValue data with
  | none => rw [hr] at h; exact Option.noConfusion h
  | some p =>
    obtain ⟨w, rest⟩ := p
    rw [hr] at h
    dsimp only at h
    by_cases hs : Json.skipSpace rest = []
    · rw [if_pos hs] at h
      injection h with h
      exact ⟨rest, by rw [h]⟩
    · rw [if_neg hs] at h
      exact Option.noConfusion h

theorem decodeValue_of_read (b : Body) (v : JValue) (rest : List Char)
    (hr : b.readErr = none) (h : Json.readValue b.data = some (v, rest)) :
    decodeValue b = some v := by
  unfold decodeValue
  rw [h, hr]

theorem decodeValue_none (b : Body) (h : Json.readValue b.data = none) :
    decodeValue b = none := by
  unfold decodeValue
  rw [h]

/-- The outcome of `Do` with a destination on a reply in 200-299 whose body
starts with the JSON value `v`: the value is bound to the destination, and the
call succeeds exactly when the value fits the type of the destination. -/
theorem Do_of_read (S : Std) (k : Kongo) (req : Request) (res : Response) (d : Dest)
    (v : JValue) (rest : List Char)
    (hdo : k.client.Do req = .ok res)
    (hc : 200 ≤ res.StatusCode ∧ res.StatusCode ≤ 299)
    (hr : res.Body.readErr = none)
    (h : Json.readValue res.Body.data = some (v, rest)) :
    k.Do S req (some d) =
      if Json.fits d.ty v then
        (some res, none, some { d with val := Json.bindValue d.ty v d.val })
      else (none, some Error.decode, some { d with val := Json.bindValue d.ty v d.val }) := by
  rw [Do_success_unfold S k req res d hdo hc]
  have hd : Decode res.Body d
      = ({ d with val := Json.bindValue d.ty v d.val }, !Json.fits d.ty v) := by
    unfold Decode
    rw [decodeValue_of_read res.Body v rest hr h]
  rw [hd]
  cases Json.fits d.ty v <;> rfl

theorem Do_of_no_value (S : Std) (k : Kongo) (req : Request) (res : Response) (d : Dest)
    (hdo : k.client.Do req = .ok res)
    (hc : 200 ≤ res.StatusCode ∧ res.StatusCode ≤ 299)
    (h : Json.readValue res.Body.data = none) :
    k.Do S req (some d) = (none, some Error.decode, some d) := by
  rw [Do_success_unfold S k req res d hdo hc]
  have hd : Decode res.Body d = (d, true) := by
    unfold Decode
    rw [decodeValue_none res.Body h]
  rw [hd]
  rfl

/-! ## The message of the structured error -/

theorem length_eq_zero_iff (data : String) : data.length = 0 ↔ data = "" := by
  constructor
  · intro h
    cases data with
    | mk cs =>
      cases cs with
      | nil => rfl
      | cons c cs => simp [String.length] at h
  · intro h
    rw [h]
    rfl

theorem unmarshalValue_empty : unmarshalValue "" = none := rfl

theorem ReadAll_ok (b : Body) (h : b.readErr = none) : ReadAll b = .ok b.data := by
  unfold ReadAll
  rw [h]

theorem decodedMessageFrom_some (kvs : List (String × JValue)) (x : String) :
    decodedMessageFrom (some x) kvs = some ((decodedMessageFrom none kvs).getD x) := by
  induction kvs generalizing x with
  | nil => rfl
  | cons kv kvs ih =>
    obtain ⟨k, v⟩ := kv
    unfold decodedMessageFrom
    split
    · rename_i s hk
      rw [ih s]
      rfl
    · rw [ih x]

theorem bindErrorMember_bad (S : Std) (st : UnmarshalState) (k : String) (v : JValue)
    (h : st.bad = true) : (bindErrorMember S st k v).bad = true := by
  unfold bindErrorMember
  repeat' (first | rfl | assumption | split | simp only [h, Bool.true_or])

theorem bind_fold_bad (S : Std) (kvs : List (String × JValue)) (st : UnmarshalState)
    (h : st.bad = true) :
    (kvs.foldl (fun s kv => bindErrorMember S s kv.1 kv.2) st).bad = true := by
  induction kvs generalizing st with
  | nil => exact h
  | cons kv kvs ih =>
    rw [List.foldl_cons]
    exact ih _ (bindErrorMember_bad S st kv.1 kv.2 h)

theorem bindErrorMember_misfit (S : Std) (st : UnmarshalState) (kv : String × JValue)
    (h : misfitsMessage kv = true) : (bindErrorMember S st kv.1 kv.2).bad = true := by
  obtain ⟨k, v⟩ := kv
  unfold misfitsMessage selectedField at h
  unfold bindErrorMember
  dsimp only at h ⊢
  cases hf : Json.findField errorResponseFields k with
  | none => rw [hf] at h; simp at h
  | some f =>
    obtain ⟨a, b, fld⟩ := f
    rw [hf] at h
    cases fld with
    | Response => simp at h
    | Message => cases v <;> simp at h ⊢

theorem bind_fold_misfit (S : Std) (kvs : List (String × JValue)) (st : UnmarshalState)
    (h : kvs.any misfitsMessage = true) :
    (kvs.foldl (fun s kv => bindErrorMember S s kv.1 kv.2) st).bad = true := by
  induction kvs generalizing st with
  | nil => exact Bool.noConfusion h
  | cons kv kvs ih =>
    rw [List.foldl_cons]
    rw [List.any_cons, Bool.or_eq_true] at h
    rcases h with h | h
    · exact bind_fold_bad S kvs _ (bindErrorMember_misfit S st kv h)
    · exact ih _ h

theorem bind_fold_noResponse (S : Std) (kvs : List (String × JValue)) (st : UnmarshalState)
    (h : hasResponseMember kvs = false) :
    (kvs.foldl (fun s kv => bindErrorMember S s kv.1 kv.2) st).res = st.res
      ∧ (kvs.foldl (fun s kv => bindErrorMember S s kv.1 kv.2) st).e.Response
          = st.e.Response := by
  induction kvs generalizing st with
  | nil => exact ⟨rfl, rfl⟩
  | cons kv kvs ih =>
    obtain ⟨k, v⟩ := kv
    unfold hasResponseMember at h
    rw [List.any_cons, Bool.or_eq_false_iff] at h
    obtain ⟨hhead, htail⟩ := h
    rw [List.foldl_cons]
    obtain ⟨h1, h2⟩ := ih (bindErrorMember S st k v) htail
    rw [h1, h2]
    unfold selectedField at hhead
    unfold bindErrorMember
    dsimp only at hhead ⊢
    cases hf : Json.findField errorResponseFields k with
    | none => exact ⟨rfl, rfl⟩
    | some f =>
      obtain ⟨a, b, fld⟩ := f
      rw [hf] at hhead
      cases fld with
      | Response => simp at hhead
      | Message => cases v <;> exact ⟨rfl, rfl⟩

/-- On an object of the error shape the binding writes the message only: it
ends with the last message string, or with the message it started from. -/
theorem bind_error_shape (S : Std) (kvs : List (String × JValue)) (st : UnmarshalState)
    (h : matchesErrorShape kvs = true) :
    (kvs.foldl (fun s kv => bindErrorMember S s kv.1 kv.2) st).res = st.res
      ∧ (kvs.foldl (fun s kv => bindErrorMember S s kv.1 kv.2) st).bad = st.bad
      ∧ (kvs.foldl (fun s kv => bindErrorMember S s kv.1 kv.2) st).e.Response = st.e.Response
      ∧ some (kvs.foldl (fun s kv => bindErrorMember S s kv.1 kv.2) st).e.Message
          = decodedMessageFrom (some st.e.Message) kvs := by
  induction kvs generalizing st with
  | nil => exact ⟨rfl, rfl, rfl, rfl⟩
  | cons kv kvs ih =>
    obtain ⟨k, v⟩ := kv
    unfold matchesErrorShape at h
    rw [List.all_cons, Bool.and_eq_true] at h
    obtain ⟨hhead, htail⟩ := h
    have ih2 := fun st2 => ih st2 htail
    rw [List.foldl_cons]
    unfold decodedMessageFrom
    dsimp only at hhead ⊢
    unfold selectedField at hhead ⊢
    unfold bindErrorMember
    cases hf : Json.findField errorResponseFields k with
    | none =>
      simp only []
      exact ih2 st
    | some f =>
      obtain ⟨a, b, fld⟩ := f
      rw [hf] at hhead
      cases fld with
      | Response => simp at hhead
      | Message =>
        cases v with
        | string s =>
          simp only []
          exact ih2 _
        | null =>
          simp only []
          exact ih2 st
        | bool b => simp at hhead
        | number l => simp at hhead
        | array xs => simp at hhead
        | object o => simp at hhead

theorem checkResponse_error_shape (S : Std) (res : Response)
    (hc : ¬ (200 ≤ res.StatusCode ∧ res.StatusCode ≤ 299))
    (kvs : List (String × JValue))
    (hr : res.Body.readErr = none)
    (hu : unmarshalValue res.Body.data = some (.object kvs))
    (hs : matchesErrorShape kvs = true) :
    checkResponse S res
      = (res, some { Response := some res, Message := (decodedMessage kvs).getD "" }) := by
  have hne : ¬ res.Body.data.length = 0 := by
    intro h0
    rw [(length_eq_zero_iff _).1 h0, unmarshalValue_empty] at hu
    exact Option.noConfusion hu
  obtain ⟨h1, h2, h3, h4⟩ := bind_error_shape S kvs
    { res := res, aliased := true, e := { Response := some res, Message := "" }, bad := false } hs
  rw [decodedMessageFrom_some kvs ""] at h4
  injection h4 with h4
  unfold checkResponse
  rw [if_neg hc, ReadAll_ok _ hr]
  simp only [hne, if_false, hu, bindErrorResponse]
  rw [h2]
  simp only [Bool.false_eq_true, if_false]
  rw [h1]
  congr 2
  cases he : (List.foldl (fun s kv => bindErrorMember S s kv.1 kv.2)
      { res := res, aliased := true, e := { Response := some res, Message := "" }, bad := false }
      kvs).e with
  | mk r2 m2 =>
    rw [he] at h3 h4
    dsimp only at h3 h4
    rw [h3, h4]
    rfl

theorem checkResponse_not_json (S : Std) (res : Response)
    (hc : ¬ (200 ≤ res.StatusCode ∧ res.StatusCode ≤ 299))
    (hr : res.Body.readErr = none)
    (hne : res.Body.data ≠ "")
    (hu : unmarshalValue res.Body.data = none) :
    checkResponse S res = (res, some { Response := some res, Message := res.Body.data }) := by
  have hl : ¬ res.Body.data.length = 0 := fun h0 => hne ((length_eq_zero_iff _).1 h0)
  unfold checkResponse
  rw [if_neg hc, ReadAll_ok _ hr]
  simp only [hl, if_false, hu]

theorem checkResponse_no_body (S : Std) (res : Response)
    (hc : ¬ (200 ≤ res.StatusCode ∧ res.StatusCode ≤ 299))
    (hb : res.Body.data = "" ∨ res.Body.readErr ≠ none) :
    checkResponse S res = (res, some { Response := some res, Message := "" }) := by
  unfold checkResponse
  rw [if_neg hc]
  cases hr : res.Body.readErr with
  | some e => simp only [ReadAll, hr]
  | none =>
    rcases hb with hb | hb
    · rw [ReadAll_ok _ hr, hb]
      rfl
    · exact absurd hr hb

/-- A body that is valid JSON and does not decode to the error shape: the
message is the body as text. -/
theorem checkResponse_misfit (S : Std) (res : Response)
    (hc : ¬ (200 ≤ res.StatusCode ∧ res.StatusCode ≤ 299))
    (v : JValue)
    (hr : res.Body.readErr = none)
    (hu : unmarshalValue res.Body.data = some v)
    (hf : failsErrorShape v = true) :
    ∃ res2 e, checkResponse S res = (res2, some e) ∧ e.Message = res.Body.data
      ∧ ((∀ kvs, v = .object kvs → hasResponseMember kvs = false) →
          res2 = res ∧ e.Response = some res) := by
  have hne : ¬ res.Body.data.length = 0 := by
    intro h0
    rw [(length_eq_zero_iff _).1 h0, unmarshalValue_empty] at hu
    exact Option.noConfusion hu
  have hbad : (bindErrorResponse S
      { res := res, aliased := true, e := { Response := some res, Message := "" }, bad := false }
      v).bad = true := by
    cases v with
    | null => exact Bool.noConfusion hf
    | object kvs => exact bind_fold_misfit S kvs _ hf
    | bool b => rfl
    | number l => rfl
    | string s => rfl
    | array xs => rfl
  refine ⟨(bindErrorResponse S
      { res := res, aliased := true, e := { Response := some res, Message := "" }, bad := false }
      v).res, { (bindErrorResponse S
      { res := res, aliased := true, e := { Response := some res, Message := "" }, bad := false }
      v).e with Message := res.Body.data }, ?_, rfl, ?_⟩
  · unfold checkResponse
    rw [if_neg hc, ReadAll_ok _ hr]
    simp only [hne, if_false, hu, hbad, if_true]
  · intro hno
    cases v with
    | null => exact Bool.noConfusion hf
    | object kvs =>
      obtain ⟨h1, h2⟩ := bind_fold_noResponse S kvs
        { res := res, aliased := true, e := { Response := some res, Message := "" },
          bad := false } (hno kvs rfl)
      exact ⟨h1, h2⟩
    | bool b => exact ⟨rfl, rfl⟩
    | number l => exact ⟨rfl, rfl⟩
    | string s => exact ⟨rfl, rfl⟩
    | array xs => exact ⟨rfl, rfl⟩

/-- The body `null`: the binding changes nothing and the message stays
empty. -/
theorem checkResponse_null (S : Std) (res : Response)
    (hc : ¬ (200 ≤ res.StatusCode ∧ res.StatusCode ≤ 299))
    (hr : res.Body.readErr = none)
    (hu : unmarshalValue res.Body.data = some .null) :
    checkResponse S res = (res, some { Response := some res, Message := "" }) := by
  have hne : ¬ res.Body.data.length = 0 := by
    intro h0
    rw [(length_eq_zero_iff _).1 h0, unmarshalValue_empty] at hu
    exact Option.noConfusion hu
  unfold checkResponse
  rw [if_neg hc, ReadAll_ok _ hr]
  simp only [hne, if_false, hu, bindErrorResponse, Bool.false_eq_true]

/-! ## The failure path of `Do` -/

/-- C2.  For a response with a status code outside 200-299 `Do` returns a
response that is not nil together with an `*ErrorResponse`, and the
destination is not touched.  (a) If the body is a JSON object of the error
shape, the error's message is the decoded message field (empty without such a
member); this holds for the body as the reader sees it and for every text of
such an object written with any whitespace.  (b) If the body is not empty and
does not decode, the message is the body as text: when the body is not a JSON
document, and when it is a JSON document that is not an object or holds
something other than a string for the message, again also for every written
text of such a value.  (c) If the body is empty or reading it fails, the
message is empty and `Error()` renders it as `Request error` after the status
code.  In the three cases the response returned is the one received and the
error points to it. -/
theorem Do_failure_message (S : Std) (k : Kongo) (req : Request) (res : Response)
    (value : Option Dest)
    (hdo : k.client.Do req = .ok res)
    (hc : ¬ (200 ≤ res.StatusCode ∧ res.StatusCode ≤ 299)) :
    (∃ res2 e, k.Do S req value = (some res2, some (Error.response e), value)
      ∧ (∀ (kvs : List (String × JValue)), res.Body.readErr = none →
          unmarshalValue res.Body.data = some (.object kvs) →
          matchesErrorShape kvs = true →
          e.Message = (decodedMessage kvs).getD "" ∧ res2 = res ∧ e.Response = some res)
      ∧ (∀ (w w2 : List Char) (kvs : List (String × JValue)),
          w.all Json.isSpace = true → w2.all Json.isSpace = true →
          Json.printable (.object kvs) = true →
          Json.depth (.object kvs) ≤ Json.maxNestingDepth →
          matchesErrorShape kvs = true →
          res.Body = { data := String.mk (Json.print w (.object kvs) ++ w2), readErr := none } →
          e.Message = (decodedMessage kvs).getD "" ∧ res2 = res ∧ e.Response = some res)
      ∧ (res.Body.readErr = none → res.Body.data ≠ "" →
          unmarshalValue res.Body.data = none →
          e.Message = res.Body.data ∧ res2 = res ∧ e.Response = some res)
      ∧ (∀ (v : JValue), res.Body.readErr = none →
          unmarshalValue res.Body.data = some v → failsErrorShape v = true →
          e.Message = res.Body.data
            ∧ ((∀ kvs, v = .object kvs → hasResponseMember kvs = false) →
                res2 = res ∧ e.Response = some res))
      ∧ (∀ (w w2 : List Char) (v : JValue),
          w.all Json.isSpace = true → w2.all Json.isSpace = true →
          Json.printable v = true → Json.depth v ≤ Json.maxNestingDepth →
          failsErrorShape v = true →
          res.Body = { data := String.mk (Json.print w v ++ w2), readErr := none } →
          e.Message = String.mk (Json.print w v ++ w2))
      ∧ ((res.Body.data = "" ∨ res.Body.readErr ≠ none) →
          e.Message = "" ∧ e.Error.1 = some (toString res.StatusCode ++ " " ++ "Request error")
            ∧ res2 = res ∧ e.Response = some res))
      ∧ failureMessage exampleStd 404 "\x7b\"message\": \"Not found\"\x7d" = some "Not found"
      ∧ failureMessage exampleStd 503 unavailableBody = some "Service Unavailable"
      ∧ failureMessage exampleStd 409 "\x7b\"Message\":\"a\",\"code\":3,\"message\":\"b\"\x7d"
          = some "b"
      ∧ failureMessage exampleStd 400 "\x7b\"message\":5\x7d" = some "\x7b\"message\":5\x7d"
      ∧ failureMessage exampleStd 400 "[1,2]" = some "[1,2]"
      ∧ failureMessage exampleStd 502 "<html>Bad Gateway</html>"
          = some "<html>Bad Gateway</html>"
      ∧ failureMessage exampleStd 500 "\x7b\"message\":\"cut" = some "\x7b\"message\":\"cut"
      ∧ failureMessage exampleStd 500 "" = some ""
      ∧ failureText exampleStd 500 "" = some "500 Request error"
      ∧ failureText exampleStd 404 "\x7b\"message\": \"Not found\"\x7d" = some "404 Not found" := by
  refine ⟨?_, by decide!, by decide!, by decide!, by decide!, by decide!, by decide!,
    by decide!, by decide!, by decide!, by decide!⟩
  obtain ⟨res2, e, hcr, hDo⟩ := Do_failure S k req res value hdo hc
  refine ⟨res2, e, hDo, ?_, ?_, ?_, ?_, ?_, ?_⟩
  · intro kvs hr hu hs
    rw [checkResponse_error_shape S res hc kvs hr hu hs] at hcr
    injection hcr with h1 h2
    injection h2 with h2
    subst h1 h2
    exact ⟨rfl, rfl, rfl⟩
  · intro w w2 kvs hw hw2 hp hd hs hb
    have hr : res.Body.readErr = none := by rw [hb]
    have hu : unmarshalValue res.Body.data = some (.object kvs) := by
      rw [hb]
      exact Json.document_print w w2 hw hw2 _ hp hd
    rw [checkResponse_error_shape S res hc kvs hr hu hs] at hcr
    injection hcr with h1 h2
    injection h2 with h2
    subst h1 h2
    exact ⟨rfl, rfl, rfl⟩
  · intro hr hne hu
    rw [checkResponse_not_json S res hc hr hne hu] at hcr
    injection hcr with h1 h2
    injection h2 with h2
    subst h1 h2
    exact ⟨rfl, rfl, rfl⟩
  · intro v hr hu hf
    obtain ⟨r3, e3, h3, hm, hrest⟩ := checkResponse_misfit S res hc v hr hu hf
    rw [h3] at hcr
    injection hcr with h1 h2
    injection h2 with h2
    subst h1 h2
    exact ⟨hm, hrest⟩
  · intro w w2 v hw hw2 hp hd hf hb
    have hr : res.Body.readErr = none := by rw [hb]
    have hu : unmarshalValue res.Body.data = some v := by
      rw [hb]
      exact Json.document_print w w2 hw hw2 _ hp hd
    obtain ⟨r3, e3, h3, hm, _⟩ := checkResponse_misfit S res hc v hr hu hf
    rw [h3] at hcr
    injection hcr with h1 h2
    injection h2 with h2
    subst h1 h2
    rw [hm, hb]
  · intro hb
    rw [checkResponse_no_body S res hc hb] at hcr
    injection hcr with h1 h2
    injection h2 with h2
    subst h1 h2
    exact ⟨rfl, by simp [ErrorResponse.Error, sprintfStatus], rfl, rfl⟩

/-- Witness of C2: the 503 reply with the body
`{"message":"Service Unavailable"}`, read as the written text of the object
with that one member. -/
theorem Do_failure_message_witness :
    (mockKongo 503 unavailableBody).client.Do statusRequest
        = .ok { StatusCode := 503, Body := { data := unavailableBody, readErr := none } }
      ∧ ¬ ((200 : Int) ≤ 503 ∧ (503 : Int) ≤ 299)
      ∧ unavailableBody
          = String.mk (Json.print [] (.object [("message", .string "Service Unavailable")]) ++ [])
      ∧ ((mockKongo 503 unavailableBody).Do exampleStd statusRequest none).1
          = some { StatusCode := 503, Body := { data := unavailableBody, readErr := none } }
      ∧ (((mockKongo 503 unavailableBody).Do exampleStd statusRequest none).2.1.bind
          Error.asResponse).map (fun e => e.Message) = some "Service Unavailable" := by
  refine ⟨rfl, by decide, by decide!, ?_⟩
  obtain ⟨⟨res2, e, hDo, _, ha, _⟩, _⟩ :=
    Do_failure_message exampleStd (mockKongo 503 unavailableBody) statusRequest
      { StatusCode := 503, Body := { data := unavailableBody, readErr := none } } none rfl
      (by decide)
  obtain ⟨h1, h2, _⟩ := ha [] [] [("message", JValue.string "Service Unavailable")]
    rfl rfl rfl (by decide) (by decide!) (by decide!)
  rw [hDo, h2]
  refine ⟨rfl, ?_⟩
  simp only [Option.bind, Error.asResponse, Option.map, h1]
  decide!

/-! ## The success path of `Do`: a body that does not decode -/

/-- C3, on the code.  The body `{"hostname":"kong1"} trailing` is not a JSON
document, yet `Do` with a destination returns the response and no error at
status 200, and the destination holds the decoded object: the decoder reads
the first value of the stream and does not look at what follows it. -/
theorem Do_accepts_trailing_text :
    (unmarshalValue trailingBody).isNone = true
      ∧ ((mockKongo 200 trailingBody).Do exampleStd statusRequest
            (some { ty := NodeInfo, val := NodeInfo.zero })).1
          = some { StatusCode := 200, Body := { data := trailingBody, readErr := none } }
      ∧ ((mockKongo 200 trailingBody).Do exampleStd statusRequest
            (some { ty := NodeInfo, val := NodeInfo.zero })).2.1 = none
      ∧ (((mockKongo 200 trailingBody).Do exampleStd statusRequest
            (some { ty := NodeInfo, val := NodeInfo.zero })).2.2.bind
              (fun d => d.val.stringField "Hostname")) = some "kong1" := by
  refine ⟨?_, ?_, ?_, ?_⟩ <;> decide!

theorem fits_struct_scalar (fs : List (String × String × GoType)) (v : JValue)
    (ho : ∀ kvs, v ≠ .object kvs) (hn : v ≠ .null) : Json.fits (.struct fs) v = false := by
  cases v with
  | null => exact absurd rfl hn
  | object kvs => exact absurd rfl (ho kvs)
  | bool b => rfl
  | number l => rfl
  | string s => rfl
  | array xs => rfl

/-- C3, amended.  For a response with a status code in 200-299 whose body is
read without error, `Do` called with a destination fails with the decode error
and returns no response exactly when the body does not start, after
whitespace, with a JSON value that fits the destination.  So a body that is
not valid JSON fails unless it starts with a fitting value: then the response
and no error are returned and the destination holds the value, whatever text
follows the value, which the decoder does not examine.  A value that is not
an object and not `null` never fits a struct, as in `5 trailing`. -/
theorem Do_decode_failure (S : Std) (k : Kongo) (req : Request) (res : Response) (d : Dest)
    (hdo : k.client.Do req = .ok res)
    (hc : 200 ≤ res.StatusCode ∧ res.StatusCode ≤ 299)
    (hr : res.Body.readErr = none) :
    (Json.readValue res.Body.data = none →
        k.Do S req (some d) = (none, some Error.decode, some d))
      ∧ (∀ v rest, Json.readValue res.Body.data = some (v, rest) → Json.fits d.ty v = false →
          k.Do S req (some d)
            = (none, some Error.decode, some { d with val := Json.bindValue d.ty v d.val }))
      ∧ (∀ v rest, Json.readValue res.Body.data = some (v, rest) → Json.fits d.ty v = true →
          k.Do S req (some d)
            = (some res, none, some { d with val := Json.bindValue d.ty v d.val }))
      ∧ (((k.Do S req (some d)).1 = none ∧ (k.Do S req (some d)).2.1 = some Error.decode)
          ↔ ¬ ∃ v rest, Json.readValue res.Body.data = some (v, rest) ∧ Json.fits d.ty v = true)
      ∧ (((k.Do S req (some d)).1 = some res ∧ (k.Do S req (some d)).2.1 = none)
          ↔ ∃ v rest, Json.readValue res.Body.data = some (v, rest) ∧ Json.fits d.ty v = true)
      ∧ (∀ (w : List Char) (j : JValue) (rest : List Char), w.all Json.isSpace = true →
          Json.printable j = true → Json.depth j ≤ Json.maxNestingDepth →
          (Json.isContainer j = true ∨ Json.endsNumber rest = true) →
          res.Body.data = String.mk (Json.print w j ++ rest) →
          k.Do S req (some d) =
            if Json.fits d.ty j then
              (some res, none, some { d with val := Json.bindValue d.ty j d.val })
            else (none, some Error.decode, some { d with val := Json.bindValue d.ty j d.val }))
      ∧ (∀ fs v, d.ty = .struct fs → (∀ kvs, v ≠ .object kvs) → v ≠ .null →
          Json.fits d.ty v = false)
      ∧ decodeOutcome exampleStd 200 "5 trailing" NodeInfo = (none, some Error.decode)
      ∧ decodeOutcome exampleStd 200 "<html>" NodeInfo = (none, some Error.decode)
      ∧ decodeOutcome exampleStd 200 "" NodeInfo = (none, some Error.decode)
      ∧ decodeOutcome exampleStd 200 "\x7b\"hostname\":\"kong1\"" NodeInfo
          = (none, some Error.decode)
      ∧ decodeOutcome exampleStd 200 "\x7b\"hostname\":5\x7d" NodeInfo
          = (none, some Error.decode)
      ∧ decodeOutcome exampleStd 200 "5 trailing" .int
          = (some { StatusCode := 200, Body := { data := "5 trailing", readErr := none } }, none)
      ∧ decodeOutcome exampleStd 200 trailingBody NodeInfo
          = (some { StatusCode := 200, Body := { data := trailingBody, readErr := none } }, none)
      := by
  have hread : ∀ v rest, Json.readValue res.Body.data = some (v, rest) →
      k.Do S req (some d) =
        if Json.fits d.ty v then
          (some res, none, some { d with val := Json.bindValue d.ty v d.val })
        else (none, some Error.decode, some { d with val := Json.bindValue d.ty v d.val }) :=
    fun v rest h => Do_of_read S k req res d v rest hdo hc hr h
  refine ⟨Do_of_no_value S k req res d hdo hc, ?_, ?_, ?_, ?_, ?_, ?_,
    by decide!, by decide!, by decide!, by decide!, by decide!, by decide!, by decide!⟩
  · intro v rest h hf
    rw [hread v rest h, hf]
    rfl
  · intro v rest h hf
    rw [hread v rest h, hf]
    rfl
  · cases h : Json.readValue res.Body.data with
    | none =>
      rw [Do_of_no_value S k req res d hdo hc h]
      simp
    | some p =>
      obtain ⟨v, rest⟩ := p
      rw [hread v rest h]
      cases hf : Json.fits d.ty v
      · simp [hf]
      · simp [hf]
  · cases h : Json.readValue res.Body.data with
    | none =>
      rw [Do_of_no_value S k req res d hdo hc h]
      simp
    | some p =>
      obtain ⟨v, rest⟩ := p
      rw [hread v rest h]
      cases hf : Json.fits d.ty v
      · simp [hf]
      · simp [hf]
  · intro w j rest hw hp hd hcont hb
    apply hread j rest
    rw [hb]
    exact Json.readValue_print w hw j rest hp hd hcont
  · intro fs v ht ho hn
    rw [ht]
    exact fits_struct_scalar fs v ho hn

/-- Witness of C3: the body `5 trailing` at status 200 with a `NodeInfo` as
destination; the body is the text of the number 5 followed by other text. -/
theorem Do_decode_failure_witness :
    (mockKongo 200 "5 trailing").client.Do statusRequest
        = .ok { StatusCode := 200, Body := { data := "5 trailing", readErr := none } }
      ∧ ((200 : Int) ≤ 200 ∧ (200 : Int) ≤ 299)
      ∧ (unmarshalValue "5 trailing").isNone = true
      ∧ "5 trailing" = String.mk (Json.print [] (.number "5") ++ " trailing".data)
      ∧ Json.fits NodeInfo (.number "5") = false
      ∧ ((mockKongo 200 "5 trailing").Do exampleStd statusRequest
          (some { ty := NodeInfo, val := NodeInfo.zero })).1 = none
      ∧ ((mockKongo 200 "5 trailing").Do exampleStd statusRequest
          (some { ty := NodeInfo, val := NodeInfo.zero })).2.1 = some Error.decode := by
  have h := (Do_decode_failure exampleStd (mockKongo 200 "5 trailing") statusRequest
      { StatusCode := 200, Body := { data := "5 trailing", readErr := none } }
      { ty := NodeInfo, val := NodeInfo.zero } rfl (by decide) rfl).2.2.2.2.2.1
      [] (.number "5") " trailing".data rfl rfl (by decide) (Or.inr rfl) (by decide!)
  have hf : Json.fits NodeInfo (.number "5") = false := rfl
  rw [hf] at h
  refine ⟨rfl, by decide, by decide!, by decide!, hf, ?_, ?_⟩
  · rw [h]
    rfl
  · rw [h]
    rfl

/-! ## The success path of `Do` -/

set_option maxRecDepth 1000000 in
set_option maxHeartbeats 4000000 in
theorem decodedValue_statusBody :
    decodedValue exampleStd 200 statusBody NodeStatus = some statusValue := by
  rfl

set_option maxRecDepth 1000000 in
set_option maxHeartbeats 4000000 in
theorem decodedValue_infoBody :
    decodedValue exampleStd 200 infoBody NodeInfo = some infoValue := by
  rfl

/-- The JSON value that stands for `statusValue`. -/
theorem encode_statusValue :
    Json.encode NodeStatus statusValue = .object [
      ("database", .object [("reachable", .bool true)]),
      ("server", .object [("connections_accepted", .number "12"),
        ("connections_active", .number "1"), ("connections_handled", .number "12"),
        ("connections_reading", .number "0"), ("connections_waiting", .number "0"),
        ("connections_writing", .number "1"), ("total_requests", .number "4096")])] := by
  simp [Json.encode, Json.encodeFields, NodeStatus, NodeStatusDatabase, NodeStatusServer,
    statusValue, field, Json.renderInt, Json.renderNat, Json.digitChar]

/-- C8.  For a response with a status code in 200-299, `Do` without a
destination returns that response and no error, whatever the body.  With a
destination it returns that response and no error when the body is a JSON
document that matches the type of the destination, and the destination holds
the decoded value: for every Go value `g` of the type and every text of `g`
as JSON, written with any whitespace, a new destination ends up holding `g`;
and for every document whose value fits the type the destination holds the
value bound to it.  The node information example decodes to `Hostname`
`kong1`, `Version` `1.0.0` and `Tagline` `Welcome to kong`; a node status
and a node information with nested objects, lists, maps and numbers decode to
the values they stand for. -/
theorem Do_success (S : Std) (k : Kongo) (req : Request) (res : Response)
    (hdo : k.client.Do req = .ok res)
    (hc : 200 ≤ res.StatusCode ∧ res.StatusCode ≤ 299) :
    k.Do S req none = (some res, none, none)
      ∧ (∀ (ty : GoType) (g : GoValue) (w w2 : List Char),
          w.all Json.isSpace = true → w2.all Json.isSpace = true →
          Json.distinctFields ty = true → Json.hasType ty g = true →
          Json.printable (Json.encode ty g) = true →
          Json.depth (Json.encode ty g) ≤ Json.maxNestingDepth →
          res.Body = { data := String.mk (Json.print w (Json.encode ty g) ++ w2),
                       readErr := none } →
          k.Do S req (some { ty := ty, val := ty.zero })
            = (some res, none, some { ty := ty, val := g }))
      ∧ (∀ (d : Dest) (v : JValue), res.Body.readErr = none →
          unmarshalValue res.Body.data = some v → Json.fits d.ty v = true →
          k.Do S req (some d)
            = (some res, none, some { d with val := Json.bindValue d.ty v d.val }))
      ∧ decodeOutcome exampleStd 200 nodeInfoBody NodeInfo
          = (some { StatusCode := 200, Body := { data := nodeInfoBody, readErr := none } }, none)
      ∧ (decodedValue exampleStd 200 nodeInfoBody NodeInfo).bind
          (fun v => v.stringField "Hostname") = some "kong1"
      ∧ (decodedValue exampleStd 200 nodeInfoBody NodeInfo).bind
          (fun v => v.stringField "Version") = some "1.0.0"
      ∧ (decodedValue exampleStd 200 nodeInfoBody NodeInfo).bind
          (fun v => v.stringField "Tagline") = some "Welcome to kong"
      ∧ decodeOutcome exampleStd 200 statusBody NodeStatus
          = (some { StatusCode := 200, Body := { data := statusBody, readErr := none } }, none)
      ∧ decodedValue exampleStd 200 statusBody NodeStatus = some statusValue
      ∧ decodeOutcome exampleStd 204 infoBody NodeInfo
          = (some { StatusCode := 204, Body := { data := infoBody, readErr := none } }, none)
      ∧ decodedValue exampleStd 200 infoBody NodeInfo = some infoValue := by
  refine ⟨Do_success_nil S k req res hdo hc, ?_, ?_, by decide!, by decide!, by decide!,
    by decide!, by decide!, decodedValue_statusBody, by decide!, decodedValue_infoBody⟩
  · intro ty g w w2 hw hw2 hdist hty hp hd hb
    have hr : res.Body.readErr = none := by rw [hb]
    have hread : Json.readValue res.Body.data = some (Json.encode ty g, w2) := by
      rw [hb]
      exact Json.readValue_print w hw _ w2 hp hd (Or.inr (Json.endsNumber_space w2 hw2))
    obtain ⟨hfit, hbind⟩ := Json.bind_encode ty g hdist hty
    rw [Do_of_read S k req res _ _ w2 hdo hc hr hread]
    simp only [hfit, if_true, hbind]
  · intro d v hr hu hfit
    obtain ⟨rest, hread⟩ := readValue_of_document res.Body.data v hu
    rw [Do_of_read S k req res d v rest hdo hc hr hread]
    simp only [hfit, if_true]

/-- Witness of C8: the node status example, read as the written text of
`statusValue`, decodes into a new `NodeStatus` to `statusValue`. -/
theorem Do_success_witness :
    (mockKongo 200 statusBody).client.Do statusRequest
        = .ok { StatusCode := 200, Body := { data := statusBody, readErr := none } }
      ∧ ((200 : Int) ≤ 200 ∧ (200 : Int) ≤ 299)
      ∧ Json.distinctFields NodeStatus = true
      ∧ Json.hasType NodeStatus statusValue = true
      ∧ statusBody = String.mk (Json.print [] (Json.encode NodeStatus statusValue) ++ [])
      ∧ (mockKongo 200 statusBody).Do exampleStd statusRequest
            (some { ty := NodeStatus, val := NodeStatus.zero })
          = (some { StatusCode := 200, Body := { data := statusBody, readErr := none } },
              none, some { ty := NodeStatus, val := statusValue }) := by
  have hbody : statusBody
      = String.mk (Json.print [] (Json.encode NodeStatus statusValue) ++ []) := by
    rw [encode_statusValue]
    decide!
  have hp : Json.printable (Json.encode NodeStatus statusValue) = true := by
    rw [encode_statusValue]
    decide!
  have hd : Json.depth (Json.encode NodeStatus statusValue) ≤ Json.maxNestingDepth := by
    rw [encode_statusValue]
    decide
  refine ⟨rfl, by decide, by decide!, by decide!, hbody, ?_⟩
  exact (Do_success exampleStd (mockKongo 200 statusBody) statusRequest
    { StatusCode := 200, Body := { data := statusBody, readErr := none } } rfl
    (by decide)).2.1 NodeStatus statusValue [] [] rfl rfl (by decide!) (by decide!) hp hd
    (by rw [← hbody])

/-! ## The accessors of the node service -/

theorem InfoWithContext_eq_spec (S : Std) (n : NodeService) (ctx : Context) :
    n.InfoWithContext S ctx = accessorSpec S n.client ctx "/" NodeInfo := by
  unfold NodeService.InfoWithContext accessorSpec
  simp only [MethodGet, nodeInfoResourcePath]
  cases hn : n.client.NewRequestURL S ctx "GET" (parseResource S "/") none with
  | error err => rfl
  | ok req =>
    dsimp only
    cases hd : n.client.Do S req (some { ty := NodeInfo, val := NodeInfo.zero }) with
    | mk r rest =>
      obtain ⟨err, d⟩ := rest
      cases err <;> simp

theorem StatusWithContext_eq_spec (S : Std) (n : NodeService) (ctx : Context) :
    n.StatusWithContext S ctx = accessorSpec S n.client ctx "/status" NodeStatus := by
  unfold NodeService.StatusWithContext accessorSpec
  simp only [MethodGet, nodeStatusResourcePath]
  cases hn : n.client.NewRequestURL S ctx "GET" (parseResource S "/status") none with
  | error err => rfl
  | ok req =>
    dsimp only
    cases hd : n.client.Do S req (some { ty := NodeStatus, val := NodeStatus.zero }) with
    | mk r rest =>
      obtain ⟨err, d⟩ := rest
      cases err <;> simp

theorem accessorSpec_result_iff (S : Std) (k : Kongo) (ctx : Context) (path : String)
    (ty : GoType) :
    (accessorSpec S k ctx path ty).1.isSome = true ↔ (accessorSpec S k ctx path ty).2.2 = none := by
  unfold accessorSpec
  cases hn : k.NewRequestURL S ctx "GET" (parseResource S path) none with
  | error err => simp
  | ok req =>
    dsimp only
    by_cases he : (k.Do S req (some { ty := ty, val := ty.zero })).2.1 = none
    · simp [he]
    · simp [he]

theorem accessorSpec_of_request (S : Std) (k : Kongo) (ctx : Context) (path : String)
    (ty : GoType) (req : Request)
    (hn : k.NewRequestURL S ctx "GET" (parseResource S path) none = .ok req) :
    (accessorSpec S k ctx path ty).2.1 = (k.Do S req (some { ty := ty, val := ty.zero })).1
      ∧ (accessorSpec S k ctx path ty).2.2
          = (k.Do S req (some { ty := ty, val := ty.zero })).2.1 := by
  unfold accessorSpec
  rw [hn]
  exact ⟨rfl, rfl⟩

theorem accessorSpec_failure (S : Std) (k : Kongo) (ctx : Context) (path : String)
    (ty : GoType) (req : Request) (res : Response)
    (hn : k.NewRequestURL S ctx "GET" (parseResource S path) none = .ok req)
    (hdo : k.client.Do req = .ok res)
    (hc : ¬ (200 ≤ res.StatusCode ∧ res.StatusCode ≤ 299)) :
    ∃ res2 e, checkResponse S res = (res2, some e)
      ∧ accessorSpec S k ctx path ty = (none, some res2, some (Error.response e)) := by
  obtain ⟨res2, e, hcr, hDo⟩ := Do_failure S k req res (some { ty := ty, val := ty.zero }) hdo hc
  refine ⟨res2, e, hcr, ?_⟩
  unfold accessorSpec
  rw [hn]
  dsimp only
  rw [hDo]
  simp

theorem accessorSpec_transport (S : Std) (k : Kongo) (ctx : Context) (path : String)
    (ty : GoType) (req : Request) (err : Error)
    (hn : k.NewRequestURL S ctx "GET" (parseResource S path) none = .ok req)
    (hdo : k.client.Do req = .error err) :
    accessorSpec S k ctx path ty = (none, none, some err) := by
  unfold accessorSpec
  rw [hn]
  dsimp only
  rw [Do_transport_error S k req _ err hdo]
  simp

theorem accessorSpec_no_value (S : Std) (k : Kongo) (ctx : Context) (path : String)
    (ty : GoType) (req : Request) (res : Response)
    (hn : k.NewRequestURL S ctx "GET" (parseResource S path) none = .ok req)
    (hdo : k.client.Do req = .ok res)
    (hc : 200 ≤ res.StatusCode ∧ res.StatusCode ≤ 299)
    (hbody : Json.readValue res.Body.data = none) :
    accessorSpec S k ctx path ty = (none, none, some Error.decode) := by
  unfold accessorSpec
  rw [hn]
  dsimp only
  rw [Do_of_no_value S k req res _ hdo hc hbody]
  simp

theorem accessorSpec_read (S : Std) (k : Kongo) (ctx : Context) (path : String)
    (ty : GoType) (req : Request) (res : Response) (v : JValue) (rest : List Char)
    (hn : k.NewRequestURL S ctx "GET" (parseResource S path) none = .ok req)
    (hdo : k.client.Do req = .ok res)
    (hc : 200 ≤ res.StatusCode ∧ res.StatusCode ≤ 299)
    (hr : res.Body.readErr = none)
    (hbody : Json.readValue res.Body.data = some (v, rest)) :
    accessorSpec S k ctx path ty =
      if Json.fits ty v then (some (Json.bindValue ty v ty.zero), some res, none)
      else (none, none, some Error.decode) := by
  unfold accessorSpec
  rw [hn]
  dsimp only
  rw [Do_of_read S k req res _ v rest hdo hc hr hbody]
  cases Json.fits ty v <;> simp

set_option maxRecDepth 1000000 in
set_option maxHeartbeats 4000000 in
theorem StatusWithContext_example :
    NodeService.StatusWithContext exampleStd { client := mockKongo 200 statusBody }
        Context.background
      = (some statusValue,
          some { StatusCode := 200, Body := { data := statusBody, readErr := none } }, none) := by
  rfl

set_option maxRecDepth 1000000 in
set_option maxHeartbeats 4000000 in
theorem InfoWithContext_example :
    NodeService.InfoWithContext exampleStd { client := mockKongo 200 infoBody }
        Context.background
      = (some infoValue,
          some { StatusCode := 200, Body := { data := infoBody, readErr := none } }, none) := by
  rfl

/-- C9.  `InfoWithContext` and `StatusWithContext` are the composition of
`NewRequest` with the method GET, for the parsed paths `/` and `/status` and
without a body, and `Do` with a destination of the typed shape: when the
request cannot be built they return its error alone; otherwise they return the
response and the error of `Do` unchanged; the typed result is present exactly
when the error is nil; when the transport fails the caller gets no result, no
response and the error; on a reply outside 200-299 no result, the response and
the `*ErrorResponse` of `checkResponse`; on a body that cannot be decoded no
result, no response and the decode error; on a body that starts with a fitting
value the value bound to a new variable, the response and no error.  `Info`
and `Status` are the same calls with the context `context.TODO()`.  Against
a server that answers 200 with a node status or a node information the
accessors return the decoded value and the response. -/
theorem accessors_compose (S : Std) (n : NodeService) (ctx : Context) :
    n.InfoWithContext S ctx = accessorSpec S n.client ctx "/" NodeInfo
      ∧ n.StatusWithContext S ctx = accessorSpec S n.client ctx "/status" NodeStatus
      ∧ n.Info S = n.InfoWithContext S Context.todo
      ∧ n.Status S = n.StatusWithContext S Context.todo
      ∧ ((n.InfoWithContext S ctx).1.isSome = true ↔ (n.InfoWithContext S ctx).2.2 = none)
      ∧ ((n.StatusWithContext S ctx).1.isSome = true ↔ (n.StatusWithContext S ctx).2.2 = none)
      ∧ (∀ err, n.client.NewRequestURL S ctx "GET" (parseResource S "/") none = .error err →
            n.InfoWithContext S ctx = (none, none, some err))
      ∧ (∀ err, n.client.NewRequestURL S ctx "GET" (parseResource S "/status") none
              = .error err →
            n.StatusWithContext S ctx = (none, none, some err))
      ∧ (∀ req, n.client.NewRequestURL S ctx "GET" (parseResource S "/") none = .ok req →
            (n.InfoWithContext S ctx).2.1
                = (n.client.Do S req (some { ty := NodeInfo, val := NodeInfo.zero })).1
              ∧ (n.InfoWithContext S ctx).2.2
                = (n.client.Do S req (some { ty := NodeInfo, val := NodeInfo.zero })).2.1)
      ∧ (∀ req, n.client.NewRequestURL S ctx "GET" (parseResource S "/status") none = .ok req →
            (n.StatusWithContext S ctx).2.1
                = (n.client.Do S req (some { ty := NodeStatus, val := NodeStatus.zero })).1
              ∧ (n.StatusWithContext S ctx).2.2
                = (n.client.Do S req (some { ty := NodeStatus, val := NodeStatus.zero })).2.1)
      ∧ (∀ req err, n.client.NewRequestURL S ctx "GET" (parseResource S "/") none = .ok req →
            n.client.client.Do req = .error err →
            n.InfoWithContext S ctx = (none, none, some err))
      ∧ (∀ req err,
            n.client.NewRequestURL S ctx "GET" (parseResource S "/status") none = .ok req →
            n.client.client.Do req = .error err →
            n.StatusWithContext S ctx = (none, none, some err))
      ∧ (∀ req res, n.client.NewRequestURL S ctx "GET" (parseResource S "/") none = .ok req →
            n.client.client.Do req = .ok res →
            ¬ (200 ≤ res.StatusCode ∧ res.StatusCode ≤ 299) →
            ∃ res2 e, checkResponse S res = (res2, some e)
              ∧ n.InfoWithContext S ctx = (none, some res2, some (Error.response e)))
      ∧ (∀ req res,
            n.client.NewRequestURL S ctx "GET" (parseResource S "/status") none = .ok req →
            n.client.client.Do req = .ok res →
            ¬ (200 ≤ res.StatusCode ∧ res.StatusCode ≤ 299) →
            ∃ res2 e, checkResponse S res = (res2, some e)
              ∧ n.StatusWithContext S ctx = (none, some res2, some (Error.response e)))
      ∧ (∀ req res, n.client.NewRequestURL S ctx "GET" (parseResource S "/") none = .ok req →
            n.client.client.Do req = .ok res →
            (200 ≤ res.StatusCode ∧ res.StatusCode ≤ 299) →
            Json.readValue res.Body.data = none →
            n.InfoWithContext S ctx = (none, none, some Error.decode))
      ∧ (∀ req res,
            n.client.NewRequestURL S ctx "GET" (parseResource S "/status") none = .ok req →
            n.client.client.Do req = .ok res →
            (200 ≤ res.StatusCode ∧ res.StatusCode ≤ 299) →
            Json.readValue res.Body.data = none →
            n.StatusWithContext S ctx = (none, none, some Error.decode))
      ∧ (∀ req res v rest,
            n.client.NewRequestURL S ctx "GET" (parseResource S "/") none = .ok req →
            n.client.client.Do req = .ok res →
            (200 ≤ res.StatusCode ∧ res.StatusCode ≤ 299) →
            res.Body.readErr = none →
            Json.readValue res.Body.data = some (v, rest) →
            n.InfoWithContext S ctx =
              if Json.fits NodeInfo v then
                (some (Json.bindValue NodeInfo v NodeInfo.zero), some res, none)
              else (none, none, some Error.decode))
      ∧ (∀ req res v rest,
            n.client.NewRequestURL S ctx "GET" (parseResource S "/status") none = .ok req →
            n.client.client.Do req = .ok res →
            (200 ≤ res.StatusCode ∧ res.StatusCode ≤ 299) →
            res.Body.readErr = none →
            Json.readValue res.Body.data = some (v, rest) →
            n.StatusWithContext S ctx =
              if Json.fits NodeStatus v then
                (some (Json.bindValue NodeStatus v NodeStatus.zero), some res, none)
              else (none, none, some Error.decode))
      ∧ NodeService.StatusWithContext exampleStd { client := mockKongo 200 statusBody }
            Context.background
          = (some statusValue,
              some { StatusCode := 200, Body := { data := statusBody, readErr := none } }, none)
      ∧ NodeService.InfoWithContext exampleStd { client := mockKongo 200 infoBody }
            Context.background
          = (some infoValue,
              some { StatusCode := 200, Body := { data := infoBody, readErr := none } }, none)
      := by
  have hI := InfoWithContext_eq_spec S n ctx
  have hS := StatusWithContext_eq_spec S n ctx
  refine ⟨hI, hS, rfl, rfl, ?_, ?_, ?_, ?_, ?_, ?_, ?_, ?_, ?_, ?_, ?_, ?_, ?_, ?_,
    StatusWithContext_example, InfoWithContext_example⟩
  · rw [hI]
    exact accessorSpec_result_iff S n.client ctx "/" NodeInfo
  · rw [hS]
    exact accessorSpec_result_iff S n.client ctx "/status" NodeStatus
  · intro err hn
    rw [hI]
    unfold accessorSpec
    rw [hn]
  · intro err hn
    rw [hS]
    unfold accessorSpec
    rw [hn]
  · intro req hn
    rw [hI]
    exact accessorSpec_of_request S n.client ctx "/" NodeInfo req hn
  · intro req hn
    rw [hS]
    exact accessorSpec_of_request S n.client ctx "/status" NodeStatus req hn
  · intro req err hn hdo
    rw [hI]
    exact accessorSpec_transport S n.client ctx "/" NodeInfo req err hn hdo
  · intro req err hn hdo
    rw [hS]
    exact accessorSpec_transport S n.client ctx "/status" NodeStatus req err hn hdo
  · intro req res hn hdo hc
    rw [hI]
    exact accessorSpec_failure S n.client ctx "/" NodeInfo req res hn hdo hc
  · intro req res hn hdo hc
    rw [hS]
    exact accessorSpec_failure S n.client ctx "/status" NodeStatus req res hn hdo hc
  · intro req res hn hdo hc hb
    rw [hI]
    exact accessorSpec_no_value S n.client ctx "/" NodeInfo req res hn hdo hc hb
  · intro req res hn hdo hc hb
    rw [hS]
    exact accessorSpec_no_value S n.client ctx "/status" NodeStatus req res hn hdo hc hb
  · intro req res v rest hn hdo hc hr hb
    rw [hI]
    exact accessorSpec_read S n.client ctx "/" NodeInfo req res v rest hn hdo hc hr hb
  · intro req res v rest hn hdo hc hr hb
    rw [hS]
    exact accessorSpec_read S n.client ctx "/status" NodeStatus req res v rest hn hdo hc hr hb

/-! ## Construction of the client -/

/-- C5.  `NewClient` accepts a base URL that is present and empty, the value
`url.URL{}`, with or without a transport handle, and returns a client with
that empty base URL; its own error text for a nil URL reads
`Empty URL is not allowed`, and `New` rejects the empty string, whose parse is
that same empty URL. -/
theorem NewClient_accepts_empty_URL (S : Std) (client : Option Client) :
    (∃ k, NewClient S client (some URL.zero) = .ok k ∧ k.BaseURL = URL.zero)
      ∧ NewClient S client none = .error (Error.new "Empty URL is not allowed")
      ∧ New S client "" = .error (Error.new "Empty URL is not allowed")
      ∧ exampleStd.parse "" = .ok URL.zero
      ∧ Url.urlString URL.zero = "" := by
  refine ⟨⟨_, rfl, rfl⟩, rfl, ?_, rfl, by decide!⟩
  unfold New
  rw [if_pos rfl]

/-! ## The URL of the request -/

/-- C6, on the code.  At the valid base `http://h:8001` and the valid resource
`/status` the method `G ET` makes `NewRequest` fail.  At the valid base
`http://h:` the request for `/status` has the host `h`, while the resolution
of `/status` against the base has the host `h:`, so the URL of the request is
not the resolution.  And with a base URL built by hand whose host holds a
space, which `NewClient` accepts, `NewRequest` fails for `/status`, because
the text of the resolution does not parse. -/
theorem NewRequest_not_always_resolution :
    (clientAt exampleStd "http://h:8001").isSome = true
      ∧ (resolution exampleStd "http://h:8001" "/status").isSome = true
      ∧ requestURL exampleStd "http://h:8001" "G ET" "/status" = none
      ∧ (clientAt exampleStd "http://h:").isSome = true
      ∧ (resolution exampleStd "http://h:" "/status").map (fun u => u.Host) = some "h:"
      ∧ (requestURL exampleStd "http://h:" "GET" "/status").map (fun u => u.Host) = some "h"
      ∧ requestURL exampleStd "http://h:" "GET" "/status"
          ≠ resolution exampleStd "http://h:" "/status"
      ∧ ((NewClient exampleStd none (some spacedBase)).toOption.map
            (fun k => (k.NewRequest exampleStd Context.background "GET" "/status").toOption))
          = some none := by
  refine ⟨?_, ?_, ?_, ?_, ?_, ?_, ?_, ?_⟩ <;> decide!

theorem removeEmptyPort_same (host : String) (h : host.data.getLast? ≠ some ':') :
    Http.removeEmptyPort host = host := by
  unfold Http.removeEmptyPort
  rw [if_neg]
  exact fun hc => h hc.2

/-- C6, amended.  For every base URL, every resource that `url.Parse` accepts
and every method that `http.NewRequest` accepts (the empty method or a token),
if the text of the resolved URL parses again, `NewRequest` succeeds with a
request whose URL is the standard reference resolution of the resource against
the base URL of the client (not a concatenation), written as text and parsed
again, with an empty port removed from its host.  With the `net/url` of the
examples a host that does not end in a colon is kept as it is; base
`http://h:8001` with `/status` gives `http://h:8001/status`, base
`http://h:8001/v1/` with `nodes` gives `http://h:8001/v1/nodes`, an absolute
resource replaces the base, in the three cases the URL of the request is the
resolution itself; and the reference resolution examples of RFC 3986, normal
and abnormal, come out as the RFC lists them. -/
theorem NewRequest_resolves (S : Std) (k : Kongo) (ctx : Context) (method resource : String)
    (res u : URL)
    (hm : S.validMethod (if method = "" then "GET" else method) = true)
    (hres : S.parse resource = .ok res)
    (hu : S.parse (S.urlString (S.resolveReference k.BaseURL res)) = .ok u) :
    (∃ req, k.NewRequest S ctx method resource = .ok req ∧ req.URL = S.removeEmptyPort u)
      ∧ (∀ v : URL, v.Host.data.getLast? ≠ some ':' → exampleStd.removeEmptyPort v = v)
      ∧ requestURL exampleStd "http://h:8001" "GET" "/status"
          = resolution exampleStd "http://h:8001" "/status"
      ∧ requestText exampleStd "http://h:8001" "GET" "/status" = some "http://h:8001/status"
      ∧ requestURL exampleStd "http://h:8001/v1/" "GET" "nodes"
          = resolution exampleStd "http://h:8001/v1/" "nodes"
      ∧ requestText exampleStd "http://h:8001/v1/" "GET" "nodes"
          = some "http://h:8001/v1/nodes"
      ∧ requestText exampleStd "http://h:8001/v1" "GET" "nodes" = some "http://h:8001/nodes"
      ∧ requestURL exampleStd "http://h:8001/v1/" "GET" "http://other:9000/x"
          = resolution exampleStd "http://h:8001/v1/" "http://other:9000/x"
      ∧ requestText exampleStd "http://h:8001/v1/" "GET" "http://other:9000/x"
          = some "http://other:9000/x"
      ∧ requestText exampleStd "http://h:8001/v1/?a=1#top" "GET" "../x%20y?b=2#frag"
          = some "http://h:8001/x%20y?b=2#frag"
      ∧ requestText exampleStd "http://h:" "GET" "/status" = some "http://h/status"
      ∧ rfcExamples.all (fun p =>
          decide (requestText exampleStd rfcBase "GET" p.1 = some p.2)
            && decide (requestURL exampleStd rfcBase "GET" p.1
                = resolution exampleStd rfcBase p.1)) = true := by
  refine ⟨?_, ?_, by decide!, by decide!, by decide!, by decide!, by decide!, by decide!,
    by decide!, by decide!, by decide!, by decide!⟩
  · unfold Kongo.NewRequest
    rw [hres]
    dsimp only
    rw [httpNewRequest_ok S method _ u hm hu]
    exact ⟨_, rfl, rfl⟩
  · intro v hv
    show ({ v with Host := Http.removeEmptyPort v.Host } : URL) = v
    rw [removeEmptyPort_same v.Host hv]

/-- Witness of C6: `GET /status` at the base `http://h:8001`. -/
theorem NewRequest_resolves_witness :
    exampleStd.validMethod (if "GET" = "" then "GET" else "GET") = true
      ∧ exampleStd.parse "/status" = .ok { URL.zero with Path := "/status" }
      ∧ exampleStd.parse (exampleStd.urlString
            (exampleStd.resolveReference (mockKongo 200 "").BaseURL
              { URL.zero with Path := "/status" }))
          = .ok (URL.http "h:8001" "/status")
      ∧ ∃ req, (mockKongo 200 "").NewRequest exampleStd Context.background "GET" "/status"
            = .ok req
          ∧ req.URL = exampleStd.removeEmptyPort (URL.http "h:8001" "/status") :=
  ⟨by decide!, except_eq_ok _ _ (by decide!), except_eq_ok _ _ (by decide!),
    (NewRequest_resolves exampleStd (mockKongo 200 "") Context.background "GET" "/status"
      { URL.zero with Path := "/status" } (URL.http "h:8001" "/status") (by decide!)
      (except_eq_ok _ _ (by decide!)) (except_eq_ok _ _ (by decide!))).1⟩

end kongo
